import Mathlib

/-!
# The vinstr hardware-counter reader (mali_kbase_vinstr.c)

A shallow embedding of `mali_kbase_vinstr.c`: the per-client ring-buffer
protocol (the producer `kbasep_vinstr_client_dump`, the consumer pair
`kbasep_vinstr_hwcnt_reader_ioctl_get_buffer` /
`kbasep_vinstr_hwcnt_reader_ioctl_put_buffer`, client creation), and the
context around it (setup and release, suspend and resume, the scheduler pass
`kbasep_vinstr_reschedule_worker`, the dump worker, the version query).

Conventions.
* The three ring indices are `atomic_t` (32 bits); they are natural numbers
  kept below `U32_MOD`, incremented with `atomic_inc` (wrapping) and subtracted
  with `u32_sub` (the C expression `write_idx - read_idx` on `unsigned int`).
* Everything the file obtains from outside (the counter virtualizer, the
  allocator, user memory, uninitialised memory) is an explicit argument.
* User memory handed to an ioctl is the list of bytes accessible from the
  user pointer on; an access past the end of that list faults.
* The file-scope switch `ds5_used` is an explicit argument of every function
  that reads it.
-/

namespace Vinstr

/-! ## Constants -/

/-- Number of values of a 32-bit counter (`atomic_t`, `unsigned int`, `u32`). -/
abbrev U32_MOD : Nat := 4294967296

/-- Number of values of a 64-bit word (`u64`). -/
abbrev U64_MOD : Nat := 18446744073709551616

/-- Hwcnt reader API version. -/
def HWCNT_READER_API : Nat := 1

/-- Kernel constant: nanoseconds per microsecond. -/
def NSEC_PER_USEC : Nat := 1000

/-- The minimum allowed interval between dumps (equivalent to 10KHz). -/
def DUMP_INTERVAL_MIN_NS : Nat := 100 * NSEC_PER_USEC

/-- The maximum allowed buffers per client. -/
def MAX_BUFFER_COUNT : Nat := 32

/-- Kernel errno value. -/
def EPERM : Int := 1
/-- Kernel errno value. -/
def EAGAIN : Int := 11
/-- Kernel errno value. -/
def ENOMEM : Int := 12
/-- Kernel errno value. -/
def EFAULT : Int := 14
/-- Kernel errno value. -/
def EBUSY : Int := 16
/-- Kernel errno value. -/
def EINVAL : Int := 22

/-! ## Machine arithmetic -/

/-- The C expression `a - b` on two `unsigned int` values. -/
def u32_sub (a b : Nat) : Nat := (a + U32_MOD - b) % U32_MOD

/-- The value an `atomic_t` holding `x` has after `atomic_inc`. -/
def atomic_inc (x : Nat) : Nat := (x + 1) % U32_MOD

/-! ## Bytes and the metadata record -/

/-- One byte of memory. -/
abbrev Byte : Type := Fin 256

/-- Little-endian representation of `v` in `w` bytes. -/
def le_bytes : Nat → Nat → List Byte
  | 0, _ => []
  | w + 1, v => ⟨v % 256, Nat.mod_lt v (by decide)⟩ :: le_bytes w (v / 256)

/-- Value of a little-endian byte string. -/
def le_value : List Byte → Nat
  | [] => 0
  | b :: bs => b.val + 256 * le_value bs

/-- What triggered a dump (`enum base_hwcnt_reader_event`); only the two
enumerators this file passes to `kbasep_vinstr_client_dump` are listed. -/
inductive base_hwcnt_reader_event where
  | BASE_HWCNT_READER_EVENT_MANUAL
  | BASE_HWCNT_READER_EVENT_PERIODIC
  deriving DecidableEq, Repr

/-- Modelled from the spec: the numeric value of an event kind as stored in the
metadata record. The enumeration is declared in `mali_kbase_hwcnt_reader.h`,
which is not among the sources at hand; manual is taken as 0 and periodic as 1. -/
def base_hwcnt_reader_event.code : base_hwcnt_reader_event → Nat
  | .BASE_HWCNT_READER_EVENT_MANUAL => 0
  | .BASE_HWCNT_READER_EVENT_PERIODIC => 1

/-- Per-slot metadata (`struct kbase_hwcnt_reader_metadata`): timestamp of the
dump, triggering event, slot index and the two clock-cycle counters
(`cycles.top`, `cycles.shader_cores`). -/
structure kbase_hwcnt_reader_metadata where
  timestamp : Nat
  event_id : Nat
  buffer_idx : Nat
  cycles_top : Nat
  cycles_shader_cores : Nat
  deriving DecidableEq, Repr, Inhabited

/-- Modelled from the spec: `sizeof(struct kbase_hwcnt_reader_metadata)`. The
record is declared in `mali_kbase_hwcnt_reader.h`, not among the sources at
hand; its fields are laid out in the order the spec lists them, as
`u64 timestamp; u32 event_id; u32 buffer_idx; u64 cycles.top;
u64 cycles.shader_cores`. -/
def meta_size : Nat := 32

/-- Modelled from the spec: the bytes of a metadata record in memory (fields in
the order of `meta_size`, little-endian). -/
def kbase_hwcnt_reader_metadata.bytes (m : kbase_hwcnt_reader_metadata) : List Byte :=
  le_bytes 8 m.timestamp ++ (le_bytes 4 m.event_id ++ (le_bytes 4 m.buffer_idx ++
    (le_bytes 8 m.cycles_top ++ le_bytes 8 m.cycles_shader_cores)))

/-- Modelled from the spec: the `buffer_idx` field read from a byte area holding
a metadata record (`((struct kbase_hwcnt_reader_metadata *)kbuf)->buffer_idx`):
the four bytes at offset 12. -/
def buffer_idx_of_bytes (kbuf : List Byte) : Nat :=
  le_value ((kbuf.drop 12).take 4)

/-! ## User memory -/

/-- Write `src` over the start of a user area: as many leading bytes as the
area has are written; the second component is the number of bytes that could
not be written. -/
def user_write (ubuf : List Byte) (src : List Byte) : List Byte × Nat :=
  (src.take ubuf.length ++ ubuf.drop src.length, src.length - ubuf.length)

/-- Kernel `clear_user(buffer, size)`. -/
def clear_user (ubuf : List Byte) (size : Nat) : List Byte × Nat :=
  user_write ubuf (List.replicate size 0)

/-- Kernel `copy_to_user(buffer, src, n)`. -/
def copy_to_user (ubuf : List Byte) (src : List Byte) (n : Nat) : List Byte × Nat :=
  user_write ubuf (src.take n)

/-- Kernel `copy_from_user(kbuf, buffer, n)`: the bytes obtained and the number
of bytes that could not be read. -/
def copy_from_user (ubuf : List Byte) (n : Nat) : List Byte × Nat :=
  (ubuf.take n, n - ubuf.length)

/-! ## Data model -/

/-- One dump buffer: the counter values and the clock-cycle counts. -/
structure kbase_hwcnt_dump_buffer where
  dump_buf : List Nat
  clk_cnt_buf : List Nat
  deriving DecidableEq, Repr, Inhabited

/-- The fields of the virtualizer metadata descriptor read by this file. -/
structure kbase_hwcnt_metadata where
  clk_cnt : Nat
  dump_buf_bytes : Nat
  deriving DecidableEq, Repr

/-- Counters enable map of a client: the four physical bitmasks it was built
from and the clock enable bitmap. -/
structure kbase_hwcnt_enable_map where
  fe_bm : Nat
  shader_bm : Nat
  tiler_bm : Nat
  mmu_l2_bm : Nat
  clk_enable_map : Nat
  deriving DecidableEq, Repr, Inhabited

/-- The setup request (`struct kbase_ioctl_hwcnt_reader_setup`). -/
structure kbase_ioctl_hwcnt_reader_setup where
  buffer_count : Nat
  fe_bm : Nat
  shader_bm : Nat
  tiler_bm : Nat
  mmu_l2_bm : Nat
  deriving DecidableEq, Repr

/-- A vinstr client (`struct kbase_vinstr_client`). `buf_cnt` and `dump_bufs`
are `dump_bufs.buf_cnt` and `dump_bufs.bufs`; `waitq_wakeups` counts the
`wake_up_interruptible` calls made on `waitq`. -/
structure kbase_vinstr_client where
  next_dump_time_ns : Nat
  dump_interval_ns : Nat
  enable_map : kbase_hwcnt_enable_map
  buf_cnt : Nat
  dump_bufs : List kbase_hwcnt_dump_buffer
  dump_bufs_meta : List kbase_hwcnt_reader_metadata
  meta_idx : Nat
  read_idx : Nat
  write_idx : Nat
  waitq_wakeups : Nat
  deriving DecidableEq, Repr

/-- Outcome of one `kbase_hwcnt_virtualizer_client_dump` call and of the two
buffer post-processing calls that follow it (`kbase_hwcnt_gpu_patch_dump_headers`,
`kbase_hwcnt_dump_buffer_zero_non_enabled`), all outside this file: the error
code, the two timestamps, and what the destination dump buffer holds when
`kbasep_vinstr_client_dump` returns. -/
structure virt_dump where
  errcode : Int
  ts_start_ns : Nat
  ts_end_ns : Nat
  dump_buf : kbase_hwcnt_dump_buffer
  deriving DecidableEq, Repr

/-- What the allocator and the external constructors answer during
`kbasep_vinstr_client_create`, and what the memory they hand out contains. -/
structure create_env where
  vcli_alloc_ok : Bool
  enable_map_alloc_errcode : Int
  dump_buffer_array_alloc_errcode : Int
  dump_bufs : Nat → kbase_hwcnt_dump_buffer
  dump_bufs_meta_alloc_ok : Bool
  dump_bufs_meta : Nat → kbase_hwcnt_reader_metadata
  virtualizer_client_create_errcode : Int

/-- Environment of one put_buffer call: whether `kzalloc` succeeds, and the
prior contents of the 64-byte stack array `stack_kbuf`. -/
structure put_env where
  kzalloc_ok : Bool
  stack_kbuf : Nat → Byte

/-! ## Operations -/

/-- Perform a dump for a client (`kbasep_vinstr_client_dump`). With `ds5_used`
set the ring slot `write_idx % buf_cnt` is used after the free-slot check; with
`ds5_used` clear slot 0 is used and no check is made. The vendor telemetry
hooks taken when `ds5_used == 0` read the dump buffer and touch no client
state. -/
def kbasep_vinstr_client_dump (ds5_used : Int) (metadata : kbase_hwcnt_metadata)
    (vd : virt_dump) (vcli : kbase_vinstr_client)
    (event_id : base_hwcnt_reader_event) : Int × kbase_vinstr_client :=
  let write_idx := vcli.write_idx
  let read_idx := vcli.read_idx
  if ds5_used ≠ 0 ∧ u32_sub write_idx read_idx = vcli.buf_cnt then
    (-EBUSY, vcli)
  else
    let write_idx := if ds5_used ≠ 0 then write_idx % vcli.buf_cnt else write_idx
    let slot := if ds5_used ≠ 0 then write_idx else 0
    let vcli1 := { vcli with dump_bufs := vcli.dump_bufs.set slot vd.dump_buf }
    if vd.errcode ≠ 0 then
      (vd.errcode, vcli1)
    else
      let clk_cnt := metadata.clk_cnt
      let m : kbase_hwcnt_reader_metadata :=
        { timestamp := vd.ts_end_ns
          event_id := event_id.code
          buffer_idx := write_idx
          cycles_top := if clk_cnt > 0 then vd.dump_buf.clk_cnt_buf.getD 0 0 else 0
          cycles_shader_cores := if clk_cnt > 1 then vd.dump_buf.clk_cnt_buf.getD 1 0 else 0 }
      (0, { vcli1 with
              dump_bufs_meta := vcli1.dump_bufs_meta.set slot m
              write_idx := atomic_inc vcli1.write_idx
              waitq_wakeups := vcli1.waitq_wakeups + 1 })

/-- Reset all the client's counters to zero (`kbasep_vinstr_client_clear`): a
virtualizer dump with a NULL buffer; the client itself is not touched. -/
def kbasep_vinstr_client_clear (vd : virt_dump) (vcli : kbase_vinstr_client) :
    Int × kbase_vinstr_client :=
  (vd.errcode, vcli)

/-- The metadata sanity check at the start of get_buffer fires
(`WARN_ON(idx != meta->buffer_idx)`). -/
def get_buffer_sanity_warning (cli : kbase_vinstr_client) : Bool :=
  let idx := cli.meta_idx % cli.buf_cnt
  decide (idx ≠ (cli.dump_bufs_meta.getD idx default).buffer_idx)

/-- Get buffer ioctl command (`kbasep_vinstr_hwcnt_reader_ioctl_get_buffer`):
return code, client afterwards, user area afterwards. -/
def kbasep_vinstr_hwcnt_reader_ioctl_get_buffer (cli : kbase_vinstr_client)
    (buffer : List Byte) (size : Nat) : Int × kbase_vinstr_client × List Byte :=
  let meta_idx := cli.meta_idx
  let idx := meta_idx % cli.buf_cnt
  let m := cli.dump_bufs_meta.getD idx default
  let min_size := min size meta_size
  if cli.write_idx = meta_idx then
    (-EAGAIN, cli, buffer)
  else if cli.read_idx ≠ meta_idx then
    (-EBUSY, cli, buffer)
  else
    let cleared := if meta_size < size then clear_user buffer size else (buffer, 0)
    if cleared.2 ≠ 0 then
      (-EFAULT, cli, cleared.1)
    else
      let copied := copy_to_user cleared.1 m.bytes min_size
      if copied.2 ≠ 0 then
        (-EFAULT, cli, copied.1)
      else
        (0, { cli with meta_idx := atomic_inc cli.meta_idx }, copied.1)

/-- The scratch area `kbuf` of put_buffer before the user copy: the stack
array (zeroed only when the caller's size is below the metadata size) when
`max_size` fits in it, else a zeroed allocation, which may fail. -/
def put_buffer_kbuf (size : Nat) (env : put_env) : Option (List Byte) :=
  let max_size := max size meta_size
  if max_size ≤ 64 then
    if meta_size > size then some (List.replicate 64 0)
    else some ((List.range 64).map env.stack_kbuf)
  else if env.kzalloc_ok then some (List.replicate max_size 0)
  else none

/-- Put buffer ioctl command (`kbasep_vinstr_hwcnt_reader_ioctl_put_buffer`). -/
def kbasep_vinstr_hwcnt_reader_ioctl_put_buffer (cli : kbase_vinstr_client)
    (buffer : List Byte) (size : Nat) (env : put_env) : Int × kbase_vinstr_client :=
  let read_idx := cli.read_idx
  let idx := read_idx % cli.buf_cnt
  if cli.meta_idx = read_idx then
    (-EPERM, cli)
  else
    match put_buffer_kbuf size env with
    | none => (-ENOMEM, cli)
    | some kbuf0 =>
      let from_user := copy_from_user buffer size
      if from_user.2 ≠ 0 then
        (-EFAULT, cli)
      else
        let kbuf := from_user.1 ++ kbuf0.drop size
        if (List.range' meta_size (size - meta_size)).any (fun i => kbuf.getD i 0 ≠ 0) then
          (-EINVAL, cli)
        else if idx ≠ buffer_idx_of_bytes kbuf then
          (-EINVAL, cli)
        else
          (0, { cli with read_idx := atomic_inc cli.read_idx })

/-- Create a vinstr client, not attached to a context
(`kbasep_vinstr_client_create`). The client structure is zero-allocated, so the
indices, the interval and the next dump time start at 0; the metadata array
comes from `kmalloc_array` and holds whatever the memory held. -/
def kbasep_vinstr_client_create (metadata : kbase_hwcnt_metadata)
    (setup : kbase_ioctl_hwcnt_reader_setup) (env : create_env) :
    Except Int kbase_vinstr_client :=
  if !env.vcli_alloc_ok then .error (-ENOMEM)
  else if env.enable_map_alloc_errcode ≠ 0 then .error env.enable_map_alloc_errcode
  else
    let enable_map : kbase_hwcnt_enable_map :=
      { fe_bm := setup.fe_bm
        shader_bm := setup.shader_bm
        tiler_bm := setup.tiler_bm
        mmu_l2_bm := setup.mmu_l2_bm
        clk_enable_map := (2 ^ metadata.clk_cnt % U64_MOD + U64_MOD - 1) % U64_MOD }
    if env.dump_buffer_array_alloc_errcode ≠ 0 then
      .error env.dump_buffer_array_alloc_errcode
    else if !env.dump_bufs_meta_alloc_ok then .error (-ENOMEM)
    else if env.virtualizer_client_create_errcode ≠ 0 then
      .error env.virtualizer_client_create_errcode
    else
      .ok { next_dump_time_ns := 0
            dump_interval_ns := 0
            enable_map := enable_map
            buf_cnt := setup.buffer_count
            dump_bufs := (List.range setup.buffer_count).map env.dump_bufs
            dump_bufs_meta := (List.range setup.buffer_count).map env.dump_bufs_meta
            meta_idx := 0
            read_idx := 0
            write_idx := 0
            waitq_wakeups := 0 }

/-! ## Call sequences on one client -/

/-- One call on a client, with what its environment answers. -/
inductive vinstr_call where
  | dump (event_id : base_hwcnt_reader_event) (vd : virt_dump)
  | clear (vd : virt_dump)
  | get_buffer (buffer : List Byte) (size : Nat)
  | put_buffer (buffer : List Byte) (size : Nat) (env : put_env)

/-- The client after one call. -/
def vinstr_step (ds5_used : Int) (metadata : kbase_hwcnt_metadata)
    (cli : kbase_vinstr_client) : vinstr_call → kbase_vinstr_client
  | .dump event_id vd => (kbasep_vinstr_client_dump ds5_used metadata vd cli event_id).2
  | .clear vd => (kbasep_vinstr_client_clear vd cli).2
  | .get_buffer buffer size => (kbasep_vinstr_hwcnt_reader_ioctl_get_buffer cli buffer size).2.1
  | .put_buffer buffer size env =>
      (kbasep_vinstr_hwcnt_reader_ioctl_put_buffer cli buffer size env).2

/-- The client after a sequence of calls. -/
def vinstr_run (ds5_used : Int) (metadata : kbase_hwcnt_metadata)
    (cli : kbase_vinstr_client) (calls : List vinstr_call) : kbase_vinstr_client :=
  calls.foldl (vinstr_step ds5_used metadata) cli

/-- What a call reports to its caller: the return code and, for get_buffer,
the slot index field found in the caller's area afterwards. -/
def vinstr_call_result (ds5_used : Int) (metadata : kbase_hwcnt_metadata)
    (cli : kbase_vinstr_client) : vinstr_call → Int × Option Nat
  | .dump event_id vd => ((kbasep_vinstr_client_dump ds5_used metadata vd cli event_id).1, none)
  | .clear vd => ((kbasep_vinstr_client_clear vd cli).1, none)
  | .get_buffer buffer size =>
      ((kbasep_vinstr_hwcnt_reader_ioctl_get_buffer cli buffer size).1,
       some (buffer_idx_of_bytes (kbasep_vinstr_hwcnt_reader_ioctl_get_buffer cli buffer size).2.2))
  | .put_buffer buffer size env =>
      ((kbasep_vinstr_hwcnt_reader_ioctl_put_buffer cli buffer size env).1, none)

/-- What each call of a sequence reports, in order. -/
def vinstr_results (ds5_used : Int) (metadata : kbase_hwcnt_metadata) :
    kbase_vinstr_client → List vinstr_call → List (Int × Option Nat)
  | _, [] => []
  | cli, c :: cs =>
      vinstr_call_result ds5_used metadata cli c
        :: vinstr_results ds5_used metadata (vinstr_step ds5_used metadata cli c) cs

/-! ## Context, scheduler and lifecycle -/

/-- Number of values of a `size_t` (64-bit kernel). -/
abbrev SIZE_MOD : Nat := 18446744073709551616

/-- Largest `size_t`. -/
abbrev SIZE_MAX : Nat := 18446744073709551615

/-- Largest `u64`. -/
abbrev U64_MAX : Nat := 18446744073709551615

/-- Largest `ktime_t`, a signed 64-bit number of nanoseconds: the clock read by
`kbasep_vinstr_timestamp_ns` (`ktime_get_raw_ns`) does not exceed it. -/
abbrev KTIME_MAX : Nat := 9223372036854775807

/-- The value of a `size_t` holding `x` after `x++`. -/
def size_inc (x : Nat) : Nat := (x + 1) % SIZE_MOD

/-- The value of a `size_t` holding `x` after `x--`. -/
def size_dec (x : Nat) : Nat := (x + SIZE_MOD - 1) % SIZE_MOD

/-- A client attached to a context: the address of its `struct
kbase_vinstr_client` (what the list node, a file's `private_data` and `mtk_cli`
point to) and its contents. Clients are destroyed as soon as they are
unlinked, so the attached clients are the live ones. -/
structure vinstr_node where
  addr : Nat
  cli : kbase_vinstr_client
  deriving DecidableEq, Repr

/-- The vinstr context (`struct kbase_vinstr_context`). `clients` is the list
in list order (head first); `dump_timer` is the relative delay the hrtimer is
armed with, if it is armed; `dump_work_pending` says whether `dump_work` is
queued; `queue_work_calls` counts the `queue_work` calls made on it. -/
structure kbase_vinstr_context where
  metadata : kbase_hwcnt_metadata
  suspend_count : Nat
  client_count : Nat
  clients : List vinstr_node
  dump_timer : Option Nat
  dump_work_pending : Bool
  queue_work_calls : Nat
  deriving DecidableEq, Repr

/-- The client stored at address `addr`, if one is attached. -/
def find_client (clients : List vinstr_node) (addr : Nat) : Option kbase_vinstr_client :=
  (clients.find? (fun n => n.addr == addr)).map (fun n => n.cli)

/-- Write `c` to the client at address `addr`. -/
def store_client (clients : List vinstr_node) (addr : Nat) (c : kbase_vinstr_client) :
    List vinstr_node :=
  clients.map (fun n => if n.addr = addr then { n with cli := c } else n)

/-- Kernel `list_del(&vcli->node)` for the client at address `addr`. -/
def list_del (clients : List vinstr_node) (addr : Nat) : List vinstr_node :=
  clients.eraseP (fun n => n.addr == addr)

/-- Kernel `queue_work(system_highpri_wq, &vctx->dump_work)`. -/
def queue_dump_work (vctx : kbase_vinstr_context) : kbase_vinstr_context :=
  { vctx with dump_work_pending := true, queue_work_calls := vctx.queue_work_calls + 1 }

/-- Calculate the next periodic dump time (`kbasep_vinstr_next_dump_time_ns`):
0 for a non-periodic client, else `(cur_ts_ns / interval + 1) * interval` in
64-bit arithmetic. -/
def kbasep_vinstr_next_dump_time_ns (cur_ts_ns : Nat) (interval : Nat) : Nat :=
  if interval = 0 then 0
  else ((cur_ts_ns / interval + 1) % U64_MOD * interval) % U64_MOD

/-- The earliest next dump time found by the client loop of
`kbasep_vinstr_reschedule_worker` (`U64_MAX` when no client is periodic). -/
def kbasep_vinstr_reschedule_earliest (cur_ts_ns : Nat) (clients : List vinstr_node) : Nat :=
  clients.foldl (fun earliest_next_ns pos =>
    let cli_next_ns := kbasep_vinstr_next_dump_time_ns cur_ts_ns pos.cli.dump_interval_ns
    if cli_next_ns ≠ 0 ∧ cli_next_ns < earliest_next_ns then cli_next_ns
    else earliest_next_ns) U64_MAX

/-- Update next dump times for all clients, then reschedule the dump worker
(`kbasep_vinstr_reschedule_worker`); `cur_ts_ns` is what
`kbasep_vinstr_timestamp_ns` returns. -/
def kbasep_vinstr_reschedule_worker (vctx : kbase_vinstr_context) (cur_ts_ns : Nat) :
    kbase_vinstr_context :=
  let earliest_next_ns := kbasep_vinstr_reschedule_earliest cur_ts_ns vctx.clients
  let clients := vctx.clients.map (fun pos =>
    { pos with cli := { pos.cli with
        next_dump_time_ns :=
          kbasep_vinstr_next_dump_time_ns cur_ts_ns pos.cli.dump_interval_ns } })
  let vctx1 := { vctx with clients := clients, dump_timer := none }
  if earliest_next_ns ≠ U64_MAX ∧ vctx.suspend_count = 0 ∧ ¬ earliest_next_ns < cur_ts_ns then
    { vctx1 with dump_timer := some (earliest_next_ns - cur_ts_ns) }
  else vctx1

/-- What `kbase_vinstr_init` obtains from outside: the virtualizer's metadata
(absent when `kbase_hwcnt_virtualizer_metadata` returns NULL) and whether the
context allocation succeeds. -/
structure init_env where
  metadata : Option kbase_hwcnt_metadata
  vctx_alloc_ok : Bool

/-- Initialise a vinstr context (`kbase_vinstr_init`, called with non-NULL
arguments); the context is zero-allocated. -/
def kbase_vinstr_init (env : init_env) : Except Int kbase_vinstr_context :=
  match env.metadata with
  | none => .error (-EINVAL)
  | some metadata =>
    if !env.vctx_alloc_ok then .error (-ENOMEM)
    else .ok { metadata := metadata
               suspend_count := 0
               client_count := 0
               clients := []
               dump_timer := none
               dump_work_pending := false
               queue_work_calls := 0 }

/-- The client loop of `kbase_vinstr_term`: every client of the list is
unlinked, counted out and destroyed. -/
def kbase_vinstr_term_loop (clients : List vinstr_node) (vctx : kbase_vinstr_context) :
    kbase_vinstr_context :=
  clients.foldl (fun vctx pos =>
    { vctx with clients := list_del vctx.clients pos.addr
                client_count := size_dec vctx.client_count }) vctx

/-- Terminate a vinstr context (`kbase_vinstr_term`): the context as it is when
it is freed. -/
def kbase_vinstr_term (vctx : kbase_vinstr_context) : kbase_vinstr_context :=
  let vctx1 := { vctx with dump_work_pending := false }
  if vctx1.client_count ≠ 0 then kbase_vinstr_term_loop vctx1.clients vctx1
  else vctx1

/-- Suspend vinstr (`kbase_vinstr_suspend`): the count saturates at `SIZE_MAX`;
the timer and then the worker are always cancelled. -/
def kbase_vinstr_suspend (vctx : kbase_vinstr_context) : kbase_vinstr_context :=
  let vctx1 :=
    if vctx.suspend_count = SIZE_MAX then vctx
    else { vctx with suspend_count := vctx.suspend_count + 1 }
  { vctx1 with dump_timer := none, dump_work_pending := false }

/-- Resume vinstr (`kbase_vinstr_resume`): nothing happens at count 0; the last
resume re-enqueues the worker if there is a periodic client. -/
def kbase_vinstr_resume (vctx : kbase_vinstr_context) : kbase_vinstr_context :=
  if vctx.suspend_count = 0 then vctx
  else
    let vctx1 := { vctx with suspend_count := vctx.suspend_count - 1 }
    if vctx1.suspend_count = 0 then
      let has_periodic_clients := vctx1.clients.any (fun pos => pos.cli.dump_interval_ns != 0)
      if has_periodic_clients then queue_dump_work vctx1 else vctx1
    else vctx1

/-- What `kbase_vinstr_hwcnt_reader_setup` obtains from outside: the answers
to client creation, the address of the new client, and what
`anon_inode_getfd` returns (a descriptor, or a negative error code). -/
structure setup_env where
  create : create_env
  vcli : Nat
  anon_inode_getfd : Int

/-- Set up a reader client (`kbase_vinstr_hwcnt_reader_setup`, called with
non-NULL arguments): return value and context afterwards. -/
def kbase_vinstr_hwcnt_reader_setup (vctx : kbase_vinstr_context)
    (setup : kbase_ioctl_hwcnt_reader_setup) (env : setup_env) : Int × kbase_vinstr_context :=
  if setup.buffer_count = 0 ∨ setup.buffer_count > MAX_BUFFER_COUNT then (-EINVAL, vctx)
  else
    match kbasep_vinstr_client_create vctx.metadata setup env.create with
    | .error errcode => (errcode, vctx)
    | .ok vcli =>
      let vctx1 := { vctx with client_count := size_inc vctx.client_count
                               clients := { addr := env.vcli, cli := vcli } :: vctx.clients }
      if env.anon_inode_getfd < 0 then
        (env.anon_inode_getfd,
         { vctx1 with client_count := size_dec vctx1.client_count
                      clients := list_del vctx1.clients env.vcli })
      else (env.anon_inode_getfd, vctx1)

/-- Set interval ioctl command (`kbasep_vinstr_hwcnt_reader_ioctl_set_interval`)
on the client at address `cli`; there is no outcome when no such client is
attached (the pointer is stale). The parameter is a `u32`, as is the field
`dump_interval_ns`: what the caller passes is reduced to 32 bits (the
dispatcher passes `(u32)arg`). -/
def kbasep_vinstr_hwcnt_reader_ioctl_set_interval (vctx : kbase_vinstr_context)
    (cli : Nat) (interval : Nat) : Option (Int × kbase_vinstr_context) :=
  match find_client vctx.clients cli with
  | none => none
  | some c =>
    let interval := interval % U32_MOD
    let interval :=
      if interval ≠ 0 ∧ interval < DUMP_INTERVAL_MIN_NS then DUMP_INTERVAL_MIN_NS else interval
    let c1 : kbase_vinstr_client :=
      { c with dump_interval_ns := interval, next_dump_time_ns := 0 }
    let vctx1 := { vctx with clients := store_client vctx.clients cli c1 }
    if interval ≠ 0 ∧ vctx.suspend_count = 0 then some (0, queue_dump_work vctx1)
    else some (0, vctx1)

/-- The file-scope variables next to the context: the switch `ds5_used` and the
vendor client pointer `mtk_cli`. (`mtk_pm_tool`, which only selects a telemetry
sink, is left out.) -/
structure vinstr_system where
  ds5_used : Int
  mtk_cli : Option Nat
  vctx : kbase_vinstr_context
  deriving DecidableEq, Repr

/-- Unlink, count out and destroy the client at address `addr`. -/
def detach_client (vctx : kbase_vinstr_context) (addr : Nat) : kbase_vinstr_context :=
  { vctx with client_count := size_dec vctx.client_count
              clients := list_del vctx.clients addr }

/-- Release of a reader file (`kbasep_vinstr_hwcnt_reader_release`) whose
`private_data` is the client at address `vcli`. With `ds5_used` clear nothing
is done; with it set the client is detached and destroyed, which has no
outcome when that client is no longer attached. -/
def kbasep_vinstr_hwcnt_reader_release (sys : vinstr_system) (vcli : Nat) :
    Option (Int × vinstr_system) :=
  if sys.ds5_used ≠ 0 then
    if (find_client sys.vctx.clients vcli).isSome then
      some (0, { sys with vctx := detach_client sys.vctx vcli })
    else none
  else some (0, sys)

/-- Vendor setup (`MTK_kbase_vinstr_hwcnt_reader_setup`): as the reader setup
without a file; records the client in `mtk_cli` and clears `ds5_used`. -/
def MTK_kbase_vinstr_hwcnt_reader_setup (sys : vinstr_system)
    (setup : kbase_ioctl_hwcnt_reader_setup) (env : setup_env) : Int × vinstr_system :=
  if setup.buffer_count = 0 ∨ setup.buffer_count > MAX_BUFFER_COUNT then (-EINVAL, sys)
  else
    match kbasep_vinstr_client_create sys.vctx.metadata setup env.create with
    | .error errcode => (errcode, sys)
    | .ok vcli =>
      (0, { ds5_used := 0
            mtk_cli := some env.vcli
            vctx := { sys.vctx with
                        client_count := size_inc sys.vctx.client_count
                        clients := { addr := env.vcli, cli := vcli } :: sys.vctx.clients } })

/-- Vendor release (`MTK_kbasep_vinstr_hwcnt_release`): sets `ds5_used`, and
detaches and destroys the client `mtk_cli` points to, which has no outcome when
that client is no longer attached; `mtk_cli` itself is left as it is. -/
def MTK_kbasep_vinstr_hwcnt_release (sys : vinstr_system) : Option vinstr_system :=
  let sys1 := { sys with ds5_used := 1 }
  match sys1.mtk_cli with
  | none => some sys1
  | some addr =>
    if (find_client sys1.vctx.clients addr).isSome then
      some { sys1 with vctx := detach_client sys1.vctx addr }
    else none

/-- One lifecycle operation on the context, with what its environment
answers; `write_ds5_used` stands for the ioctl paths that set the switch. -/
inductive vinstr_op where
  | setup (setup : kbase_ioctl_hwcnt_reader_setup) (env : setup_env)
  | MTK_setup (setup : kbase_ioctl_hwcnt_reader_setup) (env : setup_env)
  | release (vcli : Nat)
  | MTK_release
  | write_ds5_used (v : Int)

/-- The system after one lifecycle operation, if it has an outcome. -/
def vinstr_op_step (sys : vinstr_system) : vinstr_op → Option vinstr_system
  | .setup setup env =>
      some { sys with vctx := (kbase_vinstr_hwcnt_reader_setup sys.vctx setup env).2 }
  | .MTK_setup setup env => some (MTK_kbase_vinstr_hwcnt_reader_setup sys setup env).2
  | .release vcli => (kbasep_vinstr_hwcnt_reader_release sys vcli).map (fun r => r.2)
  | .MTK_release => MTK_kbasep_vinstr_hwcnt_release sys
  | .write_ds5_used v => some { sys with ds5_used := v }

/-- The system after a sequence of lifecycle operations, if all of them have
an outcome. -/
def vinstr_ops_run : vinstr_system → List vinstr_op → Option vinstr_system
  | sys, [] => some sys
  | sys, op :: ops =>
      match vinstr_op_step sys op with
      | none => none
      | some sys1 => vinstr_ops_run sys1 ops

/-! ## Invariants -/

/-- Invariant of the ring indices after `k` calls: the indices are 32-bit
values, the 32-bit differences satisfy
`meta_idx - read_idx <= write_idx - read_idx <= N`, and as long as `k` is below
2^32 no index has wrapped, so the indices themselves are ordered. -/
def ring_inv (N k : Nat) (s : kbase_vinstr_client) : Prop :=
  s.buf_cnt = N ∧ s.read_idx < U32_MOD ∧ s.meta_idx < U32_MOD ∧ s.write_idx < U32_MOD ∧
  u32_sub s.meta_idx s.read_idx ≤ u32_sub s.write_idx s.read_idx ∧
  u32_sub s.write_idx s.read_idx ≤ N ∧
  (k < U32_MOD →
    s.read_idx ≤ s.meta_idx ∧ s.meta_idx ≤ s.write_idx ∧ s.write_idx ≤ s.read_idx + N ∧
    s.write_idx ≤ k)

instance (N k : Nat) (s : kbase_vinstr_client) : Decidable (ring_inv N k s) := by
  unfold ring_inv; infer_instance

/-- The call sequence `cs` repeated `n` times. -/
def repeat_calls : Nat → List vinstr_call → List vinstr_call
  | 0, _ => []
  | n + 1, cs => cs ++ repeat_calls n cs

/-- Invariant of the consumer indices after `k` calls: `meta_idx` is `read_idx`
or one ahead of it (as 32-bit values, and literally while `k` is below 2^32). -/
def outstanding_inv (k : Nat) (s : kbase_vinstr_client) : Prop :=
  s.read_idx < U32_MOD ∧ s.meta_idx < U32_MOD ∧
  (u32_sub s.meta_idx s.read_idx = 0 ∨ u32_sub s.meta_idx s.read_idx = 1) ∧
  (k < U32_MOD → s.meta_idx ≤ k ∧ (s.meta_idx = s.read_idx ∨ s.meta_idx = s.read_idx + 1))

instance (k : Nat) (s : kbase_vinstr_client) : Decidable (outstanding_inv k s) := by
  unfold outstanding_inv; infer_instance

/-- Invariant of the metadata array while `ds5_used` is set: every slot a
produce has written holds its own index; until `write_idx` first wraps the
written slots are those below `write_idx`, afterwards all of them. -/
def slots_inv (N : Nat) (s : kbase_vinstr_client) : Prop :=
  s.buf_cnt = N ∧ s.dump_bufs_meta.length = N ∧ s.meta_idx < U32_MOD ∧ s.write_idx < U32_MOD ∧
  ((s.meta_idx ≤ s.write_idx ∧
      ∀ j, j < N → j < s.write_idx → (s.dump_bufs_meta.getD j default).buffer_idx = j) ∨
   (∀ j, j < N → (s.dump_bufs_meta.getD j default).buffer_idx = j))

instance (N : Nat) (s : kbase_vinstr_client) : Decidable (slots_inv N s) := by
  unfold slots_inv; infer_instance

/-! ## Concrete data for the examples -/

/-- A metadata descriptor with two clock counters. -/
def ex_metadata : kbase_hwcnt_metadata := { clk_cnt := 2, dump_buf_bytes := 64 }

/-- A successful virtualizer dump. -/
def ex_virt_dump : virt_dump :=
  { errcode := 0, ts_start_ns := 5, ts_end_ns := 10,
    dump_buf := { dump_buf := [1, 2], clk_cnt_buf := [3, 4] } }

/-- A setup request for `n` buffers. -/
def ex_setup (n : Nat) : kbase_ioctl_hwcnt_reader_setup :=
  { buffer_count := n, fe_bm := 1, shader_bm := 1, tiler_bm := 1, mmu_l2_bm := 1 }

/-- A creation environment in which every allocation succeeds and the
metadata array holds stale records. -/
def ex_create_env : create_env :=
  { vcli_alloc_ok := true
    enable_map_alloc_errcode := 0
    dump_buffer_array_alloc_errcode := 0
    dump_bufs := fun _ => default
    dump_bufs_meta_alloc_ok := true
    dump_bufs_meta := fun i =>
      { timestamp := 7, event_id := 9, buffer_idx := 77 + i, cycles_top := 0,
        cycles_shader_cores := 0 }
    virtualizer_client_create_errcode := 0 }

/-- A client with `n` slots, each slot holding a record with its own index, and
the given write, meta and read indices. -/
def ex_client (n w m r : Nat) : kbase_vinstr_client :=
  { next_dump_time_ns := 0
    dump_interval_ns := 0
    enable_map := default
    buf_cnt := n
    dump_bufs := List.replicate n default
    dump_bufs_meta := (List.range n).map fun i =>
      { timestamp := 0, event_id := 0, buffer_idx := i, cycles_top := 0,
        cycles_shader_cores := 0 }
    meta_idx := m
    read_idx := r
    write_idx := w
    waitq_wakeups := 0 }

/-- A put_buffer environment: allocation succeeds, the stack array holds 0xff. -/
def ex_put_env : put_env := { kzalloc_ok := true, stack_kbuf := fun _ => 255 }

/-- A put_buffer environment in which the allocation fails. -/
def ex_put_env_nomem : put_env := { kzalloc_ok := false, stack_kbuf := fun _ => 255 }

/-- A caller record of `n` bytes whose slot index field is `idx` (below 256)
and whose other bytes are zero, except that byte `nz` (when below `n`) is 1. -/
def ex_user_record (n idx nz : Nat) : List Byte :=
  (List.range n).map fun i =>
    if i = 12 then ⟨idx % 256, Nat.mod_lt idx (by decide)⟩ else if i = nz then 1 else 0

/-- One produce / get_buffer / put_buffer round on a ring whose next slot to
return is slot 0 (always the case for a one-slot ring). -/
def ex_cycle : List vinstr_call :=
  [.dump .BASE_HWCNT_READER_EVENT_MANUAL ex_virt_dump,
   .get_buffer (List.replicate 32 0) 32,
   .put_buffer (ex_user_record 32 0 99) 32 ex_put_env]

/-- The client `kbasep_vinstr_client_create` returns for `ex_setup n` in
`ex_create_env`. -/
def ex_fresh (n : Nat) : kbase_vinstr_client :=
  { next_dump_time_ns := 0
    dump_interval_ns := 0
    enable_map := { fe_bm := 1, shader_bm := 1, tiler_bm := 1, mmu_l2_bm := 1, clk_enable_map := 3 }
    buf_cnt := n
    dump_bufs := (List.range n).map ex_create_env.dump_bufs
    dump_bufs_meta := (List.range n).map ex_create_env.dump_bufs_meta
    meta_idx := 0
    read_idx := 0
    write_idx := 0
    waitq_wakeups := 0 }

/-- The four-buffer scenario: five manual produces, then four rounds of
get_buffer followed by the put_buffer of slot 0, 1, 2, 3, then a fifth
get_buffer and a last produce; `vd i` is what the virtualizer answers to the
i-th produce. -/
def scenario_calls (vd : Nat → virt_dump) : List vinstr_call :=
  [.dump .BASE_HWCNT_READER_EVENT_MANUAL (vd 0),
   .dump .BASE_HWCNT_READER_EVENT_MANUAL (vd 1),
   .dump .BASE_HWCNT_READER_EVENT_MANUAL (vd 2),
   .dump .BASE_HWCNT_READER_EVENT_MANUAL (vd 3),
   .dump .BASE_HWCNT_READER_EVENT_MANUAL (vd 4),
   .get_buffer (List.replicate 32 0) 32,
   .put_buffer (ex_user_record 32 0 99) 32 ex_put_env,
   .get_buffer (List.replicate 32 0) 32,
   .put_buffer (ex_user_record 32 1 99) 32 ex_put_env,
   .get_buffer (List.replicate 32 0) 32,
   .put_buffer (ex_user_record 32 2 99) 32 ex_put_env,
   .get_buffer (List.replicate 32 0) 32,
   .put_buffer (ex_user_record 32 3 99) 32 ex_put_env,
   .get_buffer (List.replicate 32 0) 32,
   .dump .BASE_HWCNT_READER_EVENT_MANUAL (vd 5)]

/-- A four-slot client with the given write, meta and read indices whose
written slots hold their own index. -/
def ring_at (s : kbase_vinstr_client) (w m r : Nat) : Prop :=
  s.write_idx = w ∧ s.meta_idx = m ∧ s.read_idx = r ∧ slots_inv 4 s

/-- A context with three attached clients, two of them periodic with the same
interval but different stale next dump times. -/
def ex_context : kbase_vinstr_context :=
  { metadata := ex_metadata
    suspend_count := 0
    client_count := 3
    clients :=
      [{ addr := 10, cli := { ex_fresh 2 with dump_interval_ns := 300, next_dump_time_ns := 17 } },
       { addr := 20, cli := ex_fresh 1 },
       { addr := 30, cli := { ex_fresh 2 with dump_interval_ns := 300, next_dump_time_ns := 170 } }]
    dump_timer := some 5
    dump_work_pending := false
    queue_work_calls := 0 }

/-- The interval set_interval is specified to store for a requested one: 0 for
0, the minimum period 100000 for a non-zero request below it, the request
itself otherwise. -/
def clamped_interval (interval : Nat) : Nat :=
  if interval = 0 then 0 else if interval < 100000 then 100000 else interval

/-- The example context suspended once. -/
def ex_context_suspended : kbase_vinstr_context := { ex_context with suspend_count := 1 }

/-- The example context with its periodic clients made non-periodic. -/
def ex_context_idle : kbase_vinstr_context :=
  { ex_context with
      clients := [{ addr := 10, cli := ex_fresh 2 }, { addr := 20, cli := ex_fresh 1 }]
      client_count := 2 }

/-- A setup environment in which creation succeeds, the client lands at
address 40 and the descriptor is 7. -/
def ex_setup_env : setup_env := { create := ex_create_env, vcli := 40, anon_inode_getfd := 7 }

/-- The count invariant of a context: `client_count` is the number of attached
clients (as a `size_t`). -/
def count_inv (vctx : kbase_vinstr_context) : Prop :=
  vctx.client_count = vctx.clients.length % SIZE_MOD

/-- The count invariant is decidable. -/
instance (vctx : kbase_vinstr_context) : Decidable (count_inv vctx) := by
  unfold count_inv; infer_instance

/-- An initialisation environment that succeeds. -/
def ex_init_env : init_env := { metadata := some ex_metadata, vctx_alloc_ok := true }

/-- The context `kbase_vinstr_init` returns in `ex_init_env`. -/
def ex_context_fresh : kbase_vinstr_context :=
  { metadata := ex_metadata
    suspend_count := 0
    client_count := 0
    clients := []
    dump_timer := none
    dump_work_pending := false
    queue_work_calls := 0 }

/-- A lifecycle: a reader setup, a reader setup whose descriptor allocation
fails, a vendor setup, the release of a second reader's file (a no-op, the
vendor setup having cleared `ds5_used`), and the vendor release. -/
def ex_ops : List vinstr_op :=
  [.setup (ex_setup 4) ex_setup_env,
   .setup (ex_setup 2) { create := ex_create_env, vcli := 50, anon_inode_getfd := -24 },
   .setup (ex_setup 2) { create := ex_create_env, vcli := 50, anon_inode_getfd := 8 },
   .MTK_setup (ex_setup 1) { create := ex_create_env, vcli := 60, anon_inode_getfd := 0 },
   .release 50,
   .MTK_release]

/-- The system after `ex_ops`: both readers are still attached. -/
def ex_system_final : vinstr_system :=
  { ds5_used := 1
    mtk_cli := some 60
    vctx := { ex_context_fresh with
                client_count := 2
                clients := [{ addr := 50, cli := ex_fresh 2 }, { addr := 40, cli := ex_fresh 4 }] } }

/-- The system after a reader setup and a vendor setup on a fresh context: two
clients attached, `ds5_used` cleared by the vendor setup. -/
def ex_system_vendor : vinstr_system :=
  { ds5_used := 0
    mtk_cli := some 60
    vctx := { ex_context_fresh with
                client_count := 2
                clients := [{ addr := 60, cli := ex_fresh 1 }, { addr := 40, cli := ex_fresh 4 }] } }

/-- A system around the example context with `ds5_used` set. -/
def ex_system : vinstr_system := { ds5_used := 1, mtk_cli := none, vctx := ex_context }

/-- Kernel `put_user(x, ptr)`, `src` being the bytes of `x`: they are stored
when the user area has room for all of them, else nothing is stored and the
result is -EFAULT. -/
def put_user (ubuf : List Byte) (src : List Byte) : Int × List Byte :=
  if src.length ≤ ubuf.length then (0, src ++ ubuf.drop src.length) else (-EFAULT, ubuf)

/-- Modelled from the spec: the empty feature bitmap of the reader protocol.
The three feature constants and the version record are declared in
`mali_kbase_hwcnt_reader.h`, which is not among the sources at hand. -/
def KBASE_HWCNT_READER_API_VERSION_NO_FEATURE : Nat := 0

/-- Modelled from the spec: the feature bit announcing top-level cycle counts
(taken as bit 0). -/
def KBASE_HWCNT_READER_API_VERSION_FEATURE_CYCLES_TOP : Nat := 1

/-- Modelled from the spec: the feature bit announcing shader-core cycle counts
(taken as bit 1). -/
def KBASE_HWCNT_READER_API_VERSION_FEATURE_CYCLES_SHADER_CORES : Nat := 2

/-- Modelled from the spec: the version/feature record
(`struct kbase_hwcnt_reader_api_version`), two 32-bit words. -/
structure kbase_hwcnt_reader_api_version where
  version : Nat
  features : Nat
  deriving DecidableEq, Repr

/-- Modelled from the spec: `sizeof(struct kbase_hwcnt_reader_api_version)`. -/
def api_version_size : Nat := 8

/-- Modelled from the spec: the bytes of a version/feature record in memory
(`u32 version; u32 features`, little-endian). -/
def kbase_hwcnt_reader_api_version.bytes (v : kbase_hwcnt_reader_api_version) : List Byte :=
  le_bytes 4 v.version ++ le_bytes 4 v.features

/-- Get API version ioctl command
(`kbasep_vinstr_hwcnt_reader_ioctl_get_api_version`): return code and the user
area `arg` points to afterwards; `size` is `_IOC_SIZE(cmd)` and `sizeof(u32)`
is 4. -/
def kbasep_vinstr_hwcnt_reader_ioctl_get_api_version (metadata : kbase_hwcnt_metadata)
    (arg : List Byte) (size : Nat) : Int × List Byte :=
  let clk_cnt := metadata.clk_cnt
  if size = 4 then put_user arg (le_bytes 4 HWCNT_READER_API)
  else if size = api_version_size then
    let features := KBASE_HWCNT_READER_API_VERSION_NO_FEATURE
    let features :=
      if clk_cnt > 0 then features ||| KBASE_HWCNT_READER_API_VERSION_FEATURE_CYCLES_TOP
      else features
    let features :=
      if clk_cnt > 1 then
        features ||| KBASE_HWCNT_READER_API_VERSION_FEATURE_CYCLES_SHADER_CORES
      else features
    put_user arg ({ version := HWCNT_READER_API, features := features } :
      kbase_hwcnt_reader_api_version).bytes
  else (-EINVAL, arg)

/-- A client is due in a run of the dump worker at time `cur_time_ns`
(`pos->next_dump_time_ns != 0 && pos->next_dump_time_ns < cur_time_ns`). -/
def dump_due (cur_time_ns : Nat) (pos : vinstr_node) : Prop :=
  pos.cli.next_dump_time_ns ≠ 0 ∧ pos.cli.next_dump_time_ns < cur_time_ns

/-- Being due is decidable. -/
instance (cur_time_ns : Nat) (pos : vinstr_node) : Decidable (dump_due cur_time_ns pos) := by
  unfold dump_due; infer_instance

/-- The client loop of `kbasep_vinstr_dump_worker`, from the clients already
visited: the periodic dumps made so far (client address and return value, which
the worker ignores) and the clients as the loop leaves them. `vd a` is what the
virtualizer answers to the dump of the client at address `a`. -/
def kbasep_vinstr_dump_worker_loop (ds5_used : Int) (metadata : kbase_hwcnt_metadata)
    (cur_time_ns : Nat) (vd : Nat → virt_dump) (clients : List vinstr_node)
    (acc : List (Nat × Int) × List vinstr_node) : List (Nat × Int) × List vinstr_node :=
  clients.foldl (fun acc pos =>
    if dump_due cur_time_ns pos then
      let r := kbasep_vinstr_client_dump ds5_used metadata (vd pos.addr) pos.cli
        .BASE_HWCNT_READER_EVENT_PERIODIC
      (acc.1 ++ [(pos.addr, r.1)], acc.2 ++ [{ pos with cli := r.2 }])
    else (acc.1, acc.2 ++ [pos])) acc

/-- Dump worker (`kbasep_vinstr_dump_worker`): dumps all periodic clients that
are due at `cur_time_ns`, then reschedules at `cur_ts_ns`, the later time
`kbasep_vinstr_reschedule_worker` reads. The first component lists the dumps
made. (The workqueue marks the work as no longer pending before it calls the
worker; that is not part of this function.) -/
def kbasep_vinstr_dump_worker (ds5_used : Int) (vctx : kbase_vinstr_context)
    (cur_time_ns : Nat) (vd : Nat → virt_dump) (cur_ts_ns : Nat) :
    List (Nat × Int) × kbase_vinstr_context :=
  let r := kbasep_vinstr_dump_worker_loop ds5_used vctx.metadata cur_time_ns vd vctx.clients
    ([], [])
  (r.1, kbasep_vinstr_reschedule_worker { vctx with clients := r.2 } cur_ts_ns)

/-- What one round of the dump worker loop leaves of a client. -/
def dump_worker_client (ds5_used : Int) (metadata : kbase_hwcnt_metadata)
    (cur_time_ns : Nat) (vd : Nat → virt_dump) (pos : vinstr_node) : vinstr_node :=
  if dump_due cur_time_ns pos then
    { pos with cli := (kbasep_vinstr_client_dump ds5_used metadata (vd pos.addr) pos.cli
        .BASE_HWCNT_READER_EVENT_PERIODIC).2 }
  else pos

/-- A context whose first client is due with a full ring, whose second is not
periodic and whose third is due with room. -/
def ex_context_due : kbase_vinstr_context :=
  { ex_context with
      clients :=
        [{ addr := 10, cli := { ex_client 2 2 0 0 with dump_interval_ns := 300,
                                                        next_dump_time_ns := 600 } },
         { addr := 20, cli := ex_fresh 1 },
         { addr := 30, cli := { ex_client 2 1 0 0 with dump_interval_ns := 300,
                                                        next_dump_time_ns := 900 } },
         { addr := 50, cli := { ex_client 2 0 0 0 with dump_interval_ns := 500,
                                                        next_dump_time_ns := 1000 } }]
      client_count := 4 }

/-- The ring slot a produce uses (`dump_buf` and `meta` in
`kbasep_vinstr_client_dump`): `write_idx % buf_cnt` with `ds5_used` set, else
slot 0. -/
def client_dump_slot (ds5_used : Int) (vcli : kbase_vinstr_client) : Nat :=
  if ds5_used ≠ 0 then vcli.write_idx % vcli.buf_cnt else 0

/-- A client together with the history of its ring: the records written by the
successful produces, what each successful get_buffer left in its caller's area
(with the size it was called with), and the number of successful put_buffer
calls. -/
structure vinstr_history where
  cli : kbase_vinstr_client
  produced : List kbase_hwcnt_reader_metadata
  delivered : List (Nat × List Byte)
  returned : Nat

/-- One call on a client, recorded in its history. -/
def vinstr_history_step (ds5_used : Int) (metadata : kbase_hwcnt_metadata)
    (h : vinstr_history) : vinstr_call → vinstr_history
  | .dump event_id vd =>
      { h with
          cli := (kbasep_vinstr_client_dump ds5_used metadata vd h.cli event_id).2
          produced :=
            if (kbasep_vinstr_client_dump ds5_used metadata vd h.cli event_id).1 = 0 then
              h.produced ++
                [(kbasep_vinstr_client_dump ds5_used metadata vd h.cli event_id).2.dump_bufs_meta.getD
                  (client_dump_slot ds5_used h.cli) default]
            else h.produced }
  | .clear vd => { h with cli := (kbasep_vinstr_client_clear vd h.cli).2 }
  | .get_buffer buffer size =>
      { h with
          cli := (kbasep_vinstr_hwcnt_reader_ioctl_get_buffer h.cli buffer size).2.1
          delivered :=
            if (kbasep_vinstr_hwcnt_reader_ioctl_get_buffer h.cli buffer size).1 = 0 then
              h.delivered ++
                [(size, (kbasep_vinstr_hwcnt_reader_ioctl_get_buffer h.cli buffer size).2.2)]
            else h.delivered }
  | .put_buffer buffer size env =>
      { h with
          cli := (kbasep_vinstr_hwcnt_reader_ioctl_put_buffer h.cli buffer size env).2
          returned :=
            if (kbasep_vinstr_hwcnt_reader_ioctl_put_buffer h.cli buffer size env).1 = 0 then
              h.returned + 1
            else h.returned }

/-- The history of a client after a sequence of calls, from an empty history. -/
def vinstr_history_run (ds5_used : Int) (metadata : kbase_hwcnt_metadata)
    (cli : kbase_vinstr_client) (calls : List vinstr_call) : vinstr_history :=
  calls.foldl (vinstr_history_step ds5_used metadata)
    { cli := cli, produced := [], delivered := [], returned := 0 }

/-- Invariant of a history on a ring of `N` slots: the three indices are the
32-bit values of the numbers of records produced, delivered and returned; at
most one record is delivered and not returned, and at most `N` are produced and
not returned; every record produced and not yet returned is in its slot; and
every delivery carried the record produced at the same position. -/
def fifo_inv (N : Nat) (h : vinstr_history) : Prop :=
  h.cli.buf_cnt = N ∧ h.cli.dump_bufs_meta.length = N ∧
  h.cli.write_idx = h.produced.length % U32_MOD ∧
  h.cli.meta_idx = h.delivered.length % U32_MOD ∧
  h.cli.read_idx = h.returned % U32_MOD ∧
  h.returned ≤ h.delivered.length ∧ h.delivered.length ≤ h.returned + 1 ∧
  h.delivered.length ≤ h.produced.length ∧ h.produced.length ≤ h.returned + N ∧
  (∀ j, j < h.produced.length → h.returned ≤ j →
    h.cli.dump_bufs_meta.getD (j % N) default = h.produced.getD j default) ∧
  (∀ k, k < h.delivered.length →
    (h.delivered.getD k default).2.take (min (h.delivered.getD k default).1 meta_size)
      = (h.produced.getD k default).bytes.take (min (h.delivered.getD k default).1 meta_size))

/-- A virtualizer dump that succeeds with end timestamp `ts`. -/
def ex_virt_dump_at (ts : Nat) : virt_dump :=
  { errcode := 0, ts_start_ns := ts, ts_end_ns := ts,
    dump_buf := { dump_buf := [ts], clk_cnt_buf := [3, 4] } }

/-- Two produces with end timestamps 10 and 20, then a get_buffer. -/
def ex_two_produces : List vinstr_call :=
  [.dump .BASE_HWCNT_READER_EVENT_MANUAL (ex_virt_dump_at 10),
   .dump .BASE_HWCNT_READER_EVENT_MANUAL (ex_virt_dump_at 20),
   .get_buffer (List.replicate 32 0) 32]

/-- One produce / get_buffer / put_buffer round in which the consumer returns
slot `idx`. -/
def ex_round (idx : Nat) : List vinstr_call :=
  [.dump .BASE_HWCNT_READER_EVENT_MANUAL ex_virt_dump,
   .get_buffer (List.replicate 32 0) 32,
   .put_buffer (ex_user_record 32 idx 99) 32 ex_put_env]

/-- Three rounds on a three-slot ring whose next slot is slot 0. -/
def ex_cycle3 : List vinstr_call := ex_round 0 ++ (ex_round 1 ++ ex_round 2)

/-- The state of a freshly created three-slot client after 2^32 - 1 produce /
get_buffer / put_buffer rounds made while `ds5_used` is set. -/
def ex_wrap3_state : kbase_vinstr_client :=
  vinstr_run 1 ex_metadata (ex_fresh 3) (repeat_calls 1431655765 ex_cycle3)

/-- Number of values of an `unsigned long` (64-bit kernel). -/
abbrev ULONG_MOD : Nat := 18446744073709551616

/-- The fields of `struct vm_area_struct` read by the reader's mmap: the two
ends of the mapping and its offset in pages. -/
structure vm_area_struct where
  vm_start : Nat
  vm_end : Nat
  vm_pgoff : Nat
  deriving DecidableEq, Repr

/-- Reader's mmap (`kbasep_vinstr_hwcnt_reader_mmap`, called with non-NULL
arguments on a file whose client is `cli`). `PAGE_SHIFT` is the kernel's page
shift and `remap_pfn_range` what the kernel function of that name returns. The
result is the return value and, when `remap_pfn_range` is called, the byte
offset into the dump buffers and the length of the range it is asked to map. -/
def kbasep_vinstr_hwcnt_reader_mmap (PAGE_SHIFT : Nat) (metadata : kbase_hwcnt_metadata)
    (cli : kbase_vinstr_client) (vma : vm_area_struct) (remap_pfn_range : Int) :
    Int × Option (Nat × Nat) :=
  let vm_size := (vma.vm_end + ULONG_MOD - vma.vm_start) % ULONG_MOD
  let size := (cli.buf_cnt * metadata.dump_buf_bytes) % ULONG_MOD
  if vma.vm_pgoff > size >>> PAGE_SHIFT then (-EINVAL, none)
  else
    let offset := (vma.vm_pgoff <<< PAGE_SHIFT) % ULONG_MOD
    if vm_size > (size + ULONG_MOD - offset) % ULONG_MOD then (-EINVAL, none)
    else (remap_pfn_range, some (offset, vm_size))

/-- The subtraction `size - offset` of the reader's mmap wraps below zero. -/
def mmap_size_underflow (PAGE_SHIFT : Nat) (metadata : kbase_hwcnt_metadata)
    (cli : kbase_vinstr_client) (vma : vm_area_struct) : Bool :=
  decide ((cli.buf_cnt * metadata.dump_buf_bytes) % ULONG_MOD
    < (vma.vm_pgoff <<< PAGE_SHIFT) % ULONG_MOD)

/-- A metadata descriptor whose dump buffers are one 4096-byte page each. -/
def ex_metadata_page : kbase_hwcnt_metadata := { clk_cnt := 2, dump_buf_bytes := 4096 }

/-- A creation environment in which every allocation succeeds and the
metadata array happens to be zero-filled. -/
def ex_create_env_zeroed : create_env :=
  { ex_create_env with dump_bufs_meta := fun _ => default }

/-- The client `kbasep_vinstr_client_create` returns for `ex_setup n` in
`ex_create_env_zeroed`. -/
def ex_fresh_zeroed (n : Nat) : kbase_vinstr_client :=
  { ex_fresh n with dump_bufs_meta := (List.range n).map fun _ => default }

/-! ## Theorems -/

/-- C3 (amended): with `ds5_used` set, a produce on a client whose 32-bit
difference `write_idx - read_idx` equals its buffer count fails with -EBUSY for
either event kind and leaves the whole client, hence all three indices,
unchanged. -/
theorem client_dump_busy_when_full (ds5_used : Int) (metadata : kbase_hwcnt_metadata)
    (vd : virt_dump) (vcli : kbase_vinstr_client) (event_id : base_hwcnt_reader_event)
    (hds : ds5_used ≠ 0)
    (hfull : u32_sub vcli.write_idx vcli.read_idx = vcli.buf_cnt) :
    kbasep_vinstr_client_dump ds5_used metadata vd vcli event_id = (-EBUSY, vcli) := by
  simp [kbasep_vinstr_client_dump, hds, hfull]

/-- C3 (witness): a full two-slot ring rejects a manual dump with -EBUSY. -/
theorem client_dump_busy_when_full_witness :
    (1 : Int) ≠ 0 ∧
    u32_sub (ex_client 2 2 0 0).write_idx (ex_client 2 2 0 0).read_idx
      = (ex_client 2 2 0 0).buf_cnt ∧
    kbasep_vinstr_client_dump 1 ex_metadata ex_virt_dump (ex_client 2 2 0 0)
      .BASE_HWCNT_READER_EVENT_MANUAL = (-EBUSY, ex_client 2 2 0 0) :=
  ⟨by decide, by decide,
    client_dump_busy_when_full 1 ex_metadata ex_virt_dump (ex_client 2 2 0 0)
      .BASE_HWCNT_READER_EVENT_MANUAL (by decide) (by decide)⟩

/-- C3 (counterexample): with `ds5_used` clear, a produce on a full one-slot
ring (`write_idx - read_idx == 1 == buf_cnt`) returns 0 and moves `write_idx`
from 1 to 2. -/
theorem client_dump_full_without_ds5 :
    u32_sub (ex_client 1 1 0 0).write_idx (ex_client 1 1 0 0).read_idx
      = (ex_client 1 1 0 0).buf_cnt ∧
    (kbasep_vinstr_client_dump 0 ex_metadata ex_virt_dump (ex_client 1 1 0 0)
      .BASE_HWCNT_READER_EVENT_MANUAL).1 = 0 ∧
    (kbasep_vinstr_client_dump 0 ex_metadata ex_virt_dump (ex_client 1 1 0 0)
      .BASE_HWCNT_READER_EVENT_MANUAL).2.write_idx = 2 := by
  decide

/-- C5: when `write_idx == meta_idx`, whatever `read_idx` is, get_buffer
returns -EAGAIN, leaves the caller's area as it was and leaves the whole
client, hence all three indices, unchanged. -/
theorem get_buffer_would_block (cli : kbase_vinstr_client) (buffer : List Byte)
    (size : Nat) (h : cli.write_idx = cli.meta_idx) :
    kbasep_vinstr_hwcnt_reader_ioctl_get_buffer cli buffer size = (-EAGAIN, cli, buffer) := by
  simp [kbasep_vinstr_hwcnt_reader_ioctl_get_buffer, h]

/-- C5 (witness): nothing new, a buffer still outstanding: -EAGAIN. -/
theorem get_buffer_would_block_witness :
    (ex_client 4 3 3 2).write_idx = (ex_client 4 3 3 2).meta_idx ∧
    kbasep_vinstr_hwcnt_reader_ioctl_get_buffer (ex_client 4 3 3 2) [1, 2, 3] 40
      = (-EAGAIN, ex_client 4 3 3 2, [1, 2, 3]) :=
  ⟨by decide, get_buffer_would_block (ex_client 4 3 3 2) [1, 2, 3] 40 (by decide)⟩

/-- C6: when `write_idx != meta_idx` and `read_idx != meta_idx`, get_buffer
returns -EBUSY and leaves the caller's area and the whole client, hence all
three indices, unchanged. -/
theorem get_buffer_busy (cli : kbase_vinstr_client) (buffer : List Byte) (size : Nat)
    (hnew : cli.write_idx ≠ cli.meta_idx) (hout : cli.read_idx ≠ cli.meta_idx) :
    kbasep_vinstr_hwcnt_reader_ioctl_get_buffer cli buffer size = (-EBUSY, cli, buffer) := by
  simp [kbasep_vinstr_hwcnt_reader_ioctl_get_buffer, hnew, hout]

/-- C6 (witness): one buffer handed out and not put back: -EBUSY. -/
theorem get_buffer_busy_witness :
    (ex_client 4 3 2 1).write_idx ≠ (ex_client 4 3 2 1).meta_idx ∧
    (ex_client 4 3 2 1).read_idx ≠ (ex_client 4 3 2 1).meta_idx ∧
    kbasep_vinstr_hwcnt_reader_ioctl_get_buffer (ex_client 4 3 2 1) [1, 2, 3] 40
      = (-EBUSY, ex_client 4 3 2 1, [1, 2, 3]) :=
  ⟨by decide, by decide,
    get_buffer_busy (ex_client 4 3 2 1) [1, 2, 3] 40 (by decide) (by decide)⟩

/-- C8: when `meta_idx == read_idx`, put_buffer returns -EPERM for every caller
area, size and environment and leaves the whole client, hence all three
indices, unchanged. -/
theorem put_buffer_nothing_outstanding (cli : kbase_vinstr_client) (buffer : List Byte)
    (size : Nat) (env : put_env) (h : cli.meta_idx = cli.read_idx) :
    kbasep_vinstr_hwcnt_reader_ioctl_put_buffer cli buffer size env = (-EPERM, cli) := by
  simp [kbasep_vinstr_hwcnt_reader_ioctl_put_buffer, h]

/-- C8 (witness): a put with nothing handed out: -EPERM. -/
theorem put_buffer_nothing_outstanding_witness :
    (ex_client 4 3 2 2).meta_idx = (ex_client 4 3 2 2).read_idx ∧
    kbasep_vinstr_hwcnt_reader_ioctl_put_buffer (ex_client 4 3 2 2)
      (ex_user_record 32 2 99) 32 ex_put_env = (-EPERM, ex_client 4 3 2 2) :=
  ⟨by decide,
    put_buffer_nothing_outstanding (ex_client 4 3 2 2) (ex_user_record 32 2 99) 32
      ex_put_env (by decide)⟩

/-- C4 (amended): with `ds5_used` set, on a client with at least one slot whose
32-bit difference `write_idx - read_idx` differs from its buffer count, a
produce whose virtualizer dump succeeds returns 0, leaves in slot
`write_idx % buf_cnt` a record with that slot index, the event kind and the
dump's end timestamp, leaves the metadata of every other slot as it was,
advances `write_idx` by one (as a 32-bit counter) and leaves `meta_idx` and
`read_idx` unchanged. -/
theorem client_dump_success (ds5_used : Int) (metadata : kbase_hwcnt_metadata)
    (vd : virt_dump) (vcli : kbase_vinstr_client) (event_id : base_hwcnt_reader_event)
    (hds : ds5_used ≠ 0) (hN : 1 ≤ vcli.buf_cnt)
    (hlen : vcli.dump_bufs_meta.length = vcli.buf_cnt)
    (hfree : u32_sub vcli.write_idx vcli.read_idx ≠ vcli.buf_cnt)
    (hok : vd.errcode = 0) :
    (kbasep_vinstr_client_dump ds5_used metadata vd vcli event_id).1 = 0 ∧
    (∃ m, (kbasep_vinstr_client_dump ds5_used metadata vd vcli event_id).2.dump_bufs_meta[
            vcli.write_idx % vcli.buf_cnt]? = some m ∧
          m.buffer_idx = vcli.write_idx % vcli.buf_cnt ∧
          m.event_id = event_id.code ∧
          m.timestamp = vd.ts_end_ns) ∧
    (∀ j, j ≠ vcli.write_idx % vcli.buf_cnt →
      (kbasep_vinstr_client_dump ds5_used metadata vd vcli event_id).2.dump_bufs_meta[j]?
        = vcli.dump_bufs_meta[j]?) ∧
    (kbasep_vinstr_client_dump ds5_used metadata vd vcli event_id).2.write_idx
      = (vcli.write_idx + 1) % U32_MOD ∧
    (kbasep_vinstr_client_dump ds5_used metadata vd vcli event_id).2.meta_idx = vcli.meta_idx ∧
    (kbasep_vinstr_client_dump ds5_used metadata vd vcli event_id).2.read_idx = vcli.read_idx := by
  have hslot : vcli.write_idx % vcli.buf_cnt < vcli.dump_bufs_meta.length := by
    rw [hlen]; exact Nat.mod_lt _ hN
  have hne : ∀ j, j ≠ vcli.write_idx % vcli.buf_cnt → ¬ vcli.write_idx % vcli.buf_cnt = j :=
    fun j hj h => hj h.symm
  simp [kbasep_vinstr_client_dump, hds, hfree, hok, atomic_inc, hslot]
  intro j hj
  simp [List.getElem?_set, hne j hj]

/-- C4 (witness): a periodic dump on a four-slot ring with one free slot. -/
theorem client_dump_success_witness :
    (1 : Int) ≠ 0 ∧ 1 ≤ (ex_client 4 5 3 2).buf_cnt ∧
    (ex_client 4 5 3 2).dump_bufs_meta.length = (ex_client 4 5 3 2).buf_cnt ∧
    u32_sub (ex_client 4 5 3 2).write_idx (ex_client 4 5 3 2).read_idx
      ≠ (ex_client 4 5 3 2).buf_cnt ∧
    ex_virt_dump.errcode = 0 ∧
    (kbasep_vinstr_client_dump 1 ex_metadata ex_virt_dump (ex_client 4 5 3 2)
      .BASE_HWCNT_READER_EVENT_PERIODIC).2.write_idx = (5 + 1) % U32_MOD :=
  ⟨by decide, by decide, by decide, by decide, by decide,
    (client_dump_success 1 ex_metadata ex_virt_dump (ex_client 4 5 3 2)
      .BASE_HWCNT_READER_EVENT_PERIODIC (by decide) (by decide) (by decide) (by decide)
      (by decide)).2.2.2.1⟩

/-- C4 (counterexample): with `ds5_used` clear, a successful produce on a
two-slot ring with `write_idx == 1` leaves slot `1 % 2` untouched and instead
overwrites slot 0 with a record whose slot index is 1. -/
theorem client_dump_slot_without_ds5 :
    u32_sub (ex_client 2 1 0 0).write_idx (ex_client 2 1 0 0).read_idx
      ≠ (ex_client 2 1 0 0).buf_cnt ∧
    ex_virt_dump.errcode = 0 ∧
    (kbasep_vinstr_client_dump 0 ex_metadata ex_virt_dump (ex_client 2 1 0 0)
      .BASE_HWCNT_READER_EVENT_MANUAL).1 = 0 ∧
    (kbasep_vinstr_client_dump 0 ex_metadata ex_virt_dump (ex_client 2 1 0 0)
      .BASE_HWCNT_READER_EVENT_MANUAL).2.dump_bufs_meta[1 % 2]?
      = (ex_client 2 1 0 0).dump_bufs_meta[1 % 2]? ∧
    ((kbasep_vinstr_client_dump 0 ex_metadata ex_virt_dump (ex_client 2 1 0 0)
      .BASE_HWCNT_READER_EVENT_MANUAL).2.dump_bufs_meta[0]?).map (fun m => m.buffer_idx)
      = some 1 ∧
    ((ex_client 2 1 0 0).dump_bufs_meta[0]?).map (fun m => m.buffer_idx) = some 0 := by
  decide
/-- Reading below `n` in `l.take n ++ rest` reads `l`. -/
theorem getD_take_append (l rest : List Byte) (n i : Nat) (hi : i < n)
    (hn : n ≤ l.length) : (l.take n ++ rest).getD i 0 = l.getD i 0 := by
  have h1 : i < (l.take n).length := by simp; omega
  simp [List.getD_eq_getElem?_getD, List.getElem?_append_left h1, List.getElem?_take, hi]

/-- The slot index field depends on the first 16 bytes only. -/
theorem idx_bytes_congr (a b : List Byte) (h : ∀ i, i < 16 → a[i]? = b[i]?) :
    buffer_idx_of_bytes a = buffer_idx_of_bytes b := by
  unfold buffer_idx_of_bytes
  congr 1
  apply List.ext_getElem?
  intro i
  by_cases hi : i < 4
  · simp [List.getElem?_take, hi, List.getElem?_drop]
    exact h (12 + i) (by omega)
  · simp [List.getElem?_take, hi]

/-- The slot index read from the scratch area of put_buffer is the one of the
caller bytes zero-extended to the metadata size. -/
theorem put_buffer_kbuf_idx (buffer : List Byte) (size : Nat) (env : put_env)
    (kbuf0 : List Byte) (hk : put_buffer_kbuf size env = some kbuf0)
    (hcopy : size ≤ buffer.length) :
    buffer_idx_of_bytes (buffer.take size ++ kbuf0.drop size)
      = buffer_idx_of_bytes (buffer.take size ++ List.replicate (meta_size - size) 0) := by
  apply idx_bytes_congr
  intro i hi
  have hlen : (buffer.take size).length = size := by simp; omega
  by_cases h32 : meta_size ≤ size
  · have : i < (buffer.take size).length := by rw [hlen]; simp [meta_size] at h32; omega
    rw [List.getElem?_append_left this, List.getElem?_append_left this]
  · have hk0 : kbuf0 = List.replicate 64 0 := by
      unfold put_buffer_kbuf at hk
      simp [meta_size] at h32
      have h1 : max size meta_size ≤ 64 := by simp [meta_size]; omega
      have h2 : meta_size > size := by simp [meta_size]; omega
      simp [h1, h2] at hk
      exact hk.symm
    have hdrop : kbuf0.drop size = List.replicate (64 - size) 0 := by
      rw [hk0, List.drop_replicate]
    rw [hdrop]
    simp only [meta_size, not_le] at h32
    by_cases his : i < size
    · have : i < (buffer.take size).length := by rw [hlen]; exact his
      rw [List.getElem?_append_left this, List.getElem?_append_left this]
    · have : (buffer.take size).length ≤ i := by rw [hlen]; omega
      rw [List.getElem?_append_right this, List.getElem?_append_right this, hlen]
      have h1 : i - size < 64 - size := by omega
      have h2 : i - size < meta_size - size := by simp only [meta_size]; omega
      simp only [List.getElem?_replicate, h1, h2, if_true]

/-- C9 (amended): a put_buffer call with a buffer outstanding, a size above the
metadata size and a non-zero caller byte at some position from the metadata
size up to size-1 always fails and leaves the whole client, hence `read_idx`,
unchanged, whatever slot index the caller embedded; the error is -EINVAL,
unless the scratch allocation (needed when size > 64) fails, which gives
-ENOMEM, or the caller's area has fewer than `size` readable bytes, which gives
-EFAULT. -/
theorem put_buffer_nonzero_tail (cli : kbase_vinstr_client) (buffer : List Byte)
    (size : Nat) (env : put_env) (i : Nat)
    (hout : cli.meta_idx ≠ cli.read_idx) (hsize : meta_size < size)
    (hi1 : meta_size ≤ i) (hi2 : i < size) (hnz : buffer.getD i 0 ≠ 0) :
    kbasep_vinstr_hwcnt_reader_ioctl_put_buffer cli buffer size env =
      (if 64 < size ∧ env.kzalloc_ok = false then -ENOMEM
       else if buffer.length < size then -EFAULT
       else -EINVAL, cli) := by
  unfold kbasep_vinstr_hwcnt_reader_ioctl_put_buffer
  simp only [hout, if_false]
  have hmax : max size meta_size = size := by simp [meta_size] at *; omega
  have hns : ¬ meta_size > size := by omega
  by_cases h64 : size ≤ 64
  · have hk : put_buffer_kbuf size env = some ((List.range 64).map env.stack_kbuf) := by
      simp [put_buffer_kbuf, hmax, h64, hns]
    have hn64 : ¬ (64 < size ∧ env.kzalloc_ok = false) := by omega
    rw [hk]
    simp only [hn64, if_false]
    by_cases hlen : buffer.length < size
    · have : (copy_from_user buffer size).2 ≠ 0 := by simp [copy_from_user]; omega
      simp [this, hlen]
    · have h0 : ¬ (copy_from_user buffer size).2 ≠ 0 := by simp [copy_from_user]; omega
      have hany : (List.range' meta_size (size - meta_size)).any
          (fun j => ((copy_from_user buffer size).1
            ++ ((List.range 64).map env.stack_kbuf).drop size).getD j 0 ≠ 0) = true := by
        rw [List.any_eq_true]
        refine ⟨i, ?_, ?_⟩
        · rw [List.mem_range'_1]; omega
        · simp only [copy_from_user]
          rw [decide_eq_true_eq, getD_take_append buffer _ size i hi2 (by omega)]
          exact hnz
      simp only [h0, hlen, if_false, hany, if_true]
  · have hn64 : 64 < size := by omega
    cases hz : env.kzalloc_ok
    · have hk : put_buffer_kbuf size env = none := by
        simp [put_buffer_kbuf, hmax, h64, hz]
      rw [hk]; simp [hn64]
    · have hk : put_buffer_kbuf size env = some (List.replicate size 0) := by
        simp [put_buffer_kbuf, hmax, h64, hz]
      rw [hk]
      by_cases hlen : buffer.length < size
      · have : (copy_from_user buffer size).2 ≠ 0 := by simp [copy_from_user]; omega
        simp [this, hlen]
      · have h0 : ¬ (copy_from_user buffer size).2 ≠ 0 := by simp [copy_from_user]; omega
        have hany : (List.range' meta_size (size - meta_size)).any
            (fun j => ((copy_from_user buffer size).1
              ++ (List.replicate size (0 : Byte)).drop size).getD j 0 ≠ 0) = true := by
          rw [List.any_eq_true]
          refine ⟨i, ?_, ?_⟩
          · rw [List.mem_range'_1]; omega
          · simp only [copy_from_user]
            rw [decide_eq_true_eq, getD_take_append buffer _ size i hi2 (by omega)]
            exact hnz
        simp only [h0, hlen, if_false, hany, if_true]
        simp

/-- C10: for a put_buffer call with a buffer outstanding, a successful user
copy (the scratch area was obtained and `copy_from_user` left no byte uncopied)
and an all-zero tail beyond the metadata size: if the slot index embedded in
the caller's bytes (zero-extended to the metadata size) equals
`read_idx % buf_cnt` the call returns 0 and changes nothing but `read_idx`,
which advances by one (as a 32-bit counter); otherwise it returns -EINVAL and
leaves the whole client unchanged. -/
theorem put_buffer_checks_slot (cli : kbase_vinstr_client) (buffer : List Byte)
    (size : Nat) (env : put_env)
    (hout : cli.meta_idx ≠ cli.read_idx)
    (hscratch : (put_buffer_kbuf size env).isSome = true)
    (hcopy : (copy_from_user buffer size).2 = 0)
    (htail : ∀ i, meta_size ≤ i → i < size → buffer.getD i 0 = 0) :
    kbasep_vinstr_hwcnt_reader_ioctl_put_buffer cli buffer size env =
      if buffer_idx_of_bytes (buffer.take size ++ List.replicate (meta_size - size) 0)
          = cli.read_idx % cli.buf_cnt
      then (0, { cli with read_idx := (cli.read_idx + 1) % U32_MOD })
      else (-EINVAL, cli) := by
  obtain ⟨kbuf0, hk⟩ := Option.isSome_iff_exists.mp hscratch
  have hle : size ≤ buffer.length := by simp [copy_from_user] at hcopy; omega
  unfold kbasep_vinstr_hwcnt_reader_ioctl_put_buffer
  simp only [hout, if_false, hk]
  have h0 : ¬ (copy_from_user buffer size).2 ≠ 0 := by simp [hcopy]
  have hany : (List.range' meta_size (size - meta_size)).any
      (fun j => ((copy_from_user buffer size).1 ++ kbuf0.drop size).getD j 0 ≠ 0) = false := by
    rw [List.any_eq_false]
    intro j hj
    rw [List.mem_range'_1] at hj
    simp only [copy_from_user]
    rw [decide_eq_true_eq, getD_take_append buffer _ size j (by omega) hle]
    exact not_not.mpr (htail j hj.1 (by omega))
  simp only [h0, if_false, hany]
  simp only [copy_from_user, put_buffer_kbuf_idx buffer size env kbuf0 hk hle, atomic_inc]
  by_cases hidx : buffer_idx_of_bytes (buffer.take size ++ List.replicate (meta_size - size) 0)
      = cli.read_idx % cli.buf_cnt
  · simp [hidx]
  · have : cli.read_idx % cli.buf_cnt ≠
        buffer_idx_of_bytes (buffer.take size ++ List.replicate (meta_size - size) 0) :=
      fun h => hidx h.symm
    simp [hidx, this]

/-- C9 (witness): 40 caller bytes with the right slot index and a 1 in byte 39. -/
theorem put_buffer_nonzero_tail_witness :
    (ex_client 4 3 3 2).meta_idx ≠ (ex_client 4 3 3 2).read_idx ∧ meta_size < 40 ∧
    meta_size ≤ 39 ∧ 39 < 40 ∧ (ex_user_record 40 2 39).getD 39 0 ≠ 0 ∧
    buffer_idx_of_bytes (ex_user_record 40 2 39) = (ex_client 4 3 3 2).read_idx % 4 ∧
    kbasep_vinstr_hwcnt_reader_ioctl_put_buffer (ex_client 4 3 3 2)
      (ex_user_record 40 2 39) 40 ex_put_env = (-EINVAL, ex_client 4 3 3 2) :=
  ⟨by decide, by decide, by decide, by decide, by decide, by decide,
    put_buffer_nonzero_tail (ex_client 4 3 3 2) (ex_user_record 40 2 39) 40 ex_put_env 39
      (by decide) (by decide) (by decide) (by decide) (by decide)⟩

/-- C9 (counterexample): with a buffer outstanding and a non-zero byte beyond
the metadata size, a 65-byte put whose scratch allocation fails returns
-ENOMEM, and a 40-byte put of which only 34 bytes are readable returns -EFAULT;
neither returns -EINVAL. -/
theorem put_buffer_nonzero_tail_other_errors :
    ((ex_client 4 3 3 2).meta_idx ≠ (ex_client 4 3 3 2).read_idx ∧ meta_size < 65 ∧
      (ex_user_record 65 2 64).getD 64 0 ≠ 0 ∧
      (kbasep_vinstr_hwcnt_reader_ioctl_put_buffer (ex_client 4 3 3 2)
        (ex_user_record 65 2 64) 65 ex_put_env_nomem).1 = -ENOMEM) ∧
    ((ex_client 4 3 3 2).meta_idx ≠ (ex_client 4 3 3 2).read_idx ∧ meta_size < 40 ∧
      (ex_user_record 34 2 33).getD 33 0 ≠ 0 ∧
      (kbasep_vinstr_hwcnt_reader_ioctl_put_buffer (ex_client 4 3 3 2)
        (ex_user_record 34 2 33) 40 ex_put_env).1 = -EFAULT) := by
  decide

/-- C10 (witness): a 40-byte put returning slot 2 of a four-slot ring. -/
theorem put_buffer_checks_slot_witness :
    (ex_client 4 3 3 2).meta_idx ≠ (ex_client 4 3 3 2).read_idx ∧
    (put_buffer_kbuf 40 ex_put_env).isSome = true ∧
    (copy_from_user (ex_user_record 40 2 99) 40).2 = 0 ∧
    (∀ i, meta_size ≤ i → i < 40 → (ex_user_record 40 2 99).getD i 0 = 0) ∧
    kbasep_vinstr_hwcnt_reader_ioctl_put_buffer (ex_client 4 3 3 2)
      (ex_user_record 40 2 99) 40 ex_put_env = (0, ex_client 4 3 3 3) :=
  ⟨by decide, by decide, by decide, by decide,
    (put_buffer_checks_slot (ex_client 4 3 3 2) (ex_user_record 40 2 99) 40 ex_put_env
      (by decide) (by decide) (by decide) (by decide)).trans (by decide)⟩

/-- The two outcomes of get_buffer on the client: failure without change, or
success with `meta_idx` advanced. -/
theorem get_buffer_cases (cli : kbase_vinstr_client) (buffer : List Byte) (size : Nat) :
    ((kbasep_vinstr_hwcnt_reader_ioctl_get_buffer cli buffer size).1 ≠ 0 ∧
      (kbasep_vinstr_hwcnt_reader_ioctl_get_buffer cli buffer size).2.1 = cli) ∨
    ((kbasep_vinstr_hwcnt_reader_ioctl_get_buffer cli buffer size).1 = 0 ∧
      cli.write_idx ≠ cli.meta_idx ∧ cli.read_idx = cli.meta_idx ∧
      (kbasep_vinstr_hwcnt_reader_ioctl_get_buffer cli buffer size).2.1
        = { cli with meta_idx := atomic_inc cli.meta_idx }) := by
  unfold kbasep_vinstr_hwcnt_reader_ioctl_get_buffer
  dsimp only
  by_cases h1 : cli.write_idx = cli.meta_idx
  · left; simp [h1, EAGAIN]
  · by_cases h2 : cli.read_idx ≠ cli.meta_idx
    · left; simp [h1, h2, EBUSY]
    · rw [if_neg h1, if_neg h2]
      generalize (if meta_size < size then clear_user buffer size else (buffer, 0)) = cleared
      by_cases hc : cleared.2 ≠ 0
      · left; rw [if_pos hc]; simp [EFAULT]
      · rw [if_neg hc]
        generalize copy_to_user cleared.1
          (cli.dump_bufs_meta.getD (cli.meta_idx % cli.buf_cnt) default).bytes
          (min size meta_size) = copied
        by_cases hd : copied.2 ≠ 0
        · left; rw [if_pos hd]; simp [EFAULT]
        · right; rw [if_neg hd]; exact ⟨rfl, h1, not_not.mp h2, rfl⟩

/-- The two outcomes of put_buffer on the client: failure without change, or
success with `read_idx` advanced. -/
theorem put_buffer_cases (cli : kbase_vinstr_client) (buffer : List Byte) (size : Nat)
    (env : put_env) :
    ((kbasep_vinstr_hwcnt_reader_ioctl_put_buffer cli buffer size env).1 ≠ 0 ∧
      (kbasep_vinstr_hwcnt_reader_ioctl_put_buffer cli buffer size env).2 = cli) ∨
    ((kbasep_vinstr_hwcnt_reader_ioctl_put_buffer cli buffer size env).1 = 0 ∧
      cli.meta_idx ≠ cli.read_idx ∧
      (kbasep_vinstr_hwcnt_reader_ioctl_put_buffer cli buffer size env).2
        = { cli with read_idx := atomic_inc cli.read_idx }) := by
  unfold kbasep_vinstr_hwcnt_reader_ioctl_put_buffer
  dsimp only
  by_cases h1 : cli.meta_idx = cli.read_idx
  · left; simp [h1, EPERM]
  · rw [if_neg h1]
    cases put_buffer_kbuf size env with
    | none => left; simp [ENOMEM]
    | some kbuf0 =>
      dsimp only
      by_cases hc : (copy_from_user buffer size).2 ≠ 0
      · left; rw [if_pos hc]; simp [EFAULT]
      · rw [if_neg hc]
        split
        · left; simp [EINVAL]
        · split
          · left; simp [EINVAL]
          · right; exact ⟨rfl, h1, rfl⟩

/-- A produce never touches `meta_idx` or `read_idx`, whatever `ds5_used` is. -/
theorem client_dump_consumer_indices (ds5_used : Int) (metadata : kbase_hwcnt_metadata)
    (vd : virt_dump) (vcli : kbase_vinstr_client) (event_id : base_hwcnt_reader_event) :
    (kbasep_vinstr_client_dump ds5_used metadata vd vcli event_id).2.meta_idx = vcli.meta_idx ∧
    (kbasep_vinstr_client_dump ds5_used metadata vd vcli event_id).2.read_idx = vcli.read_idx := by
  unfold kbasep_vinstr_client_dump
  dsimp only
  split
  · exact ⟨rfl, rfl⟩
  · split <;> exact ⟨rfl, rfl⟩

/-- The three outcomes of a produce with `ds5_used` set: Busy without change,
a failed virtualizer dump touching only the dump buffer, or success. -/
theorem client_dump_ds5_cases (ds5_used : Int) (metadata : kbase_hwcnt_metadata)
    (vd : virt_dump) (vcli : kbase_vinstr_client) (event_id : base_hwcnt_reader_event)
    (hds : ds5_used ≠ 0) :
    (kbasep_vinstr_client_dump ds5_used metadata vd vcli event_id).2 = vcli ∨
    (kbasep_vinstr_client_dump ds5_used metadata vd vcli event_id).2
      = { vcli with
            dump_bufs := vcli.dump_bufs.set (vcli.write_idx % vcli.buf_cnt) vd.dump_buf } ∨
    (u32_sub vcli.write_idx vcli.read_idx ≠ vcli.buf_cnt ∧
      (kbasep_vinstr_client_dump ds5_used metadata vd vcli event_id).2
        = { vcli with
              dump_bufs := vcli.dump_bufs.set (vcli.write_idx % vcli.buf_cnt) vd.dump_buf
              dump_bufs_meta := vcli.dump_bufs_meta.set (vcli.write_idx % vcli.buf_cnt)
                { timestamp := vd.ts_end_ns
                  event_id := event_id.code
                  buffer_idx := vcli.write_idx % vcli.buf_cnt
                  cycles_top :=
                    if metadata.clk_cnt > 0 then vd.dump_buf.clk_cnt_buf.getD 0 0 else 0
                  cycles_shader_cores :=
                    if metadata.clk_cnt > 1 then vd.dump_buf.clk_cnt_buf.getD 1 0 else 0 }
              write_idx := atomic_inc vcli.write_idx
              waitq_wakeups := vcli.waitq_wakeups + 1 }) := by
  by_cases hfull : u32_sub vcli.write_idx vcli.read_idx = vcli.buf_cnt
  · left; simp [kbasep_vinstr_client_dump, hds, hfull]
  · by_cases herr : vd.errcode = 0
    · right; right; simp [kbasep_vinstr_client_dump, hds, hfull, herr]
    · right; left; simp [kbasep_vinstr_client_dump, hds, hfull, herr]

/-- A created client has the requested buffer count, that many metadata
records, and all three indices 0. -/
theorem client_create_ok (metadata : kbase_hwcnt_metadata)
    (setup : kbase_ioctl_hwcnt_reader_setup) (env : create_env) (cli : kbase_vinstr_client)
    (h : kbasep_vinstr_client_create metadata setup env = .ok cli) :
    cli.buf_cnt = setup.buffer_count ∧ cli.dump_bufs_meta.length = setup.buffer_count ∧
    cli.write_idx = 0 ∧ cli.meta_idx = 0 ∧ cli.read_idx = 0 := by
  unfold kbasep_vinstr_client_create at h
  split at h
  · cases h
  · split at h
    · cases h
    · split at h
      · cases h
      · split at h
        · cases h
        · split at h
          · cases h
          · cases h
            simp

/-- Running a sequence is running its first call, then the rest. -/
theorem vinstr_run_cons (ds5_used : Int) (metadata : kbase_hwcnt_metadata)
    (cli : kbase_vinstr_client) (c : vinstr_call) (calls : List vinstr_call) :
    vinstr_run ds5_used metadata cli (c :: calls)
      = vinstr_run ds5_used metadata (vinstr_step ds5_used metadata cli c) calls := rfl

/-- Running a concatenation is running its parts in turn. -/
theorem vinstr_run_append (ds5_used : Int) (metadata : kbase_hwcnt_metadata)
    (cli : kbase_vinstr_client) (xs ys : List vinstr_call) :
    vinstr_run ds5_used metadata cli (xs ++ ys)
      = vinstr_run ds5_used metadata (vinstr_run ds5_used metadata cli xs) ys := by
  simp [vinstr_run, List.foldl_append]

/-- The ring invariant survives a call that changes no index. -/
theorem ring_inv_mono (N k : Nat) (s : kbase_vinstr_client) (h : ring_inv N k s) :
    ring_inv N (k + 1) s := by
  obtain ⟨hb, hr, hm, hw, h1, h2, h3⟩ := h
  refine ⟨hb, hr, hm, hw, h1, h2, ?_⟩
  intro hk; have := h3 (by omega); omega

/-- Every call preserves the ring invariant while `ds5_used` is set. -/
theorem ring_inv_step (ds5_used : Int) (metadata : kbase_hwcnt_metadata) (N k : Nat)
    (s : kbase_vinstr_client) (c : vinstr_call) (hds : ds5_used ≠ 0) (hN : N ≤ MAX_BUFFER_COUNT)
    (h : ring_inv N k s) : ring_inv N (k + 1) (vinstr_step ds5_used metadata s c) := by
  have hmono := ring_inv_mono N k s h
  obtain ⟨hb, hr, hm, hw, h1, h2, h3⟩ := h
  simp only [MAX_BUFFER_COUNT] at hN
  cases c with
  | dump event_id vd =>
    simp only [vinstr_step]
    rcases client_dump_ds5_cases ds5_used metadata vd s event_id hds with h | h | ⟨hfree, h⟩
    · rw [h]; exact hmono
    · rw [h]; exact hmono
    · rw [h]
      rw [hb] at hfree
      simp only [ring_inv, u32_sub, atomic_inc, U32_MOD] at *
      refine ⟨hb, hr, hm, by omega, by omega, by omega, ?_⟩
      intro hk; have := h3 (by omega); omega
  | clear vd => exact hmono
  | get_buffer buffer size =>
    simp only [vinstr_step]
    rcases get_buffer_cases s buffer size with ⟨_, h⟩ | ⟨_, hwm, hrm, h⟩
    · rw [h]; exact hmono
    · rw [h]
      simp only [ring_inv, u32_sub, atomic_inc, U32_MOD] at *
      refine ⟨hb, hr, by omega, hw, by omega, by omega, ?_⟩
      intro hk; have := h3 (by omega); omega
  | put_buffer buffer size env =>
    simp only [vinstr_step]
    rcases put_buffer_cases s buffer size env with ⟨_, h⟩ | ⟨_, hmr, h⟩
    · rw [h]; exact hmono
    · rw [h]
      simp only [ring_inv, u32_sub, atomic_inc, U32_MOD] at *
      refine ⟨hb, by omega, hm, hw, by omega, by omega, ?_⟩
      intro hk; have := h3 (by omega); omega

/-- Every call sequence preserves the ring invariant while `ds5_used` is set. -/
theorem ring_inv_run (ds5_used : Int) (metadata : kbase_hwcnt_metadata) (N : Nat)
    (hds : ds5_used ≠ 0) (hN : N ≤ MAX_BUFFER_COUNT) (calls : List vinstr_call) :
    ∀ (k : Nat) (s : kbase_vinstr_client), ring_inv N k s →
      ring_inv N (k + calls.length) (vinstr_run ds5_used metadata s calls) := by
  induction calls with
  | nil => intro k s h; simpa [vinstr_run] using h
  | cons c cs ih =>
    intro k s h
    rw [vinstr_run_cons, List.length_cons]
    have := ih (k + 1) _ (ring_inv_step ds5_used metadata N k s c hds hN h)
    have e : k + (cs.length + 1) = k + 1 + cs.length := by omega
    rw [e]; exact this

/-- C1 (amended): for a client created with buffer count N (1 <= N <= 32) and
any sequence of produce, clear, get_buffer and put_buffer calls made while
`ds5_used` is set, the 32-bit differences satisfy
`meta_idx - read_idx <= write_idx - read_idx <= N` after every call, and while
fewer than 2^32 calls have been made (no index has wrapped)
`read_idx <= meta_idx <= write_idx <= read_idx + N`. -/
theorem ring_index_order (metadata : kbase_hwcnt_metadata)
    (setup : kbase_ioctl_hwcnt_reader_setup) (env : create_env) (cli : kbase_vinstr_client)
    (ds5_used : Int) (calls : List vinstr_call)
    (hcreate : kbasep_vinstr_client_create metadata setup env = .ok cli)
    (hN : 1 ≤ setup.buffer_count ∧ setup.buffer_count ≤ MAX_BUFFER_COUNT)
    (hds : ds5_used ≠ 0) :
    (u32_sub (vinstr_run ds5_used metadata cli calls).meta_idx
        (vinstr_run ds5_used metadata cli calls).read_idx
      ≤ u32_sub (vinstr_run ds5_used metadata cli calls).write_idx
          (vinstr_run ds5_used metadata cli calls).read_idx ∧
     u32_sub (vinstr_run ds5_used metadata cli calls).write_idx
        (vinstr_run ds5_used metadata cli calls).read_idx ≤ setup.buffer_count) ∧
    (calls.length < U32_MOD →
      (vinstr_run ds5_used metadata cli calls).read_idx
        ≤ (vinstr_run ds5_used metadata cli calls).meta_idx ∧
      (vinstr_run ds5_used metadata cli calls).meta_idx
        ≤ (vinstr_run ds5_used metadata cli calls).write_idx ∧
      (vinstr_run ds5_used metadata cli calls).write_idx
        ≤ (vinstr_run ds5_used metadata cli calls).read_idx + setup.buffer_count) := by
  obtain ⟨hb, _, hw, hm, hr⟩ := client_create_ok metadata setup env cli hcreate
  have h0 : ring_inv setup.buffer_count 0 cli := by
    simp only [ring_inv, hb, hw, hm, hr, u32_sub, U32_MOD]
    refine ⟨trivial, by omega, by omega, by omega, by omega, by omega, ?_⟩
    intro _; omega
  have h := ring_inv_run ds5_used metadata setup.buffer_count hds hN.2 calls 0 cli h0
  obtain ⟨_, _, _, _, h1, h2, h3⟩ := h
  refine ⟨⟨h1, h2⟩, ?_⟩
  intro hk
  have := h3 (by omega)
  omega

/-- The example environment creates the example client. -/
theorem ex_fresh_created (n : Nat) :
    kbasep_vinstr_client_create ex_metadata (ex_setup n) ex_create_env = .ok (ex_fresh n) := by
  simp [kbasep_vinstr_client_create, ex_create_env, ex_metadata, ex_setup, ex_fresh, U64_MOD]

/-- One round on a drained one-slot ring advances all three indices by one. -/
theorem ex_cycle_step (s : kbase_vinstr_client) (k : Nat)
    (hb : s.buf_cnt = 1) (hw : s.write_idx = k) (hm : s.meta_idx = k) (hr : s.read_idx = k) :
    (vinstr_run 1 ex_metadata s ex_cycle).buf_cnt = 1 ∧
    (vinstr_run 1 ex_metadata s ex_cycle).write_idx = (k + 1) % U32_MOD ∧
    (vinstr_run 1 ex_metadata s ex_cycle).meta_idx = (k + 1) % U32_MOD ∧
    (vinstr_run 1 ex_metadata s ex_cycle).read_idx = (k + 1) % U32_MOD := by
  have h1 : ¬ u32_sub k k = 1 := by simp only [u32_sub, U32_MOD]; omega
  have h2 : ¬ (k + 1) % U32_MOD = k := by simp only [U32_MOD]; omega
  have h3 : ¬ k = (k + 1) % U32_MOD := fun h => h2 h.symm
  have h4 : put_buffer_kbuf 32 ex_put_env
      = some ((List.range 64).map ex_put_env.stack_kbuf) := by decide
  have h5 : (copy_from_user (ex_user_record 32 0 99) 32).2 = 0 := by decide
  have h6 : buffer_idx_of_bytes ((copy_from_user (ex_user_record 32 0 99) 32).1
      ++ ((List.range 64).map ex_put_env.stack_kbuf).drop 32) = 0 := by decide
  simp [vinstr_run, ex_cycle, vinstr_step, kbasep_vinstr_client_dump, hb, hw, hm, hr, h1,
    ex_virt_dump, kbasep_vinstr_hwcnt_reader_ioctl_get_buffer, atomic_inc, h2, h3, meta_size,
    copy_to_user, user_write, kbasep_vinstr_hwcnt_reader_ioctl_put_buffer, h4, h5, h6,
    Nat.mod_one]

/-- After `n` rounds on a drained one-slot ring all three indices have advanced
by `n` (as 32-bit counters). -/
theorem ex_cycles (n : Nat) : ∀ (s : kbase_vinstr_client) (k : Nat), k < U32_MOD →
    s.buf_cnt = 1 → s.write_idx = k → s.meta_idx = k → s.read_idx = k →
    (vinstr_run 1 ex_metadata s (repeat_calls n ex_cycle)).buf_cnt = 1 ∧
    (vinstr_run 1 ex_metadata s (repeat_calls n ex_cycle)).write_idx = (k + n) % U32_MOD ∧
    (vinstr_run 1 ex_metadata s (repeat_calls n ex_cycle)).meta_idx = (k + n) % U32_MOD ∧
    (vinstr_run 1 ex_metadata s (repeat_calls n ex_cycle)).read_idx = (k + n) % U32_MOD := by
  induction n with
  | zero =>
    intro s k hk hb hw hm hr
    have e : (k + 0) % U32_MOD = k := by simp only [U32_MOD] at *; omega
    simp only [repeat_calls, vinstr_run, List.foldl_nil, e]
    exact ⟨hb, hw, hm, hr⟩
  | succ n ih =>
    intro s k hk hb hw hm hr
    obtain ⟨hb1, hw1, hm1, hr1⟩ := ex_cycle_step s k hb hw hm hr
    obtain ⟨hb2, hw2, hm2, hr2⟩ := ih _ _ (Nat.mod_lt _ (by decide)) hb1 hw1 hm1 hr1
    simp only [repeat_calls, vinstr_run_append]
    refine ⟨hb2, ?_, ?_, ?_⟩
    · rw [hw2]; simp only [U32_MOD]; omega
    · rw [hm2]; simp only [U32_MOD]; omega
    · rw [hr2]; simp only [U32_MOD]; omega

/-- After `n` rounds and one more produce on a fresh one-slot ring the consumer
indices are `n` and `write_idx` is `n + 1` as a 32-bit counter. -/
theorem ex_wrap_state (n : Nat) (hn : n < U32_MOD) :
    (vinstr_run 1 ex_metadata (ex_fresh 1)
      (repeat_calls n ex_cycle
        ++ [.dump .BASE_HWCNT_READER_EVENT_MANUAL ex_virt_dump])).write_idx
      = (n + 1) % U32_MOD ∧
    (vinstr_run 1 ex_metadata (ex_fresh 1)
      (repeat_calls n ex_cycle
        ++ [.dump .BASE_HWCNT_READER_EVENT_MANUAL ex_virt_dump])).meta_idx = n ∧
    (vinstr_run 1 ex_metadata (ex_fresh 1)
      (repeat_calls n ex_cycle
        ++ [.dump .BASE_HWCNT_READER_EVENT_MANUAL ex_virt_dump])).read_idx = n := by
  obtain ⟨hb, hw, hm, hr⟩ := ex_cycles n (ex_fresh 1) 0 (by decide) rfl rfl rfl rfl
  have e : (0 + n) % U32_MOD = n := by simp only [U32_MOD] at *; omega
  rw [e] at hw hm hr
  have h1 : ¬ u32_sub n n = 1 := by simp only [u32_sub, U32_MOD]; omega
  rw [vinstr_run_append]
  generalize vinstr_run 1 ex_metadata (ex_fresh 1) (repeat_calls n ex_cycle) = s at *
  simp [vinstr_run, vinstr_step, kbasep_vinstr_client_dump, hb, hw, hm, hr, h1, ex_virt_dump,
    atomic_inc]

/-- C1 (counterexample): on a freshly created one-slot client, (a) with
`ds5_used` clear two produces leave `write_idx = 2 > read_idx + 1`; (b) with
`ds5_used` set, 2^32 - 1 produce/get/put rounds followed by one produce leave
`write_idx = 0 < meta_idx = 2^32 - 1`. -/
theorem ring_index_order_fails :
    (kbasep_vinstr_client_create ex_metadata (ex_setup 1) ex_create_env = .ok (ex_fresh 1) ∧
      ¬ ((vinstr_run 0 ex_metadata (ex_fresh 1)
            [.dump .BASE_HWCNT_READER_EVENT_MANUAL ex_virt_dump,
             .dump .BASE_HWCNT_READER_EVENT_MANUAL ex_virt_dump]).write_idx
          ≤ (vinstr_run 0 ex_metadata (ex_fresh 1)
            [.dump .BASE_HWCNT_READER_EVENT_MANUAL ex_virt_dump,
             .dump .BASE_HWCNT_READER_EVENT_MANUAL ex_virt_dump]).read_idx + 1)) ∧
    ¬ ((vinstr_run 1 ex_metadata (ex_fresh 1)
          (repeat_calls 4294967295 ex_cycle
            ++ [.dump .BASE_HWCNT_READER_EVENT_MANUAL ex_virt_dump])).meta_idx
        ≤ (vinstr_run 1 ex_metadata (ex_fresh 1)
          (repeat_calls 4294967295 ex_cycle
            ++ [.dump .BASE_HWCNT_READER_EVENT_MANUAL ex_virt_dump])).write_idx) := by
  refine ⟨⟨ex_fresh_created 1, by decide⟩, ?_⟩
  have h := ex_wrap_state 4294967295 (by decide)
  have e : (4294967295 + 1) % U32_MOD = 0 := by decide
  have hw := h.1
  have hm := h.2.1
  rw [e] at hw
  intro hle
  rw [hw, hm] at hle
  exact absurd hle (by decide)

/-- C1 (witness): one produce/get/put round on a fresh two-slot client. -/
theorem ring_index_order_witness :
    kbasep_vinstr_client_create ex_metadata (ex_setup 2) ex_create_env = .ok (ex_fresh 2) ∧
    (1 ≤ (ex_setup 2).buffer_count ∧ (ex_setup 2).buffer_count ≤ MAX_BUFFER_COUNT) ∧
    (1 : Int) ≠ 0 ∧
    ((u32_sub (vinstr_run 1 ex_metadata (ex_fresh 2) ex_cycle).meta_idx
        (vinstr_run 1 ex_metadata (ex_fresh 2) ex_cycle).read_idx
      ≤ u32_sub (vinstr_run 1 ex_metadata (ex_fresh 2) ex_cycle).write_idx
          (vinstr_run 1 ex_metadata (ex_fresh 2) ex_cycle).read_idx ∧
     u32_sub (vinstr_run 1 ex_metadata (ex_fresh 2) ex_cycle).write_idx
        (vinstr_run 1 ex_metadata (ex_fresh 2) ex_cycle).read_idx ≤ (ex_setup 2).buffer_count) ∧
    (ex_cycle.length < U32_MOD →
      (vinstr_run 1 ex_metadata (ex_fresh 2) ex_cycle).read_idx
        ≤ (vinstr_run 1 ex_metadata (ex_fresh 2) ex_cycle).meta_idx ∧
      (vinstr_run 1 ex_metadata (ex_fresh 2) ex_cycle).meta_idx
        ≤ (vinstr_run 1 ex_metadata (ex_fresh 2) ex_cycle).write_idx ∧
      (vinstr_run 1 ex_metadata (ex_fresh 2) ex_cycle).write_idx
        ≤ (vinstr_run 1 ex_metadata (ex_fresh 2) ex_cycle).read_idx + (ex_setup 2).buffer_count)) :=
  ⟨ex_fresh_created 2, by decide, by decide,
    ring_index_order ex_metadata (ex_setup 2) ex_create_env (ex_fresh 2) 1 ex_cycle
      (ex_fresh_created 2) (by decide) (by decide)⟩

/-- Every call preserves the one-outstanding invariant, whatever `ds5_used` is. -/
theorem outstanding_inv_step (ds5_used : Int) (metadata : kbase_hwcnt_metadata) (k : Nat)
    (s : kbase_vinstr_client) (c : vinstr_call) (h : outstanding_inv k s) :
    outstanding_inv (k + 1) (vinstr_step ds5_used metadata s c) := by
  have hmono : outstanding_inv (k + 1) s := by
    obtain ⟨hr, hm, h1, h2⟩ := h
    refine ⟨hr, hm, h1, ?_⟩
    intro hk; have := h2 (by omega); omega
  obtain ⟨hr, hm, h1, h2⟩ := h
  cases c with
  | dump event_id vd =>
    obtain ⟨e1, e2⟩ := client_dump_consumer_indices ds5_used metadata vd s event_id
    simp only [vinstr_step, outstanding_inv, e1, e2]
    exact hmono
  | clear vd => exact hmono
  | get_buffer buffer size =>
    simp only [vinstr_step]
    rcases get_buffer_cases s buffer size with ⟨_, h⟩ | ⟨_, _, hrm, h⟩
    · rw [h]; exact hmono
    · rw [h]
      simp only [outstanding_inv, u32_sub, atomic_inc, U32_MOD] at *
      refine ⟨hr, by omega, by omega, ?_⟩
      intro hk; have := h2 (by omega); omega
  | put_buffer buffer size env =>
    simp only [vinstr_step]
    rcases put_buffer_cases s buffer size env with ⟨_, h⟩ | ⟨_, hmr, h⟩
    · rw [h]; exact hmono
    · rw [h]
      simp only [outstanding_inv, u32_sub, atomic_inc, U32_MOD] at *
      refine ⟨by omega, hm, by omega, ?_⟩
      intro hk; have := h2 (by omega); omega

/-- Every call sequence preserves the one-outstanding invariant. -/
theorem outstanding_inv_run (ds5_used : Int) (metadata : kbase_hwcnt_metadata)
    (calls : List vinstr_call) :
    ∀ (k : Nat) (s : kbase_vinstr_client), outstanding_inv k s →
      outstanding_inv (k + calls.length) (vinstr_run ds5_used metadata s calls) := by
  induction calls with
  | nil => intro k s h; simpa [vinstr_run] using h
  | cons c cs ih =>
    intro k s h
    rw [vinstr_run_cons, List.length_cons]
    have := ih (k + 1) _ (outstanding_inv_step ds5_used metadata k s c h)
    have e : k + (cs.length + 1) = k + 1 + cs.length := by omega
    rw [e]; exact this

/-- C2: in every state reached from a freshly created client by any sequence of
produce, clear, get_buffer and put_buffer calls (whatever `ds5_used` is), the
32-bit difference `meta_idx - read_idx` is 0 or 1; while fewer than 2^32 calls
have been made this is the plain difference: `meta_idx` is `read_idx` or
`read_idx + 1`. -/
theorem at_most_one_outstanding (metadata : kbase_hwcnt_metadata)
    (setup : kbase_ioctl_hwcnt_reader_setup) (env : create_env) (cli : kbase_vinstr_client)
    (ds5_used : Int) (calls : List vinstr_call)
    (hcreate : kbasep_vinstr_client_create metadata setup env = .ok cli) :
    (u32_sub (vinstr_run ds5_used metadata cli calls).meta_idx
        (vinstr_run ds5_used metadata cli calls).read_idx = 0 ∨
     u32_sub (vinstr_run ds5_used metadata cli calls).meta_idx
        (vinstr_run ds5_used metadata cli calls).read_idx = 1) ∧
    (calls.length < U32_MOD →
      (vinstr_run ds5_used metadata cli calls).meta_idx
        = (vinstr_run ds5_used metadata cli calls).read_idx ∨
      (vinstr_run ds5_used metadata cli calls).meta_idx
        = (vinstr_run ds5_used metadata cli calls).read_idx + 1) := by
  obtain ⟨_, _, _, hm, hr⟩ := client_create_ok metadata setup env cli hcreate
  have h0 : outstanding_inv 0 cli := by
    refine ⟨by rw [hr]; decide, by rw [hm]; decide, Or.inl (by rw [hm, hr]; decide), ?_⟩
    intro _
    rw [hm, hr]
    exact ⟨Nat.le_refl 0, Or.inl rfl⟩
  obtain ⟨_, _, h1, h2⟩ := outstanding_inv_run ds5_used metadata calls 0 cli h0
  refine ⟨h1, ?_⟩
  intro hk
  exact (h2 (by omega)).2

/-- C2 (witness): a produce and a get_buffer on a fresh two-slot client. -/
theorem at_most_one_outstanding_witness :
    kbasep_vinstr_client_create ex_metadata (ex_setup 2) ex_create_env = .ok (ex_fresh 2) ∧
    ((u32_sub (vinstr_run 0 ex_metadata (ex_fresh 2) (ex_cycle.take 2)).meta_idx
        (vinstr_run 0 ex_metadata (ex_fresh 2) (ex_cycle.take 2)).read_idx = 0 ∨
     u32_sub (vinstr_run 0 ex_metadata (ex_fresh 2) (ex_cycle.take 2)).meta_idx
        (vinstr_run 0 ex_metadata (ex_fresh 2) (ex_cycle.take 2)).read_idx = 1) ∧
    ((ex_cycle.take 2).length < U32_MOD →
      (vinstr_run 0 ex_metadata (ex_fresh 2) (ex_cycle.take 2)).meta_idx
        = (vinstr_run 0 ex_metadata (ex_fresh 2) (ex_cycle.take 2)).read_idx ∨
      (vinstr_run 0 ex_metadata (ex_fresh 2) (ex_cycle.take 2)).meta_idx
        = (vinstr_run 0 ex_metadata (ex_fresh 2) (ex_cycle.take 2)).read_idx + 1)) :=
  ⟨ex_fresh_created 2,
    at_most_one_outstanding ex_metadata (ex_setup 2) ex_create_env (ex_fresh 2) 0
      (ex_cycle.take 2) (ex_fresh_created 2)⟩

/-- A `w`-byte representation has `w` bytes. -/
theorem le_bytes_length (w v : Nat) : (le_bytes w v).length = w := by
  induction w generalizing v with
  | zero => rfl
  | succ w ih => simp [le_bytes, ih]

/-- Reading back a `w`-byte representation gives the value modulo `256 ^ w`. -/
theorem le_value_le_bytes (w v : Nat) : le_value (le_bytes w v) = v % 256 ^ w := by
  induction w generalizing v with
  | zero => simp [le_bytes, le_value, Nat.mod_one]
  | succ w ih =>
    simp only [le_bytes, le_value, ih]
    rw [Nat.pow_succ', Nat.mod_mul]

/-- A metadata record occupies `meta_size` bytes. -/
theorem metadata_bytes_length (m : kbase_hwcnt_reader_metadata) : m.bytes.length = meta_size := by
  simp [kbase_hwcnt_reader_metadata.bytes, le_bytes_length, meta_size]

/-- The slot index field read from the bytes of a record is its `buffer_idx`
(as a 32-bit value). -/
theorem buffer_idx_of_record (m : kbase_hwcnt_reader_metadata) :
    buffer_idx_of_bytes m.bytes = m.buffer_idx % U32_MOD := by
  have h1 : le_bytes 8 m.timestamp ++ (le_bytes 4 m.event_id ++ (le_bytes 4 m.buffer_idx ++
      (le_bytes 8 m.cycles_top ++ le_bytes 8 m.cycles_shader_cores)))
      = (le_bytes 8 m.timestamp ++ le_bytes 4 m.event_id) ++ (le_bytes 4 m.buffer_idx ++
      (le_bytes 8 m.cycles_top ++ le_bytes 8 m.cycles_shader_cores)) := by
    simp
  have h2 : (le_bytes 8 m.timestamp ++ le_bytes 4 m.event_id).length = 12 := by
    simp [le_bytes_length]
  have h3 : (le_bytes 4 m.buffer_idx).length = 4 := le_bytes_length 4 _
  unfold buffer_idx_of_bytes kbase_hwcnt_reader_metadata.bytes
  rw [h1, List.drop_append_of_le_length (by omega), List.drop_of_length_le (by omega),
    List.nil_append, List.take_append_of_le_length (by omega), List.take_of_length_le (by omega),
    le_value_le_bytes]
  rfl

/-- Reading the metadata array after one slot was written. -/
theorem getD_set_meta (l : List kbase_hwcnt_reader_metadata) (i j : Nat)
    (a : kbase_hwcnt_reader_metadata) (hi : i < l.length) :
    (l.set i a).getD j default = if i = j then a else l.getD j default := by
  by_cases h : i = j
  · subst h; simp [List.getD_eq_getElem?_getD, List.getElem?_set, hi]
  · simp [List.getD_eq_getElem?_getD, List.getElem?_set, h]

/-- The slot index found in the metadata array after one slot was written. -/
theorem getD_set_buffer_idx (l : List kbase_hwcnt_reader_metadata) (i j : Nat)
    (a : kbase_hwcnt_reader_metadata) (hi : i < l.length) :
    ((l.set i a).getD j default).buffer_idx
      = if i = j then a.buffer_idx else (l.getD j default).buffer_idx := by
  rw [getD_set_meta _ _ _ _ hi]
  split <;> rfl

/-- Every call preserves the slot invariant while `ds5_used` is set. -/
theorem slots_inv_step (ds5_used : Int) (metadata : kbase_hwcnt_metadata) (N : Nat)
    (s : kbase_vinstr_client) (c : vinstr_call) (hds : ds5_used ≠ 0)
    (hN : 1 ≤ N ∧ N ≤ MAX_BUFFER_COUNT)
    (h : slots_inv N s) : slots_inv N (vinstr_step ds5_used metadata s c) := by
  have hcopy := h
  obtain ⟨hb, hl, hm, hw, h1⟩ := h
  simp only [MAX_BUFFER_COUNT] at hN
  cases c with
  | dump event_id vd =>
    simp only [vinstr_step]
    rcases client_dump_ds5_cases ds5_used metadata vd s event_id hds with h | h | ⟨_, h⟩
    · rw [h]; exact hcopy
    · rw [h]; exact ⟨hb, hl, hm, hw, h1⟩
    · rw [h]
      subst hb
      have hslot : s.write_idx % s.buf_cnt < s.dump_bufs_meta.length := by
        rw [hl]; exact Nat.mod_lt _ (by omega)
      refine ⟨rfl, by simpa using hl, hm, Nat.mod_lt _ (by decide), ?_⟩
      dsimp only
      simp only [getD_set_buffer_idx _ _ _ _ hslot]
      by_cases hwrap : s.write_idx + 1 < U32_MOD
      · have e : atomic_inc s.write_idx = s.write_idx + 1 := Nat.mod_eq_of_lt hwrap
        rcases h1 with ⟨hmw, hA⟩ | hB
        · left
          refine ⟨by rw [e]; omega, ?_⟩
          intro j hj hjw
          by_cases hj2 : s.write_idx % s.buf_cnt = j
          · rw [if_pos hj2]; exact hj2
          · rw [if_neg hj2]
            apply hA j hj
            rw [e] at hjw
            by_contra hcon
            have hjeq : j = s.write_idx := by omega
            rw [← hjeq, Nat.mod_eq_of_lt hj] at hj2
            exact hj2 rfl
        · right
          intro j hj
          by_cases hj2 : s.write_idx % s.buf_cnt = j
          · rw [if_pos hj2]; exact hj2
          · rw [if_neg hj2]; exact hB j hj
      · right
        intro j hj
        by_cases hj2 : s.write_idx % s.buf_cnt = j
        · rw [if_pos hj2]; exact hj2
        · rw [if_neg hj2]
          rcases h1 with ⟨_, hA⟩ | hB
          · exact hA j hj (by simp only [U32_MOD] at *; omega)
          · exact hB j hj
  | clear vd => exact hcopy
  | get_buffer buffer size =>
    simp only [vinstr_step]
    rcases get_buffer_cases s buffer size with ⟨_, h⟩ | ⟨_, hwm, hrm, h⟩
    · rw [h]; exact hcopy
    · rw [h]
      refine ⟨hb, hl, Nat.mod_lt _ (by decide), hw, ?_⟩
      rcases h1 with ⟨hmw, hA⟩ | hB
      · left
        refine ⟨?_, hA⟩
        dsimp only
        simp only [atomic_inc, U32_MOD] at *
        omega
      · right; exact hB
  | put_buffer buffer size env =>
    simp only [vinstr_step]
    rcases put_buffer_cases s buffer size env with ⟨_, h⟩ | ⟨_, hmr, h⟩
    · rw [h]; exact hcopy
    · rw [h]; exact ⟨hb, hl, hm, hw, h1⟩

/-- Every call sequence preserves the slot invariant while `ds5_used` is set. -/
theorem slots_inv_run (ds5_used : Int) (metadata : kbase_hwcnt_metadata) (N : Nat)
    (hds : ds5_used ≠ 0) (hN : 1 ≤ N ∧ N ≤ MAX_BUFFER_COUNT) (calls : List vinstr_call) :
    ∀ (s : kbase_vinstr_client), slots_inv N s →
      slots_inv N (vinstr_run ds5_used metadata s calls) := by
  induction calls with
  | nil => intro s h; simpa [vinstr_run] using h
  | cons c cs ih =>
    intro s h
    rw [vinstr_run_cons]
    exact ih _ (slots_inv_step ds5_used metadata N s c hds hN h)

/-- After a successful get_buffer the caller area starts with the first
`min size meta_size` bytes of the record of slot `meta_idx % buf_cnt`. -/
theorem get_buffer_user_area (cli : kbase_vinstr_client) (buffer : List Byte) (size : Nat)
    (h : (kbasep_vinstr_hwcnt_reader_ioctl_get_buffer cli buffer size).1 = 0) :
    ∃ rest, (kbasep_vinstr_hwcnt_reader_ioctl_get_buffer cli buffer size).2.2
      = (cli.dump_bufs_meta.getD (cli.meta_idx % cli.buf_cnt) default).bytes.take
          (min size meta_size) ++ rest := by
  unfold kbasep_vinstr_hwcnt_reader_ioctl_get_buffer at h ⊢
  dsimp only at h ⊢
  by_cases h1 : cli.write_idx = cli.meta_idx
  · rw [if_pos h1] at h; simp [EAGAIN] at h
  · by_cases h2 : cli.read_idx ≠ cli.meta_idx
    · rw [if_neg h1, if_pos h2] at h; simp [EBUSY] at h
    · rw [if_neg h1, if_neg h2] at h ⊢
      generalize (if meta_size < size then clear_user buffer size else (buffer, 0)) = cleared
        at h ⊢
      by_cases hc : cleared.2 ≠ 0
      · rw [if_pos hc] at h; simp [EFAULT] at h
      · rw [if_neg hc] at h ⊢
        by_cases hd : (copy_to_user cleared.1
            (cli.dump_bufs_meta.getD (cli.meta_idx % cli.buf_cnt) default).bytes
            (min size meta_size)).2 ≠ 0
        · rw [if_pos hd] at h; simp [EFAULT] at h
        · rw [if_neg hd]
          simp only [copy_to_user, user_write, ne_eq, not_not] at hd ⊢
          refine ⟨cleared.1.drop ((cli.dump_bufs_meta.getD (cli.meta_idx % cli.buf_cnt)
            default).bytes.take (min size meta_size)).length, ?_⟩
          rw [List.take_of_length_le (by omega)]

/-- Taking the length of the first part of a concatenation gives that part. -/
theorem take_append_length (a rest : List Byte) (n : Nat) (h : a.length = n) :
    (a ++ rest).take n = a := by
  rw [← h, List.take_left]

/-- C7 (amended): in every state reached from a freshly created client
(1 <= N <= 32) by calls made while `ds5_used` is set, a get_buffer that returns
0 found `write_idx != meta_idx` and `read_idx == meta_idx`, advances `meta_idx`
by one (as a 32-bit counter), leaves `write_idx` and `read_idx` unchanged, and
hands out the record of slot `meta_idx % N`, whose `buffer_idx` is
`meta_idx % N`: the caller area starts with the first `min size meta_size`
bytes of that record, and when `size` covers the field (16 bytes or more) the
slot index read from the caller area is the prior `meta_idx % N`. -/
theorem get_buffer_success (metadata : kbase_hwcnt_metadata)
    (setup : kbase_ioctl_hwcnt_reader_setup) (env : create_env) (cli : kbase_vinstr_client)
    (ds5_used : Int) (calls : List vinstr_call) (buffer : List Byte) (size : Nat)
    (hcreate : kbasep_vinstr_client_create metadata setup env = .ok cli)
    (hN : 1 ≤ setup.buffer_count ∧ setup.buffer_count ≤ MAX_BUFFER_COUNT)
    (hds : ds5_used ≠ 0)
    (hret : (kbasep_vinstr_hwcnt_reader_ioctl_get_buffer
      (vinstr_run ds5_used metadata cli calls) buffer size).1 = 0) :
    (vinstr_run ds5_used metadata cli calls).write_idx
      ≠ (vinstr_run ds5_used metadata cli calls).meta_idx ∧
    (vinstr_run ds5_used metadata cli calls).read_idx
      = (vinstr_run ds5_used metadata cli calls).meta_idx ∧
    (kbasep_vinstr_hwcnt_reader_ioctl_get_buffer
      (vinstr_run ds5_used metadata cli calls) buffer size).2.1.meta_idx
      = ((vinstr_run ds5_used metadata cli calls).meta_idx + 1) % U32_MOD ∧
    (kbasep_vinstr_hwcnt_reader_ioctl_get_buffer
      (vinstr_run ds5_used metadata cli calls) buffer size).2.1.write_idx
      = (vinstr_run ds5_used metadata cli calls).write_idx ∧
    (kbasep_vinstr_hwcnt_reader_ioctl_get_buffer
      (vinstr_run ds5_used metadata cli calls) buffer size).2.1.read_idx
      = (vinstr_run ds5_used metadata cli calls).read_idx ∧
    ∃ m, (vinstr_run ds5_used metadata cli calls).dump_bufs_meta[
            (vinstr_run ds5_used metadata cli calls).meta_idx % setup.buffer_count]? = some m ∧
      m.buffer_idx = (vinstr_run ds5_used metadata cli calls).meta_idx % setup.buffer_count ∧
      (kbasep_vinstr_hwcnt_reader_ioctl_get_buffer
        (vinstr_run ds5_used metadata cli calls) buffer size).2.2.take (min size meta_size)
        = m.bytes.take (min size meta_size) ∧
      (16 ≤ size → buffer_idx_of_bytes (kbasep_vinstr_hwcnt_reader_ioctl_get_buffer
        (vinstr_run ds5_used metadata cli calls) buffer size).2.2
        = (vinstr_run ds5_used metadata cli calls).meta_idx % setup.buffer_count) := by
  obtain ⟨hb0, hl0, hw0, hm0, hr0⟩ := client_create_ok metadata setup env cli hcreate
  have h0 : slots_inv setup.buffer_count cli := by
    refine ⟨hb0, hl0, by rw [hm0]; decide, by rw [hw0]; decide, Or.inl ⟨by omega, ?_⟩⟩
    intro j _ hj; omega
  have hinv := slots_inv_run ds5_used metadata setup.buffer_count hds hN calls cli h0
  generalize vinstr_run ds5_used metadata cli calls = s at hret hinv ⊢
  obtain ⟨hb, hl, hm, hw, h1⟩ := hinv
  simp only [MAX_BUFFER_COUNT] at hN
  obtain ⟨rest, hrest⟩ := get_buffer_user_area s buffer size hret
  rcases get_buffer_cases s buffer size with ⟨hne, _⟩ | ⟨_, hwm, hrm, h⟩
  · exact absurd hret hne
  · have hslot : s.meta_idx % setup.buffer_count < setup.buffer_count :=
      Nat.mod_lt _ (by omega)
    have hidx : (s.dump_bufs_meta.getD (s.meta_idx % setup.buffer_count) default).buffer_idx
        = s.meta_idx % setup.buffer_count := by
      rcases h1 with ⟨hmw, hA⟩ | hB
      · apply hA _ hslot
        have : s.meta_idx % setup.buffer_count ≤ s.meta_idx := Nat.mod_le _ _
        omega
      · exact hB _ hslot
    have hlen : ((s.dump_bufs_meta.getD (s.meta_idx % setup.buffer_count) default).bytes.take
        (min size meta_size)).length = min size meta_size := by
      rw [List.length_take, metadata_bytes_length]; simp
    rw [hb] at hrest
    refine ⟨hwm, hrm, by rw [h]; rfl, by rw [h], by rw [h],
      s.dump_bufs_meta.getD (s.meta_idx % setup.buffer_count) default, ?_, hidx, ?_, ?_⟩
    · rw [List.getD_eq_getElem?_getD, List.getElem?_eq_getElem (by rw [hl]; exact hslot)]
      simp
    · rw [hrest, take_append_length _ _ _ hlen]
    · intro h16
      rw [hrest]
      have : buffer_idx_of_bytes
          ((s.dump_bufs_meta.getD (s.meta_idx % setup.buffer_count) default).bytes.take
            (min size meta_size) ++ rest)
          = buffer_idx_of_bytes
              (s.dump_bufs_meta.getD (s.meta_idx % setup.buffer_count) default).bytes := by
        apply idx_bytes_congr
        intro i hi
        have hi2 : i < min size meta_size := by simp only [meta_size]; omega
        rw [List.getElem?_append_left (by rw [hlen]; exact hi2), List.getElem?_take, if_pos hi2]
      rw [this, buffer_idx_of_record, hidx]
      apply Nat.mod_eq_of_lt
      simp only [U32_MOD]; omega
/-- C7 (witness): a get_buffer after one produce on a fresh two-slot client. -/
theorem get_buffer_success_witness :
    kbasep_vinstr_client_create ex_metadata (ex_setup 2) ex_create_env = .ok (ex_fresh 2) ∧
    (1 ≤ (ex_setup 2).buffer_count ∧ (ex_setup 2).buffer_count ≤ MAX_BUFFER_COUNT) ∧
    (1 : Int) ≠ 0 ∧
    (kbasep_vinstr_hwcnt_reader_ioctl_get_buffer
      (vinstr_run 1 ex_metadata (ex_fresh 2) (ex_cycle.take 1)) (List.replicate 32 0) 32).1 = 0 ∧
    (kbasep_vinstr_hwcnt_reader_ioctl_get_buffer
      (vinstr_run 1 ex_metadata (ex_fresh 2) (ex_cycle.take 1))
      (List.replicate 32 0) 32).2.1.meta_idx
      = ((vinstr_run 1 ex_metadata (ex_fresh 2) (ex_cycle.take 1)).meta_idx + 1) % U32_MOD :=
  ⟨ex_fresh_created 2, by decide, by decide, by decide,
    (get_buffer_success ex_metadata (ex_setup 2) ex_create_env (ex_fresh 2) 1
      (ex_cycle.take 1) (List.replicate 32 0) 32 (ex_fresh_created 2) (by decide) (by decide)
      (by decide)).2.2.1⟩

/-- C7 (counterexample): with `ds5_used` clear, two produces on a fresh two-slot
client both write slot 0, the second storing slot index 1; the get_buffer that
follows succeeds with `meta_idx % 2 == 0` and hands out slot index 1. -/
theorem get_buffer_slot_without_ds5 :
    kbasep_vinstr_client_create ex_metadata (ex_setup 2) ex_create_env = .ok (ex_fresh 2) ∧
    (kbasep_vinstr_hwcnt_reader_ioctl_get_buffer
      (vinstr_run 0 ex_metadata (ex_fresh 2)
        [.dump .BASE_HWCNT_READER_EVENT_MANUAL ex_virt_dump,
         .dump .BASE_HWCNT_READER_EVENT_MANUAL ex_virt_dump])
      (List.replicate 32 0) 32).1 = 0 ∧
    (vinstr_run 0 ex_metadata (ex_fresh 2)
        [.dump .BASE_HWCNT_READER_EVENT_MANUAL ex_virt_dump,
         .dump .BASE_HWCNT_READER_EVENT_MANUAL ex_virt_dump]).meta_idx % 2 = 0 ∧
    buffer_idx_of_bytes (kbasep_vinstr_hwcnt_reader_ioctl_get_buffer
      (vinstr_run 0 ex_metadata (ex_fresh 2)
        [.dump .BASE_HWCNT_READER_EVENT_MANUAL ex_virt_dump,
         .dump .BASE_HWCNT_READER_EVENT_MANUAL ex_virt_dump])
      (List.replicate 32 0) 32).2.2 = 1 :=
  ⟨ex_fresh_created 2, by decide, by decide, by decide⟩

/-- The client a successful `kbasep_vinstr_client_create` returns. -/
theorem client_create_eq (metadata : kbase_hwcnt_metadata)
    (setup : kbase_ioctl_hwcnt_reader_setup) (env : create_env) (cli : kbase_vinstr_client)
    (h : kbasep_vinstr_client_create metadata setup env = .ok cli) :
    cli = { next_dump_time_ns := 0
            dump_interval_ns := 0
            enable_map := cli.enable_map
            buf_cnt := setup.buffer_count
            dump_bufs := (List.range setup.buffer_count).map env.dump_bufs
            dump_bufs_meta := (List.range setup.buffer_count).map env.dump_bufs_meta
            meta_idx := 0
            read_idx := 0
            write_idx := 0
            waitq_wakeups := 0 } := by
  unfold kbasep_vinstr_client_create at h
  split at h
  · cases h
  · split at h
    · cases h
    · split at h
      · cases h
      · split at h
        · cases h
        · split at h
          · cases h
          · cases h
            rfl

/-- The results of a sequence: the result of its first call, then the rest. -/
theorem vinstr_results_cons (ds5_used : Int) (metadata : kbase_hwcnt_metadata)
    (cli : kbase_vinstr_client) (c : vinstr_call) (cs : List vinstr_call) :
    vinstr_results ds5_used metadata cli (c :: cs)
      = vinstr_call_result ds5_used metadata cli c
          :: vinstr_results ds5_used metadata (vinstr_step ds5_used metadata cli c) cs := rfl

/-- A get_buffer with something new, nothing outstanding and `size` accessible
caller bytes returns 0. -/
theorem get_buffer_ok_ret (cli : kbase_vinstr_client) (buffer : List Byte) (size : Nat)
    (hw : cli.write_idx ≠ cli.meta_idx) (hr : cli.read_idx = cli.meta_idx)
    (hlen : size ≤ buffer.length) :
    (kbasep_vinstr_hwcnt_reader_ioctl_get_buffer cli buffer size).1 = 0 := by
  unfold kbasep_vinstr_hwcnt_reader_ioctl_get_buffer
  dsimp only
  rw [if_neg hw, if_neg (not_not.mpr hr)]
  by_cases hs : meta_size < size
  · have h1 : ¬ (clear_user buffer size).2 ≠ 0 := by
      simp [clear_user, user_write]; omega
    have h2 : ¬ (copy_to_user (clear_user buffer size).1
        (cli.dump_bufs_meta.getD (cli.meta_idx % cli.buf_cnt) default).bytes
        (min size meta_size)).2 ≠ 0 := by
      simp [copy_to_user, user_write, clear_user, metadata_bytes_length]
      omega
    rw [if_pos hs, if_neg h1, if_neg h2]
  · have h1 : ¬ ((buffer, 0) : List Byte × Nat).2 ≠ 0 := by simp
    have h2 : ¬ (copy_to_user ((buffer, 0) : List Byte × Nat).1
        (cli.dump_bufs_meta.getD (cli.meta_idx % cli.buf_cnt) default).bytes
        (min size meta_size)).2 ≠ 0 := by
      simp [copy_to_user, user_write, metadata_bytes_length]
      omega
    rw [if_neg hs, if_neg h1, if_neg h2]

/-- A produce with `ds5_used` set, a free slot and a successful virtualizer dump
returns 0 and advances only `write_idx`. -/
theorem client_dump_ok_idx (ds5_used : Int) (metadata : kbase_hwcnt_metadata)
    (vd : virt_dump) (vcli : kbase_vinstr_client) (event_id : base_hwcnt_reader_event)
    (hds : ds5_used ≠ 0) (hfree : u32_sub vcli.write_idx vcli.read_idx ≠ vcli.buf_cnt)
    (hok : vd.errcode = 0) :
    (kbasep_vinstr_client_dump ds5_used metadata vd vcli event_id).1 = 0 ∧
    (kbasep_vinstr_client_dump ds5_used metadata vd vcli event_id).2.write_idx
      = atomic_inc vcli.write_idx ∧
    (kbasep_vinstr_client_dump ds5_used metadata vd vcli event_id).2.meta_idx = vcli.meta_idx ∧
    (kbasep_vinstr_client_dump ds5_used metadata vd vcli event_id).2.read_idx
      = vcli.read_idx := by
  simp [kbasep_vinstr_client_dump, hds, hfree, hok]

/-- Scenario step: a produce with a free slot. -/
theorem ring_at_dump_ok (metadata : kbase_hwcnt_metadata) (s : kbase_vinstr_client)
    (w m r : Nat) (vd : virt_dump) (h : ring_at s w m r) (hfree : u32_sub w r ≠ 4)
    (hvd : vd.errcode = 0) :
    vinstr_call_result 1 metadata s (.dump .BASE_HWCNT_READER_EVENT_MANUAL vd) = (0, none) ∧
    ring_at (vinstr_step 1 metadata s (.dump .BASE_HWCNT_READER_EVENT_MANUAL vd))
      (atomic_inc w) m r := by
  obtain ⟨hw, hm, hr, hinv⟩ := h
  have hb : s.buf_cnt = 4 := hinv.1
  have hstep := slots_inv_step 1 metadata 4 s (.dump .BASE_HWCNT_READER_EVENT_MANUAL vd)
    (by decide) (by decide) hinv
  have hfull : u32_sub s.write_idx s.read_idx ≠ s.buf_cnt := by rw [hw, hr, hb]; exact hfree
  obtain ⟨e1, e2, e3, e4⟩ := client_dump_ok_idx 1 metadata vd s
    .BASE_HWCNT_READER_EVENT_MANUAL (by decide) hfull hvd
  refine ⟨?_, ?_, ?_, ?_, hstep⟩
  · simp only [vinstr_call_result, e1]
  · simp only [vinstr_step, e2, hw]
  · simp only [vinstr_step, e3, hm]
  · simp only [vinstr_step, e4, hr]

/-- Scenario step: a produce on the full ring. -/
theorem ring_at_dump_busy (metadata : kbase_hwcnt_metadata) (s : kbase_vinstr_client)
    (w m r : Nat) (vd : virt_dump) (h : ring_at s w m r) (hfull : u32_sub w r = 4) :
    vinstr_call_result 1 metadata s (.dump .BASE_HWCNT_READER_EVENT_MANUAL vd)
      = (-EBUSY, none) ∧
    ring_at (vinstr_step 1 metadata s (.dump .BASE_HWCNT_READER_EVENT_MANUAL vd)) w m r := by
  obtain ⟨hw, hm, hr, hinv⟩ := h
  have hb : s.buf_cnt = 4 := hinv.1
  have hf : u32_sub s.write_idx s.read_idx = s.buf_cnt := by rw [hw, hr, hb]; exact hfull
  have e : kbasep_vinstr_client_dump 1 metadata vd s .BASE_HWCNT_READER_EVENT_MANUAL
      = (-EBUSY, s) := by
    simp [kbasep_vinstr_client_dump, hf]
  refine ⟨by simp [vinstr_call_result, e], ?_⟩
  simp only [vinstr_step, e]
  exact ⟨hw, hm, hr, hinv⟩

/-- Scenario step: a get_buffer with something new and nothing outstanding
hands out slot `m % 4`. -/
theorem ring_at_get_ok (metadata : kbase_hwcnt_metadata) (s : kbase_vinstr_client)
    (w m r : Nat) (h : ring_at s w m r) (hnew : w ≠ m) (hback : r = m) :
    vinstr_call_result 1 metadata s (.get_buffer (List.replicate 32 0) 32)
      = (0, some (m % 4)) ∧
    ring_at (vinstr_step 1 metadata s (.get_buffer (List.replicate 32 0) 32))
      w (atomic_inc m) r := by
  obtain ⟨hw, hm, hr, hinv⟩ := h
  have hstep := slots_inv_step 1 metadata 4 s (.get_buffer (List.replicate 32 0) 32)
    (by decide) (by decide) hinv
  obtain ⟨hb, hl, hmlt, hwlt, h1⟩ := hinv
  have hw' : s.write_idx ≠ s.meta_idx := by rw [hw, hm]; exact hnew
  have hr' : s.read_idx = s.meta_idx := by rw [hr, hm]; exact hback
  have hret := get_buffer_ok_ret s (List.replicate 32 0) 32 hw' hr' (by simp)
  obtain ⟨rest, hrest⟩ := get_buffer_user_area s (List.replicate 32 0) 32 hret
  have hslot : s.meta_idx % 4 < 4 := Nat.mod_lt _ (by decide)
  have hidx : (s.dump_bufs_meta.getD (s.meta_idx % 4) default).buffer_idx = s.meta_idx % 4 := by
    rcases h1 with ⟨hmw, hA⟩ | hB
    · apply hA _ hslot
      have : s.meta_idx % 4 ≤ s.meta_idx := Nat.mod_le _ _
      omega
    · exact hB _ hslot
  rw [hb] at hrest
  have hlen : ((s.dump_bufs_meta.getD (s.meta_idx % 4) default).bytes.take
      (min 32 meta_size)).length = 32 := by
    rw [List.length_take, metadata_bytes_length]; simp [meta_size]
  have hval : buffer_idx_of_bytes
      (kbasep_vinstr_hwcnt_reader_ioctl_get_buffer s (List.replicate 32 0) 32).2.2
      = s.meta_idx % 4 := by
    rw [hrest]
    have e : buffer_idx_of_bytes
        ((s.dump_bufs_meta.getD (s.meta_idx % 4) default).bytes.take (min 32 meta_size) ++ rest)
        = buffer_idx_of_bytes (s.dump_bufs_meta.getD (s.meta_idx % 4) default).bytes := by
      apply idx_bytes_congr
      intro i hi
      have hi2 : i < min 32 meta_size := by simp only [meta_size]; omega
      rw [List.getElem?_append_left (by rw [hlen]; omega), List.getElem?_take, if_pos hi2]
    rw [e, buffer_idx_of_record, hidx]
    apply Nat.mod_eq_of_lt
    simp only [U32_MOD]; omega
  refine ⟨?_, ?_, ?_, ?_, hstep⟩
  · simp only [vinstr_call_result, hret, hval, hm]
  · rcases get_buffer_cases s (List.replicate 32 0) 32 with ⟨hne, _⟩ | ⟨_, _, _, e⟩
    · exact absurd hret hne
    · simp only [vinstr_step, e]; exact hw
  · rcases get_buffer_cases s (List.replicate 32 0) 32 with ⟨hne, _⟩ | ⟨_, _, _, e⟩
    · exact absurd hret hne
    · simp only [vinstr_step, e, hm]
  · rcases get_buffer_cases s (List.replicate 32 0) 32 with ⟨hne, _⟩ | ⟨_, _, _, e⟩
    · exact absurd hret hne
    · simp only [vinstr_step, e]; exact hr

/-- Scenario step: a get_buffer with nothing new. -/
theorem ring_at_get_empty (metadata : kbase_hwcnt_metadata) (s : kbase_vinstr_client)
    (w m r : Nat) (h : ring_at s w m r) (hsame : w = m) :
    vinstr_call_result 1 metadata s (.get_buffer (List.replicate 32 0) 32)
      = (-EAGAIN, some 0) ∧
    ring_at (vinstr_step 1 metadata s (.get_buffer (List.replicate 32 0) 32)) w m r := by
  obtain ⟨hw, hm, hr, hinv⟩ := h
  have hs : s.write_idx = s.meta_idx := by rw [hw, hm]; exact hsame
  have e : kbasep_vinstr_hwcnt_reader_ioctl_get_buffer s (List.replicate 32 0) 32
      = (-EAGAIN, s, List.replicate 32 0) := by
    simp [kbasep_vinstr_hwcnt_reader_ioctl_get_buffer, hs]
  have z : buffer_idx_of_bytes (List.replicate 32 (0 : Byte)) = 0 := by decide
  refine ⟨by simp only [vinstr_call_result, e, z], ?_⟩
  simp only [vinstr_step, e]
  exact ⟨hw, hm, hr, hinv⟩

/-- The example caller record for slot `k` is readable and carries `k`. -/
theorem ex_user_record_put (k : Nat) (hk : k < 4) :
    (copy_from_user (ex_user_record 32 k 99) 32).2 = 0 ∧
    buffer_idx_of_bytes ((copy_from_user (ex_user_record 32 k 99) 32).1
      ++ ((List.range 64).map ex_put_env.stack_kbuf).drop 32) = k := by
  have h : ∀ j, j < 4 →
      (copy_from_user (ex_user_record 32 j 99) 32).2 = 0 ∧
      buffer_idx_of_bytes ((copy_from_user (ex_user_record 32 j 99) 32).1
        ++ ((List.range 64).map ex_put_env.stack_kbuf).drop 32) = j := by decide
  exact h k hk

/-- Scenario step: the put_buffer of the outstanding slot. -/
theorem ring_at_put_ok (metadata : kbase_hwcnt_metadata) (s : kbase_vinstr_client)
    (w m r k : Nat) (h : ring_at s w m r) (hout : m ≠ r) (hk : k = r % 4) :
    vinstr_call_result 1 metadata s (.put_buffer (ex_user_record 32 k 99) 32 ex_put_env)
      = (0, none) ∧
    ring_at (vinstr_step 1 metadata s (.put_buffer (ex_user_record 32 k 99) 32 ex_put_env))
      w m (atomic_inc r) := by
  obtain ⟨hw, hm, hr, hinv⟩ := h
  have hstep := slots_inv_step 1 metadata 4 s
    (.put_buffer (ex_user_record 32 k 99) 32 ex_put_env) (by decide) (by decide) hinv
  have hb : s.buf_cnt = 4 := hinv.1
  have hk4 : k < 4 := by rw [hk]; exact Nat.mod_lt _ (by decide)
  obtain ⟨h5, h6⟩ := ex_user_record_put k hk4
  have h4 : put_buffer_kbuf 32 ex_put_env
      = some ((List.range 64).map ex_put_env.stack_kbuf) := by decide
  have hmr : ¬ s.meta_idx = s.read_idx := by rw [hm, hr]; exact hout
  have hidx : s.read_idx % s.buf_cnt = k := by rw [hr, hb, hk]
  have e : kbasep_vinstr_hwcnt_reader_ioctl_put_buffer s (ex_user_record 32 k 99) 32 ex_put_env
      = (0, { s with read_idx := atomic_inc s.read_idx }) := by
    simp [kbasep_vinstr_hwcnt_reader_ioctl_put_buffer, hmr, h4, h5, h6, hidx, meta_size]
  refine ⟨by simp only [vinstr_call_result, e], ?_, ?_, ?_, hstep⟩
  · simp only [vinstr_step, e]; exact hw
  · simp only [vinstr_step, e]; exact hm
  · simp only [vinstr_step, e, hr]

/-- C11 (amended): on a client created with four buffers (interval 0), with
`ds5_used` set and every virtualizer dump succeeding: four manual produces
return 0 and a fifth returns -EBUSY; then four rounds of get_buffer followed by
the put_buffer of the slot handed out all return 0, the get_buffers handing out
slots 0, 1, 2, 3 in order; a fifth get_buffer returns -EAGAIN; a produce then
returns 0 again. -/
theorem scenario_four_buffers (metadata : kbase_hwcnt_metadata)
    (setup : kbase_ioctl_hwcnt_reader_setup) (env : create_env) (cli : kbase_vinstr_client)
    (vd : Nat → virt_dump)
    (hcreate : kbasep_vinstr_client_create metadata setup env = .ok cli)
    (hcount : setup.buffer_count = 4)
    (hvd : ∀ i, (vd i).errcode = 0) :
    cli.dump_interval_ns = 0 ∧
    vinstr_results 1 metadata cli (scenario_calls vd)
      = [(0, none), (0, none), (0, none), (0, none), (-EBUSY, none),
         (0, some 0), (0, none), (0, some 1), (0, none),
         (0, some 2), (0, none), (0, some 3), (0, none),
         (-EAGAIN, some 0), (0, none)] := by
  obtain ⟨hb, hl, hw0, hm0, hr0⟩ := client_create_ok metadata setup env cli hcreate
  rw [hcount] at hb hl
  have hinv0 : slots_inv 4 cli :=
    ⟨hb, hl, by rw [hm0]; decide, by rw [hw0]; decide,
      Or.inl ⟨by omega, fun j _ hj => by omega⟩⟩
  have a0 : ring_at cli 0 0 0 := ⟨hw0, hm0, hr0, hinv0⟩
  have i1 : atomic_inc 0 = 1 := by decide
  have i2 : atomic_inc 1 = 2 := by decide
  have i3 : atomic_inc 2 = 3 := by decide
  have i4 : atomic_inc 3 = 4 := by decide
  have i5 : atomic_inc 4 = 5 := by decide
  obtain ⟨r1, a1⟩ := ring_at_dump_ok metadata _ 0 0 0 (vd 0) a0 (by decide) (hvd 0)
  rw [i1] at a1
  obtain ⟨r2, a2⟩ := ring_at_dump_ok metadata _ 1 0 0 (vd 1) a1 (by decide) (hvd 1)
  rw [i2] at a2
  obtain ⟨r3, a3⟩ := ring_at_dump_ok metadata _ 2 0 0 (vd 2) a2 (by decide) (hvd 2)
  rw [i3] at a3
  obtain ⟨r4, a4⟩ := ring_at_dump_ok metadata _ 3 0 0 (vd 3) a3 (by decide) (hvd 3)
  rw [i4] at a4
  obtain ⟨r5, a5⟩ := ring_at_dump_busy metadata _ 4 0 0 (vd 4) a4 (by decide)
  obtain ⟨r6, a6⟩ := ring_at_get_ok metadata _ 4 0 0 a5 (by decide) rfl
  rw [i1] at a6
  obtain ⟨r7, a7⟩ := ring_at_put_ok metadata _ 4 1 0 0 a6 (by decide) (by decide)
  rw [i1] at a7
  obtain ⟨r8, a8⟩ := ring_at_get_ok metadata _ 4 1 1 a7 (by decide) rfl
  rw [i2] at a8
  obtain ⟨r9, a9⟩ := ring_at_put_ok metadata _ 4 2 1 1 a8 (by decide) (by decide)
  rw [i2] at a9
  obtain ⟨r10, a10⟩ := ring_at_get_ok metadata _ 4 2 2 a9 (by decide) rfl
  rw [i3] at a10
  obtain ⟨r11, a11⟩ := ring_at_put_ok metadata _ 4 3 2 2 a10 (by decide) (by decide)
  rw [i3] at a11
  obtain ⟨r12, a12⟩ := ring_at_get_ok metadata _ 4 3 3 a11 (by decide) rfl
  rw [i4] at a12
  obtain ⟨r13, a13⟩ := ring_at_put_ok metadata _ 4 4 3 3 a12 (by decide) (by decide)
  rw [i4] at a13
  obtain ⟨r14, a14⟩ := ring_at_get_empty metadata _ 4 4 4 a13 rfl
  obtain ⟨r15, _⟩ := ring_at_dump_ok metadata _ 4 4 4 (vd 5) a14 (by decide) (hvd 5)
  have hi : cli.dump_interval_ns = 0 := by
    rw [client_create_eq metadata setup env cli hcreate]
  refine ⟨hi, ?_⟩
  simp only [scenario_calls, vinstr_results_cons, r1, r2, r3, r4, r5, r6, r7, r8, r9, r10, r11,
    r12, r13, r14, r15, vinstr_results]

/-- C11 (witness): the scenario on the example client. -/
theorem scenario_four_buffers_witness :
    kbasep_vinstr_client_create ex_metadata (ex_setup 4) ex_create_env = .ok (ex_fresh 4) ∧
    (ex_setup 4).buffer_count = 4 ∧
    (∀ i : Nat, ((fun _ => ex_virt_dump) i).errcode = 0) ∧
    (ex_fresh 4).dump_interval_ns = 0 ∧
    vinstr_results 1 ex_metadata (ex_fresh 4) (scenario_calls (fun _ => ex_virt_dump))
      = [(0, none), (0, none), (0, none), (0, none), (-EBUSY, none),
         (0, some 0), (0, none), (0, some 1), (0, none),
         (0, some 2), (0, none), (0, some 3), (0, none),
         (-EAGAIN, some 0), (0, none)] :=
  ⟨ex_fresh_created 4, rfl, fun _ => rfl,
    scenario_four_buffers ex_metadata (ex_setup 4) ex_create_env (ex_fresh 4)
      (fun _ => ex_virt_dump) (ex_fresh_created 4) rfl (fun _ => rfl)⟩

/-- C11 (counterexample): after four produces on a fresh four-buffer client
the first get_buffer returns 0 and hands out slot 0, and a second get_buffer
made before any put_buffer returns -EBUSY. -/
theorem scenario_consecutive_gets :
    kbasep_vinstr_client_create ex_metadata (ex_setup 4) ex_create_env = .ok (ex_fresh 4) ∧
    vinstr_results 1 ex_metadata (ex_fresh 4)
      [.dump .BASE_HWCNT_READER_EVENT_MANUAL ex_virt_dump,
       .dump .BASE_HWCNT_READER_EVENT_MANUAL ex_virt_dump,
       .dump .BASE_HWCNT_READER_EVENT_MANUAL ex_virt_dump,
       .dump .BASE_HWCNT_READER_EVENT_MANUAL ex_virt_dump,
       .get_buffer (List.replicate 32 0) 32,
       .get_buffer (List.replicate 32 0) 32]
      = [(0, none), (0, none), (0, none), (0, none), (0, some 0), (-EBUSY, some 0)] :=
  ⟨ex_fresh_created 4, by decide⟩

/-- Dropping the length of the first part of a concatenation gives the rest. -/
theorem drop_append_length (a rest : List Byte) (n : Nat) (h : a.length = n) :
    (a ++ rest).drop n = rest := by
  rw [← h, List.drop_left]

/-- The caller area after a successful get_buffer: the first
`min size meta_size` bytes of the record, zeros up to `size`, then what was
there before. -/
theorem get_buffer_area_eq (cli : kbase_vinstr_client) (buffer : List Byte) (size : Nat)
    (h : (kbasep_vinstr_hwcnt_reader_ioctl_get_buffer cli buffer size).1 = 0) :
    size ≤ buffer.length ∧
    (kbasep_vinstr_hwcnt_reader_ioctl_get_buffer cli buffer size).2.2
      = (cli.dump_bufs_meta.getD (cli.meta_idx % cli.buf_cnt) default).bytes.take
          (min size meta_size) ++ (List.replicate (size - meta_size) 0 ++ buffer.drop size) := by
  have hbl := metadata_bytes_length (cli.dump_bufs_meta.getD (cli.meta_idx % cli.buf_cnt) default)
  unfold kbasep_vinstr_hwcnt_reader_ioctl_get_buffer at h ⊢
  dsimp only at h ⊢
  generalize (cli.dump_bufs_meta.getD (cli.meta_idx % cli.buf_cnt) default).bytes = rec
    at hbl h ⊢
  simp only [meta_size] at hbl
  by_cases h1 : cli.write_idx = cli.meta_idx
  · rw [if_pos h1] at h; simp [EAGAIN] at h
  · by_cases h2 : cli.read_idx ≠ cli.meta_idx
    · rw [if_neg h1, if_pos h2] at h; simp [EBUSY] at h
    · rw [if_neg h1, if_neg h2] at h ⊢
      by_cases hs : meta_size < size
      · rw [if_pos hs] at h ⊢
        by_cases hc : (clear_user buffer size).2 ≠ 0
        · rw [if_pos hc] at h; simp [EFAULT] at h
        · rw [if_neg hc] at h ⊢
          by_cases hd : (copy_to_user (clear_user buffer size).1 rec (min size meta_size)).2 ≠ 0
          · rw [if_pos hd] at h; simp [EFAULT] at h
          · rw [if_neg hd]
            simp only [meta_size] at hs
            have hlen : size ≤ buffer.length := by
              simp [clear_user, user_write] at hc; omega
            refine ⟨hlen, ?_⟩
            have hmin : min size meta_size = 32 := by simp only [meta_size]; omega
            have htake : rec.take 32 = rec := List.take_of_length_le (by omega)
            have e1 : List.take buffer.length (List.replicate size (0 : Byte))
                = List.replicate size 0 := List.take_of_length_le (by simp; omega)
            simp only [copy_to_user, user_write, clear_user, hmin, htake, meta_size,
              List.length_replicate, e1]
            have hm2 : min size 32 = 32 := by omega
            simp only [hm2, htake, hbl]
            rw [List.take_of_length_le (by simp; omega),
              List.drop_append_of_le_length (by simp; omega), List.drop_replicate]
      · rw [if_neg hs] at h ⊢
        dsimp only at h ⊢
        have hc : ¬ (0 : Nat) ≠ 0 := by simp
        rw [if_neg hc] at h ⊢
        by_cases hd : (copy_to_user buffer rec (min size meta_size)).2 ≠ 0
        · rw [if_pos hd] at h; simp [EFAULT] at h
        · rw [if_neg hd]
          simp only [meta_size, not_lt] at hs
          have hmin : min size meta_size = size := by simp only [meta_size]; omega
          have hrl : (rec.take size).length = size := by rw [List.length_take]; omega
          have hlen : size ≤ buffer.length := by
            simp [copy_to_user, user_write, hmin] at hd; omega
          refine ⟨hlen, ?_⟩
          have hz : size - meta_size = 0 := by simp only [meta_size]; omega
          simp only [copy_to_user, user_write, hmin, hrl, hz, List.replicate_zero,
            List.nil_append]
          rw [List.take_of_length_le (by omega)]

/-- C12: after a get_buffer that returns 0, for every caller size `s` the first
`s` bytes of the caller area are the first `min s M` bytes of the metadata
record of slot `meta_idx % buf_cnt` (`M = meta_size`) followed by `s - M` zero
bytes, so every position from `M` up to `s - 1` holds zero; the bytes beyond
`s` are as before. -/
theorem get_buffer_area (cli : kbase_vinstr_client) (buffer : List Byte) (size : Nat)
    (hret : (kbasep_vinstr_hwcnt_reader_ioctl_get_buffer cli buffer size).1 = 0) :
    (kbasep_vinstr_hwcnt_reader_ioctl_get_buffer cli buffer size).2.2.take size
      = (cli.dump_bufs_meta.getD (cli.meta_idx % cli.buf_cnt) default).bytes.take
          (min size meta_size) ++ List.replicate (size - meta_size) 0 ∧
    (kbasep_vinstr_hwcnt_reader_ioctl_get_buffer cli buffer size).2.2.drop size
      = buffer.drop size ∧
    (∀ i, meta_size ≤ i → i < size →
      (kbasep_vinstr_hwcnt_reader_ioctl_get_buffer cli buffer size).2.2[i]? = some 0) := by
  obtain ⟨hlen, e⟩ := get_buffer_area_eq cli buffer size hret
  have hbl := metadata_bytes_length (cli.dump_bufs_meta.getD (cli.meta_idx % cli.buf_cnt) default)
  generalize (cli.dump_bufs_meta.getD (cli.meta_idx % cli.buf_cnt) default).bytes = rec
    at hbl e ⊢
  simp only [meta_size] at hbl
  have hl1 : (rec.take (min size meta_size) ++ List.replicate (size - meta_size) (0 : Byte)).length
      = size := by
    simp only [List.length_append, List.length_take, List.length_replicate, meta_size, hbl]
    omega
  rw [e, ← List.append_assoc]
  refine ⟨?_, ?_, ?_⟩
  · exact take_append_length _ _ size hl1
  · exact drop_append_length _ _ size hl1
  · intro i hi1 hi2
    simp only [meta_size] at hi1
    have ht : (rec.take (min size meta_size)).length = 32 := by
      simp only [List.length_take, meta_size, hbl]; omega
    rw [List.getElem?_append_left (by rw [hl1]; exact hi2),
      List.getElem?_append_right (by rw [ht]; exact hi1), ht, List.getElem?_replicate]
    have : i - 32 < size - meta_size := by simp only [meta_size]; omega
    simp only [this, if_true]

/-- C12 (witness): a 40-byte get_buffer after one produce on the example
two-slot client. -/
theorem get_buffer_area_witness :
    (kbasep_vinstr_hwcnt_reader_ioctl_get_buffer
      (vinstr_run 1 ex_metadata (ex_fresh 2) (ex_cycle.take 1)) (List.replicate 48 7) 40).1 = 0 ∧
    (kbasep_vinstr_hwcnt_reader_ioctl_get_buffer
      (vinstr_run 1 ex_metadata (ex_fresh 2) (ex_cycle.take 1))
      (List.replicate 48 7) 40).2.2.take 40
      = ((vinstr_run 1 ex_metadata (ex_fresh 2) (ex_cycle.take 1)).dump_bufs_meta.getD
          ((vinstr_run 1 ex_metadata (ex_fresh 2) (ex_cycle.take 1)).meta_idx
            % (vinstr_run 1 ex_metadata (ex_fresh 2) (ex_cycle.take 1)).buf_cnt)
          default).bytes.take (min 40 meta_size) ++ List.replicate (40 - meta_size) 0 :=
  ⟨by decide,
    (get_buffer_area (vinstr_run 1 ex_metadata (ex_fresh 2) (ex_cycle.take 1))
      (List.replicate 48 7) 40 (by decide)).1⟩

/-- When the product fits in 64 bits `kbasep_vinstr_next_dump_time_ns` is
`(cur / interval + 1) * interval`. -/
theorem next_dump_time_no_overflow (cur_ts_ns interval : Nat) (hi : interval ≠ 0)
    (hfit : (cur_ts_ns / interval + 1) * interval < U64_MOD) :
    kbasep_vinstr_next_dump_time_ns cur_ts_ns interval
      = (cur_ts_ns / interval + 1) * interval := by
  have hpos : 0 < interval := Nat.pos_of_ne_zero hi
  have h1 : cur_ts_ns / interval + 1 ≤ (cur_ts_ns / interval + 1) * interval :=
    Nat.le_mul_of_pos_right _ hpos
  have h4 : cur_ts_ns / interval + 1 < U64_MOD := Nat.lt_of_le_of_lt h1 hfit
  unfold kbasep_vinstr_next_dump_time_ns
  rw [if_neg hi, Nat.mod_eq_of_lt h4, Nat.mod_eq_of_lt hfit]

/-- C13 (amended): `kbasep_vinstr_next_dump_time_ns(cur, interval)` returns 0
when interval is 0, and for every current time and non-zero interval for which
`(cur / interval + 1) * interval` fits in 64 bits (in particular whenever
`cur + interval < 2^64`) it returns the least multiple of interval that is
strictly greater than cur. -/
theorem next_dump_time_least_multiple (cur_ts_ns interval : Nat) :
    kbasep_vinstr_next_dump_time_ns cur_ts_ns 0 = 0 ∧
    (interval ≠ 0 → (cur_ts_ns / interval + 1) * interval < U64_MOD →
      interval ∣ kbasep_vinstr_next_dump_time_ns cur_ts_ns interval ∧
      cur_ts_ns < kbasep_vinstr_next_dump_time_ns cur_ts_ns interval ∧
      ∀ t, interval ∣ t → cur_ts_ns < t →
        kbasep_vinstr_next_dump_time_ns cur_ts_ns interval ≤ t) ∧
    (cur_ts_ns + interval < U64_MOD → (cur_ts_ns / interval + 1) * interval < U64_MOD) := by
  have hdm : interval * (cur_ts_ns / interval) + cur_ts_ns % interval = cur_ts_ns :=
    Nat.div_add_mod _ _
  have h2 : (cur_ts_ns / interval + 1) * interval
      = interval * (cur_ts_ns / interval) + interval := by ring
  refine ⟨by simp [kbasep_vinstr_next_dump_time_ns], ?_, ?_⟩
  · intro hi hfit
    have hpos : 0 < interval := Nat.pos_of_ne_zero hi
    rw [next_dump_time_no_overflow cur_ts_ns interval hi hfit]
    refine ⟨Dvd.intro_left _ rfl, ?_, ?_⟩
    · have hmod : cur_ts_ns % interval < interval := Nat.mod_lt _ hpos
      rw [h2]; omega
    · intro t ht hlt
      obtain ⟨k, hk⟩ := ht
      rw [hk] at hlt ⊢
      have hq : cur_ts_ns / interval < k := Nat.div_lt_of_lt_mul hlt
      rw [Nat.mul_comm interval k]
      exact Nat.mul_le_mul_right interval hq
  · intro hsum
    rw [h2]; omega

/-- C13 (witness): at time 1000 the next multiple of 300 is 1200. -/
theorem next_dump_time_least_multiple_witness :
    (300 : Nat) ≠ 0 ∧ (1000 / 300 + 1) * 300 < U64_MOD ∧
    (300 ∣ kbasep_vinstr_next_dump_time_ns 1000 300 ∧
      1000 < kbasep_vinstr_next_dump_time_ns 1000 300 ∧
      ∀ t, 300 ∣ t → 1000 < t → kbasep_vinstr_next_dump_time_ns 1000 300 ≤ t) ∧
    kbasep_vinstr_next_dump_time_ns 1000 300 = 1200 :=
  ⟨by decide, by decide,
    (next_dump_time_least_multiple 1000 300).2.1 (by decide) (by decide), by decide⟩

/-- C13 (counterexample): at the last 64-bit time with interval 1 the product
wraps and the function returns 0, which is not greater than the current time;
one below it with interval 2 the result is again 0. -/
theorem next_dump_time_overflow :
    kbasep_vinstr_next_dump_time_ns 18446744073709551615 1 = 0 ∧
    ¬ (18446744073709551615 < kbasep_vinstr_next_dump_time_ns 18446744073709551615 1) ∧
    ¬ (18446744073709551614 < kbasep_vinstr_next_dump_time_ns 18446744073709551614 2) := by
  decide

/-- The client list after a scheduler pass: every client gets the next dump
time computed from the one current time and its own interval. -/
theorem reschedule_clients (vctx : kbase_vinstr_context) (cur_ts_ns : Nat) :
    (kbasep_vinstr_reschedule_worker vctx cur_ts_ns).clients
      = vctx.clients.map (fun pos =>
          { pos with cli := { pos.cli with
              next_dump_time_ns :=
                kbasep_vinstr_next_dump_time_ns cur_ts_ns pos.cli.dump_interval_ns } }) := by
  unfold kbasep_vinstr_reschedule_worker
  dsimp only
  split <;> rfl

/-- After a scheduler pass every client holds the next dump time of its own
(unchanged) interval. -/
theorem reschedule_next_of_mem (vctx : kbase_vinstr_context) (cur_ts_ns : Nat)
    (a : vinstr_node) (ha : a ∈ (kbasep_vinstr_reschedule_worker vctx cur_ts_ns).clients) :
    a.cli.next_dump_time_ns
      = kbasep_vinstr_next_dump_time_ns cur_ts_ns a.cli.dump_interval_ns := by
  rw [reschedule_clients, List.mem_map] at ha
  obtain ⟨p, _, hp⟩ := ha
  rw [← hp]

/-- C14: after one scheduler pass, whatever the prior next dump times, any two
attached clients with equal non-zero `dump_interval_ns` have the same
`next_dump_time_ns`, and every client with interval 0 has `next_dump_time_ns`
0; the pass keeps the clients, their order and their intervals. -/
theorem reschedule_phase_alignment (vctx : kbase_vinstr_context) (cur_ts_ns : Nat) :
    (∀ a ∈ (kbasep_vinstr_reschedule_worker vctx cur_ts_ns).clients,
      ∀ b ∈ (kbasep_vinstr_reschedule_worker vctx cur_ts_ns).clients,
        a.cli.dump_interval_ns = b.cli.dump_interval_ns → a.cli.dump_interval_ns ≠ 0 →
        a.cli.next_dump_time_ns = b.cli.next_dump_time_ns) ∧
    (∀ a ∈ (kbasep_vinstr_reschedule_worker vctx cur_ts_ns).clients,
      a.cli.dump_interval_ns = 0 → a.cli.next_dump_time_ns = 0) ∧
    (kbasep_vinstr_reschedule_worker vctx cur_ts_ns).clients.map
        (fun pos => (pos.addr, pos.cli.dump_interval_ns))
      = vctx.clients.map (fun pos => (pos.addr, pos.cli.dump_interval_ns)) := by
  refine ⟨?_, ?_, ?_⟩
  · intro a ha b hb hab _
    rw [reschedule_next_of_mem vctx cur_ts_ns a ha, reschedule_next_of_mem vctx cur_ts_ns b hb,
      hab]
  · intro a ha h0
    rw [reschedule_next_of_mem vctx cur_ts_ns a ha, h0]
    simp [kbasep_vinstr_next_dump_time_ns]
  · rw [reschedule_clients, List.map_map]
    rfl

/-- C14 (witness): the two 300 ns clients of the example context, with stale
next dump times 17 and 170, both get 1200 at time 1000. -/
theorem reschedule_phase_alignment_witness :
    (kbasep_vinstr_reschedule_worker ex_context 1000).clients.map
        (fun pos => (pos.cli.dump_interval_ns, pos.cli.next_dump_time_ns))
      = [(300, 1200), (0, 0), (300, 1200)] ∧
    (∀ a ∈ (kbasep_vinstr_reschedule_worker ex_context 1000).clients,
      ∀ b ∈ (kbasep_vinstr_reschedule_worker ex_context 1000).clients,
        a.cli.dump_interval_ns = b.cli.dump_interval_ns → a.cli.dump_interval_ns ≠ 0 →
        a.cli.next_dump_time_ns = b.cli.next_dump_time_ns) :=
  ⟨by decide, (reschedule_phase_alignment ex_context 1000).1⟩

/-- Looking up an address in a non-empty client list. -/
theorem find_client_cons (n : vinstr_node) (rest : List vinstr_node) (addr : Nat) :
    find_client (n :: rest) addr
      = if n.addr = addr then some n.cli else find_client rest addr := by
  by_cases h : n.addr = addr
  · simp [find_client, List.find?_cons, h]
  · simp [find_client, List.find?_cons, h]

/-- Storing a client in a non-empty client list. -/
theorem store_client_cons (n : vinstr_node) (rest : List vinstr_node) (addr : Nat)
    (c : kbase_vinstr_client) :
    store_client (n :: rest) addr c
      = (if n.addr = addr then { n with cli := c } else n) :: store_client rest addr c := rfl

/-- After a client is stored at an attached address it is found there. -/
theorem find_client_store_same (clients : List vinstr_node) (addr : Nat)
    (c c1 : kbase_vinstr_client) (h : find_client clients addr = some c) :
    find_client (store_client clients addr c1) addr = some c1 := by
  induction clients with
  | nil => simp [find_client] at h
  | cons n rest ih =>
    rw [store_client_cons, find_client_cons]
    rw [find_client_cons] at h
    by_cases hn : n.addr = addr
    · simp [hn]
    · rw [if_neg hn] at h
      simp only [hn, if_false]
      exact ih h

/-- Storing a client at one address leaves the clients at other addresses. -/
theorem find_client_store_other (clients : List vinstr_node) (addr other : Nat)
    (c1 : kbase_vinstr_client) (h : other ≠ addr) :
    find_client (store_client clients addr c1) other = find_client clients other := by
  induction clients with
  | nil => rfl
  | cons n rest ih =>
    rw [store_client_cons, find_client_cons, find_client_cons, ih]
    by_cases hn : n.addr = addr
    · have hao : ¬ addr = other := fun e => h e.symm
      simp only [hn, if_true, hao, if_false]
    · simp only [hn, if_false]

/-- The outcome of set_interval on an attached client, in terms of the 32-bit
value of the request. -/
theorem set_interval_eq (vctx : kbase_vinstr_context) (cli : Nat) (c : kbase_vinstr_client)
    (interval : Nat) (hfind : find_client vctx.clients cli = some c) :
    kbasep_vinstr_hwcnt_reader_ioctl_set_interval vctx cli interval
      = some (0,
          { vctx with
              clients := store_client vctx.clients cli
                { c with dump_interval_ns := clamped_interval (interval % U32_MOD),
                         next_dump_time_ns := 0 }
              dump_work_pending := vctx.dump_work_pending ||
                decide (clamped_interval (interval % U32_MOD) ≠ 0 ∧ vctx.suspend_count = 0)
              queue_work_calls := vctx.queue_work_calls +
                (if clamped_interval (interval % U32_MOD) ≠ 0 ∧ vctx.suspend_count = 0 then 1
                 else 0) }) := by
  unfold kbasep_vinstr_hwcnt_reader_ioctl_set_interval
  rw [hfind]
  dsimp only
  generalize interval % U32_MOD = v
  have hc : (if v ≠ 0 ∧ v < DUMP_INTERVAL_MIN_NS then DUMP_INTERVAL_MIN_NS
      else v) = clamped_interval v := by
    simp only [DUMP_INTERVAL_MIN_NS, NSEC_PER_USEC, clamped_interval]
    by_cases h0 : v = 0
    · simp [h0]
    · by_cases h1 : v < 100000
      · simp [h0, h1]
      · simp [h0, h1]
  rw [hc]
  by_cases hq : clamped_interval v ≠ 0 ∧ vctx.suspend_count = 0
  · rw [if_pos hq]
    simp [queue_dump_work, hq]
  · rw [if_neg hq]
    simp [hq]

/-- C15: for every requested interval (a `u32`), set_interval on an attached
client returns 0 and leaves that client with `dump_interval_ns` 0 for a request
of 0, 100000 for a non-zero request below 100000 and the request itself
otherwise, with `next_dump_time_ns` 0 and every other field, in particular the
three ring indices, unchanged; it leaves the other clients and `suspend_count`
unchanged; and it calls `queue_work` exactly when the stored interval is
non-zero and `suspend_count` is 0. -/
theorem set_interval_effect (vctx : kbase_vinstr_context) (cli : Nat)
    (c : kbase_vinstr_client) (interval : Nat)
    (hu32 : interval < U32_MOD)
    (hfind : find_client vctx.clients cli = some c) :
    ∃ vctx1, kbasep_vinstr_hwcnt_reader_ioctl_set_interval vctx cli interval = some (0, vctx1) ∧
      find_client vctx1.clients cli
        = some { c with dump_interval_ns := clamped_interval interval, next_dump_time_ns := 0 } ∧
      (clamped_interval interval
        = if interval = 0 then 0 else if interval < DUMP_INTERVAL_MIN_NS then DUMP_INTERVAL_MIN_NS
          else interval) ∧
      DUMP_INTERVAL_MIN_NS = 100000 ∧
      clamped_interval interval < U32_MOD ∧
      (∀ other, other ≠ cli → find_client vctx1.clients other = find_client vctx.clients other) ∧
      vctx1.suspend_count = vctx.suspend_count ∧
      vctx1.client_count = vctx.client_count ∧
      (vctx1.queue_work_calls = vctx.queue_work_calls + 1 ↔
        (clamped_interval interval ≠ 0 ∧ vctx.suspend_count = 0)) ∧
      (vctx1.queue_work_calls = vctx.queue_work_calls ↔
        ¬ (clamped_interval interval ≠ 0 ∧ vctx.suspend_count = 0)) := by
  have e := set_interval_eq vctx cli c interval hfind
  rw [Nat.mod_eq_of_lt hu32] at e
  have hfits : clamped_interval interval < U32_MOD := by
    unfold clamped_interval
    split
    · decide
    · split
      · decide
      · exact hu32
  refine ⟨_, e, ?_, rfl, rfl, hfits, ?_, rfl, rfl, ?_, ?_⟩
  · exact find_client_store_same _ _ c _ hfind
  · intro other ho
    exact find_client_store_other _ _ _ _ ho
  · dsimp only
    by_cases hq : clamped_interval interval ≠ 0 ∧ vctx.suspend_count = 0
    · simp [hq]
    · simp [hq]
  · dsimp only
    by_cases hq : clamped_interval interval ≠ 0 ∧ vctx.suspend_count = 0
    · simp [hq]
    · simp [hq]

/-- C15 (witness): a request of 50000 ns on the non-periodic client of the
example context is raised to 100000 ns and the worker is queued. -/
theorem set_interval_effect_witness :
    (50000 : Nat) < U32_MOD ∧
    find_client ex_context.clients 20 = some (ex_fresh 1) ∧
    (∃ vctx1, kbasep_vinstr_hwcnt_reader_ioctl_set_interval ex_context 20 50000
        = some (0, vctx1) ∧
      find_client vctx1.clients 20
        = some { ex_fresh 1 with dump_interval_ns := 100000, next_dump_time_ns := 0 } ∧
      vctx1.queue_work_calls = ex_context.queue_work_calls + 1) :=
  ⟨by decide, by decide,
    (set_interval_effect ex_context 20 (ex_fresh 1) 50000 (by decide) (by decide)).elim
      (fun vctx1 h => ⟨vctx1, h.1, h.2.1, h.2.2.2.2.2.2.2.2.1.mpr (by decide)⟩)⟩

/-- The dispatcher's conversion: a request of 2^32 or more is stored as its low
32 bits; 5000000000 becomes 705032704, and 4294967296 becomes 0, which queues
no work. -/
theorem set_interval_reduces :
    (kbasep_vinstr_hwcnt_reader_ioctl_set_interval ex_context 20 5000000000).map
        (fun r => ((find_client r.2.clients 20).map (fun c => c.dump_interval_ns),
          r.2.queue_work_calls))
      = some (some 705032704, 1) ∧
    (kbasep_vinstr_hwcnt_reader_ioctl_set_interval ex_context 20 4294967296).map
        (fun r => ((find_client r.2.clients 20).map (fun c => c.dump_interval_ns),
          r.2.queue_work_calls))
      = some (some 0, 0) := by
  decide

/-- C16 (amended): set_interval with 500000 ns on an attached client leaves its
`dump_interval_ns` at 500000 (the request is above the 100000 ns minimum, so it
is not clamped) and resets its `next_dump_time_ns` to 0. -/
theorem set_interval_500000 (vctx : kbase_vinstr_context) (cli : Nat)
    (c : kbase_vinstr_client) (hfind : find_client vctx.clients cli = some c) :
    ∃ vctx1, kbasep_vinstr_hwcnt_reader_ioctl_set_interval vctx cli 500000 = some (0, vctx1) ∧
      find_client vctx1.clients cli
        = some { c with dump_interval_ns := 500000, next_dump_time_ns := 0 } := by
  refine ⟨_, set_interval_eq vctx cli c 500000 hfind, ?_⟩
  exact find_client_store_same _ _ c _ hfind

/-- C16 (witness): the scenario on the non-periodic client of the example
context. -/
theorem set_interval_500000_witness :
    find_client ex_context.clients 20 = some (ex_fresh 1) ∧
    (∃ vctx1, kbasep_vinstr_hwcnt_reader_ioctl_set_interval ex_context 20 500000
        = some (0, vctx1) ∧
      find_client vctx1.clients 20
        = some { ex_fresh 1 with dump_interval_ns := 500000, next_dump_time_ns := 0 }) :=
  ⟨by decide, set_interval_500000 ex_context 20 (ex_fresh 1) (by decide)⟩

/-- C16 (counterexample): after set_interval with 500000 ns the client's
interval is 500000, not the minimum allowed period `DUMP_INTERVAL_MIN_NS`
(100000). -/
theorem set_interval_500000_not_clamped :
    (kbasep_vinstr_hwcnt_reader_ioctl_set_interval ex_context 20 500000).map
        (fun r => (find_client r.2.clients 20).map (fun c => c.dump_interval_ns))
      = some (some 500000) ∧
    DUMP_INTERVAL_MIN_NS = 100000 ∧
    (500000 : Nat) ≠ DUMP_INTERVAL_MIN_NS := by
  decide

/-- C17: suspend raises `suspend_count` by exactly 1 unless it is `SIZE_MAX`,
where it stays; resume lowers it by exactly 1 unless it is 0, where the whole
context, hence the count and the work queue, stays as it is; so a count within
the `size_t` range stays within it, and for every count below `SIZE_MAX`
suspend followed by resume restores the count. -/
theorem suspend_resume_count (vctx : kbase_vinstr_context) :
    (kbase_vinstr_suspend vctx).suspend_count
      = (if vctx.suspend_count = SIZE_MAX then SIZE_MAX else vctx.suspend_count + 1) ∧
    (kbase_vinstr_resume vctx).suspend_count
      = (if vctx.suspend_count = 0 then 0 else vctx.suspend_count - 1) ∧
    (vctx.suspend_count = 0 → kbase_vinstr_resume vctx = vctx) ∧
    (vctx.suspend_count ≤ SIZE_MAX →
      (kbase_vinstr_suspend vctx).suspend_count ≤ SIZE_MAX ∧
      (kbase_vinstr_resume vctx).suspend_count ≤ SIZE_MAX) ∧
    (vctx.suspend_count < SIZE_MAX →
      (kbase_vinstr_resume (kbase_vinstr_suspend vctx)).suspend_count = vctx.suspend_count) := by
  have hs : (kbase_vinstr_suspend vctx).suspend_count
      = (if vctx.suspend_count = SIZE_MAX then SIZE_MAX else vctx.suspend_count + 1) := by
    unfold kbase_vinstr_suspend
    by_cases h : vctx.suspend_count = SIZE_MAX
    · simp [h]
    · simp [h]
  have hr : ∀ v : kbase_vinstr_context, (kbase_vinstr_resume v).suspend_count
      = (if v.suspend_count = 0 then 0 else v.suspend_count - 1) := by
    intro v
    unfold kbase_vinstr_resume
    by_cases h : v.suspend_count = 0
    · simp [h]
    · simp only [h, if_false]
      split
      · split <;> simp [queue_dump_work]
      · rfl
  refine ⟨hs, hr vctx, ?_, ?_, ?_⟩
  · intro h0
    simp [kbase_vinstr_resume, h0]
  · intro hle
    rw [hs, hr vctx]
    constructor
    · split <;> omega
    · split <;> omega
  · intro hlt
    rw [hr, hs]
    have hne : ¬ vctx.suspend_count = SIZE_MAX := by omega
    simp [hne]

/-- C17 (witness): the example context has count 0; suspend makes it 1 and
resume makes it 0 again. -/
theorem suspend_resume_count_witness :
    ex_context.suspend_count < SIZE_MAX ∧
    (kbase_vinstr_suspend ex_context).suspend_count = 1 ∧
    (kbase_vinstr_resume (kbase_vinstr_suspend ex_context)).suspend_count
      = ex_context.suspend_count :=
  ⟨by decide, by decide, (suspend_resume_count ex_context).2.2.2.2 (by decide)⟩

/-- Whether resume calls `queue_work`. -/
theorem resume_queue_work_calls (vctx : kbase_vinstr_context) :
    (kbase_vinstr_resume vctx).queue_work_calls
      = vctx.queue_work_calls +
          (if vctx.suspend_count = 1 ∧
              vctx.clients.any (fun pos => pos.cli.dump_interval_ns != 0) = true
            then 1 else 0) ∧
    (kbase_vinstr_resume vctx).clients = vctx.clients ∧
    (kbase_vinstr_resume vctx).dump_timer = vctx.dump_timer ∧
    (¬ vctx.clients.any (fun pos => pos.cli.dump_interval_ns != 0) = true →
      (kbase_vinstr_resume vctx).dump_work_pending = vctx.dump_work_pending) := by
  unfold kbase_vinstr_resume
  by_cases h0 : vctx.suspend_count = 0
  · simp [h0]
  · by_cases h1 : vctx.suspend_count = 1
    · by_cases hp : vctx.clients.any (fun pos => pos.cli.dump_interval_ns != 0) = true
      · simp [h1, hp, queue_dump_work]
      · simp [h1, hp]
    · have h2 : ¬ vctx.suspend_count - 1 = 0 := by omega
      simp [h0, h1, h2]

/-- C18: resume calls `queue_work` if and only if its decrement brings
`suspend_count` to exactly 0 (the count was 1) and some attached client has a
non-zero `dump_interval_ns`; neither suspend nor resume touches a client, and
suspend followed by resume on a context without periodic clients makes no
`queue_work` call, leaves the worker not queued and the timer idle, and leaves
every client, hence every ring index, as it was. -/
theorem resume_enqueues_iff (vctx : kbase_vinstr_context) :
    ((kbase_vinstr_resume vctx).queue_work_calls = vctx.queue_work_calls + 1 ↔
      (vctx.suspend_count ≠ 0 ∧ vctx.suspend_count - 1 = 0 ∧
        ∃ pos ∈ vctx.clients, pos.cli.dump_interval_ns ≠ 0)) ∧
    ((kbase_vinstr_resume vctx).queue_work_calls = vctx.queue_work_calls ↔
      ¬ (vctx.suspend_count ≠ 0 ∧ vctx.suspend_count - 1 = 0 ∧
        ∃ pos ∈ vctx.clients, pos.cli.dump_interval_ns ≠ 0)) ∧
    (kbase_vinstr_resume vctx).clients = vctx.clients ∧
    (kbase_vinstr_suspend vctx).clients = vctx.clients ∧
    ((∀ pos ∈ vctx.clients, pos.cli.dump_interval_ns = 0) →
      (kbase_vinstr_resume (kbase_vinstr_suspend vctx)).queue_work_calls
        = vctx.queue_work_calls ∧
      (kbase_vinstr_resume (kbase_vinstr_suspend vctx)).dump_work_pending = false ∧
      (kbase_vinstr_resume (kbase_vinstr_suspend vctx)).dump_timer = none ∧
      (kbase_vinstr_resume (kbase_vinstr_suspend vctx)).clients = vctx.clients) := by
  have hany : vctx.clients.any (fun pos => pos.cli.dump_interval_ns != 0) = true ↔
      ∃ pos ∈ vctx.clients, pos.cli.dump_interval_ns ≠ 0 := by
    simp [List.any_eq_true]
  have hone : vctx.suspend_count = 1 ↔ (vctx.suspend_count ≠ 0 ∧ vctx.suspend_count - 1 = 0) := by
    omega
  obtain ⟨hq, hc, _, _⟩ := resume_queue_work_calls vctx
  have hsc : (kbase_vinstr_suspend vctx).clients = vctx.clients := by
    unfold kbase_vinstr_suspend; split <;> rfl
  refine ⟨?_, ?_, hc, hsc, ?_⟩
  · rw [hq, ← and_assoc, ← hone, ← hany]
    by_cases h : vctx.suspend_count = 1 ∧
        vctx.clients.any (fun pos => pos.cli.dump_interval_ns != 0) = true
    · simp [h]
    · simp [h]
  · rw [hq, ← and_assoc, ← hone, ← hany]
    by_cases h : vctx.suspend_count = 1 ∧
        vctx.clients.any (fun pos => pos.cli.dump_interval_ns != 0) = true
    · simp [h]
    · simp [h]
  · intro hnone
    obtain ⟨hq2, hc2, ht2, hp2⟩ := resume_queue_work_calls (kbase_vinstr_suspend vctx)
    have hno : ¬ (kbase_vinstr_suspend vctx).clients.any
        (fun pos => pos.cli.dump_interval_ns != 0) = true := by
      rw [hsc, hany]
      rintro ⟨pos, hp, hne⟩
      exact hne (hnone pos hp)
    have hqs : (kbase_vinstr_suspend vctx).queue_work_calls = vctx.queue_work_calls := by
      unfold kbase_vinstr_suspend; split <;> rfl
    refine ⟨?_, ?_, ?_, ?_⟩
    · rw [hq2, hqs]; simp [hno]
    · rw [hp2 hno]; unfold kbase_vinstr_suspend; rfl
    · rw [ht2]; unfold kbase_vinstr_suspend; rfl
    · rw [hc2, hsc]

/-- C18 (witness): resuming the once-suspended example context, which has
periodic clients, queues the worker; suspend then resume on the context without
periodic clients queues nothing. -/
theorem resume_enqueues_iff_witness :
    (ex_context_suspended.suspend_count ≠ 0 ∧ ex_context_suspended.suspend_count - 1 = 0 ∧
      ∃ pos ∈ ex_context_suspended.clients, pos.cli.dump_interval_ns ≠ 0) ∧
    (kbase_vinstr_resume ex_context_suspended).queue_work_calls
      = ex_context_suspended.queue_work_calls + 1 ∧
    (∀ pos ∈ ex_context_idle.clients, pos.cli.dump_interval_ns = 0) ∧
    (kbase_vinstr_resume (kbase_vinstr_suspend ex_context_idle)).queue_work_calls
      = ex_context_idle.queue_work_calls :=
  ⟨by decide, (resume_enqueues_iff ex_context_suspended).1.mpr (by decide), by decide,
    ((resume_enqueues_iff ex_context_idle).2.2.2.2 (by decide)).1⟩

/-- Unlinking the client just added at the head of the list. -/
theorem list_del_cons_self (addr : Nat) (c : kbase_vinstr_client) (rest : List vinstr_node) :
    list_del ({ addr := addr, cli := c } :: rest) addr = rest := by
  simp [list_del]

/-- Counting a client in and out again restores a `size_t` count. -/
theorem size_dec_size_inc (x : Nat) (hx : x < SIZE_MOD) : size_dec (size_inc x) = x := by
  simp only [size_dec, size_inc, SIZE_MOD] at *
  omega

/-- C19: a setup request whose `buffer_count` is 0 or above 32 returns -EINVAL
whatever the environment answers, with the context, hence `client_count` and
the client list, unchanged and no client created; for `buffer_count` in 1..32
the validation lets the request through: the return value is the error of
client creation, else what `anon_inode_getfd` returns, and when creation
succeeds and a descriptor is returned the new client is counted and linked at
the head of the list. -/
theorem reader_setup_validation (vctx : kbase_vinstr_context)
    (setup : kbase_ioctl_hwcnt_reader_setup) (env : setup_env) :
    ((setup.buffer_count = 0 ∨ setup.buffer_count > 32) →
      kbase_vinstr_hwcnt_reader_setup vctx setup env = (-EINVAL, vctx)) ∧
    ((1 ≤ setup.buffer_count ∧ setup.buffer_count ≤ 32) →
      (kbase_vinstr_hwcnt_reader_setup vctx setup env).1
        = (match kbasep_vinstr_client_create vctx.metadata setup env.create with
           | .error errcode => errcode
           | .ok _ => env.anon_inode_getfd) ∧
      ∀ vcli, kbasep_vinstr_client_create vctx.metadata setup env.create = .ok vcli →
        0 ≤ env.anon_inode_getfd →
        kbase_vinstr_hwcnt_reader_setup vctx setup env
          = (env.anon_inode_getfd,
             { vctx with client_count := size_inc vctx.client_count
                         clients := { addr := env.vcli, cli := vcli } :: vctx.clients })) := by
  constructor
  · intro h
    have h2 : setup.buffer_count = 0 ∨ setup.buffer_count > MAX_BUFFER_COUNT := h
    simp [kbase_vinstr_hwcnt_reader_setup, h2]
  · intro h
    have h2 : ¬ (setup.buffer_count = 0 ∨ setup.buffer_count > MAX_BUFFER_COUNT) := by
      simp only [MAX_BUFFER_COUNT]; omega
    unfold kbase_vinstr_hwcnt_reader_setup
    rw [if_neg h2]
    constructor
    · cases kbasep_vinstr_client_create vctx.metadata setup env.create with
      | error e => rfl
      | ok c =>
        dsimp only
        split <;> rfl
    · intro vcli hc hfd
      rw [hc]
      dsimp only
      rw [if_neg (by omega)]

/-- C19 (witness): a request for 33 buffers is rejected; a request for 32 is
accepted and attaches the client. -/
theorem reader_setup_validation_witness :
    ((ex_setup 33).buffer_count = 0 ∨ (ex_setup 33).buffer_count > 32) ∧
    kbase_vinstr_hwcnt_reader_setup ex_context (ex_setup 33) ex_setup_env
      = (-EINVAL, ex_context) ∧
    (1 ≤ (ex_setup 32).buffer_count ∧ (ex_setup 32).buffer_count ≤ 32) ∧
    (kbase_vinstr_hwcnt_reader_setup ex_context (ex_setup 32) ex_setup_env).1 = 7 :=
  ⟨by decide, (reader_setup_validation ex_context (ex_setup 33) ex_setup_env).1 (by decide),
    by decide,
    ((reader_setup_validation ex_context (ex_setup 32) ex_setup_env).2 (by decide)).1.trans
      (by rw [show ex_context.metadata = ex_metadata from rfl,
            show ex_setup_env.create = ex_create_env from rfl, ex_fresh_created 32]; rfl)⟩

/-- Unlinking an attached client shortens the list by one. -/
theorem list_del_length (clients : List vinstr_node) (addr : Nat)
    (h : (find_client clients addr).isSome = true) :
    (list_del clients addr).length + 1 = clients.length := by
  induction clients with
  | nil => simp [find_client] at h
  | cons n rest ih =>
    rw [find_client_cons] at h
    by_cases hn : n.addr = addr
    · have hp : (fun m : vinstr_node => m.addr == addr) n = true := by simp [hn]
      have e : List.eraseP (fun m : vinstr_node => m.addr == addr) (n :: rest) = rest :=
        List.eraseP_cons_of_pos hp
      simp only [list_del]
      rw [e, List.length_cons]
    · rw [if_neg hn] at h
      have hp : ¬ (fun m : vinstr_node => m.addr == addr) n = true := by simp [hn]
      have e : List.eraseP (fun m : vinstr_node => m.addr == addr) (n :: rest)
          = n :: List.eraseP (fun m : vinstr_node => m.addr == addr) rest :=
        List.eraseP_cons_of_neg hp
      have := ih h
      simp only [list_del] at this ⊢
      rw [e, List.length_cons, List.length_cons, this]

/-- Detaching an attached client preserves the count invariant. -/
theorem count_inv_detach (vctx : kbase_vinstr_context) (addr : Nat)
    (hinv : count_inv vctx) (h : (find_client vctx.clients addr).isSome = true) :
    count_inv (detach_client vctx addr) := by
  have hl := list_del_length vctx.clients addr h
  simp only [count_inv, detach_client, size_dec, SIZE_MOD] at *
  omega

/-- Attaching a client preserves the count invariant. -/
theorem count_inv_attach (vctx : kbase_vinstr_context) (n : vinstr_node)
    (hinv : count_inv vctx) :
    count_inv { vctx with client_count := size_inc vctx.client_count
                          clients := n :: vctx.clients } := by
  simp only [count_inv, size_inc, SIZE_MOD, List.length_cons] at *
  omega

/-- The reader setup preserves the count invariant, whatever stage fails. -/
theorem count_inv_reader_setup (vctx : kbase_vinstr_context)
    (setup : kbase_ioctl_hwcnt_reader_setup) (env : setup_env) (hinv : count_inv vctx) :
    count_inv (kbase_vinstr_hwcnt_reader_setup vctx setup env).2 := by
  unfold kbase_vinstr_hwcnt_reader_setup
  split
  · exact hinv
  · cases kbasep_vinstr_client_create vctx.metadata setup env.create with
    | error e => exact hinv
    | ok c =>
      dsimp only
      split
      · dsimp only
        rw [list_del_cons_self]
        simp only [count_inv, size_inc, size_dec, SIZE_MOD] at *
        omega
      · exact count_inv_attach vctx _ hinv

/-- The vendor setup preserves the count invariant. -/
theorem count_inv_MTK_setup (sys : vinstr_system)
    (setup : kbase_ioctl_hwcnt_reader_setup) (env : setup_env) (hinv : count_inv sys.vctx) :
    count_inv (MTK_kbase_vinstr_hwcnt_reader_setup sys setup env).2.vctx := by
  unfold MTK_kbase_vinstr_hwcnt_reader_setup
  split
  · exact hinv
  · cases kbasep_vinstr_client_create sys.vctx.metadata setup env.create with
    | error e => exact hinv
    | ok c => exact count_inv_attach sys.vctx _ hinv

/-- Every lifecycle operation that has an outcome preserves the count
invariant. -/
theorem count_inv_op_step (sys sys1 : vinstr_system) (op : vinstr_op)
    (hinv : count_inv sys.vctx) (h : vinstr_op_step sys op = some sys1) :
    count_inv sys1.vctx := by
  cases op with
  | setup setup env =>
    simp only [vinstr_op_step, Option.some.injEq] at h
    rw [← h]
    exact count_inv_reader_setup sys.vctx setup env hinv
  | MTK_setup setup env =>
    simp only [vinstr_op_step, Option.some.injEq] at h
    rw [← h]
    exact count_inv_MTK_setup sys setup env hinv
  | release vcli =>
    simp only [vinstr_op_step, kbasep_vinstr_hwcnt_reader_release] at h
    by_cases hds : sys.ds5_used ≠ 0
    · by_cases ha : (find_client sys.vctx.clients vcli).isSome = true
      · rw [if_pos hds, if_pos ha] at h
        simp only [Option.map_some', Option.some.injEq] at h
        rw [← h]
        exact count_inv_detach sys.vctx vcli hinv ha
      · rw [if_pos hds, if_neg ha] at h
        simp at h
    · rw [if_neg hds] at h
      simp only [Option.map_some', Option.some.injEq] at h
      rw [← h]
      exact hinv
  | MTK_release =>
    simp only [vinstr_op_step, MTK_kbasep_vinstr_hwcnt_release] at h
    cases hm : sys.mtk_cli with
    | none =>
      simp only [hm, Option.some.injEq] at h
      rw [← h]
      exact hinv
    | some addr =>
      simp only [hm] at h
      by_cases ha : (find_client sys.vctx.clients addr).isSome = true
      · rw [if_pos ha] at h
        simp only [Option.some.injEq] at h
        rw [← h]
        exact count_inv_detach sys.vctx addr hinv ha
      · rw [if_neg ha] at h
        simp at h
  | write_ds5_used v =>
    simp only [vinstr_op_step, Option.some.injEq] at h
    rw [← h]
    exact hinv

/-- Every lifecycle that has an outcome preserves the count invariant. -/
theorem count_inv_ops_run (ops : List vinstr_op) :
    ∀ (sys sys1 : vinstr_system), count_inv sys.vctx → vinstr_ops_run sys ops = some sys1 →
      count_inv sys1.vctx := by
  induction ops with
  | nil =>
    intro sys sys1 hinv h
    simp only [vinstr_ops_run, Option.some.injEq] at h
    rw [← h]; exact hinv
  | cons op rest ih =>
    intro sys sys1 hinv h
    simp only [vinstr_ops_run] at h
    cases hs : vinstr_op_step sys op with
    | none => simp [hs] at h
    | some sys2 =>
      simp only [hs] at h
      exact ih sys2 sys1 (count_inv_op_step sys sys2 op hinv hs) h

/-- The client loop of `kbase_vinstr_term` on an empty list. -/
theorem term_loop_nil (vctx : kbase_vinstr_context) :
    kbase_vinstr_term_loop [] vctx = vctx := rfl

/-- One round of the client loop of `kbase_vinstr_term`. -/
theorem term_loop_cons (pos : vinstr_node) (rest : List vinstr_node)
    (vctx : kbase_vinstr_context) :
    kbase_vinstr_term_loop (pos :: rest) vctx
      = kbase_vinstr_term_loop rest
          { vctx with clients := list_del vctx.clients pos.addr
                      client_count := size_dec vctx.client_count } := by
  unfold kbase_vinstr_term_loop
  rw [List.foldl_cons]

/-- The client loop of `kbase_vinstr_term`, run over the whole list of a
context satisfying the count invariant, ends with no client and count 0. -/
theorem term_loop_empties (l : List vinstr_node) :
    ∀ vctx : kbase_vinstr_context, vctx.clients = l → count_inv vctx →
      (kbase_vinstr_term_loop l vctx).clients = [] ∧
      (kbase_vinstr_term_loop l vctx).client_count = 0 := by
  induction l with
  | nil =>
    intro vctx hl hinv
    rw [term_loop_nil]
    refine ⟨hl, ?_⟩
    have h : vctx.client_count = vctx.clients.length % SIZE_MOD := hinv
    rw [h, hl]
    rfl
  | cons pos rest ih =>
    intro vctx hl hinv
    have hd : list_del vctx.clients pos.addr = rest := by
      rw [hl]
      cases pos with
      | mk a c => exact list_del_cons_self a c rest
    have h0 : vctx.client_count = vctx.clients.length % SIZE_MOD := hinv
    have h1 : vctx.client_count = (rest.length + 1) % SIZE_MOD := by
      rw [h0, hl, List.length_cons]
    have hc : size_dec vctx.client_count
        = (list_del vctx.clients pos.addr).length % SIZE_MOD := by
      rw [hd, h1]
      simp only [size_dec, SIZE_MOD]
      omega
    rw [term_loop_cons]
    exact ih { vctx with clients := list_del vctx.clients pos.addr
                         client_count := size_dec vctx.client_count } hd hc

/-- Terminating a context that satisfies the count invariant (and holds fewer
than 2^64 clients) leaves no client and count 0. -/
theorem term_empties (vctx : kbase_vinstr_context) (hinv : count_inv vctx)
    (hlen : vctx.clients.length < SIZE_MOD) :
    (kbase_vinstr_term vctx).client_count = 0 ∧ (kbase_vinstr_term vctx).clients = [] := by
  unfold kbase_vinstr_term
  dsimp only
  split
  · have := term_loop_empties vctx.clients { vctx with dump_work_pending := false } rfl hinv
    exact ⟨this.2, this.1⟩
  · rename_i h0
    have h1 : vctx.client_count = 0 := not_not.mp h0
    refine ⟨h1, ?_⟩
    have h2 : vctx.clients.length = 0 := by
      simp only [count_inv, SIZE_MOD] at hinv hlen
      omega
    exact List.length_eq_zero.mp h2

/-- C20: starting from a freshly initialised context, after every sequence of
reader setups (succeeding or failing at any stage), vendor setups, file
releases and vendor releases that have an outcome, with `ds5_used` changing in
any way in between, `client_count` is the number of clients in the list (as a
`size_t`; equal to it for the fewer than 2^64 clients a context can hold), and
`kbase_vinstr_term` on that context ends with `client_count` 0 and an empty
list. -/
theorem client_count_matches (env : init_env) (vctx0 : kbase_vinstr_context)
    (ds5_used : Int) (mtk_cli : Option Nat) (ops : List vinstr_op) (sys : vinstr_system)
    (hinit : kbase_vinstr_init env = .ok vctx0)
    (hrun : vinstr_ops_run { ds5_used := ds5_used, mtk_cli := mtk_cli, vctx := vctx0 } ops
      = some sys) :
    vctx0.client_count = 0 ∧ vctx0.clients = [] ∧
    sys.vctx.client_count = sys.vctx.clients.length % SIZE_MOD ∧
    (sys.vctx.clients.length < SIZE_MOD →
      sys.vctx.client_count = sys.vctx.clients.length ∧
      (kbase_vinstr_term sys.vctx).client_count = 0 ∧
      (kbase_vinstr_term sys.vctx).clients = []) := by
  have h0 : vctx0.client_count = 0 ∧ vctx0.clients = [] := by
    unfold kbase_vinstr_init at hinit
    split at hinit
    · cases hinit
    · split at hinit
      · cases hinit
      · cases hinit
        exact ⟨rfl, rfl⟩
  have hinv0 : count_inv vctx0 := by
    simp only [count_inv, h0.1, h0.2, List.length_nil, SIZE_MOD]
  have hinv := count_inv_ops_run ops _ sys hinv0 hrun
  refine ⟨h0.1, h0.2, hinv, ?_⟩
  intro hlen
  refine ⟨?_, term_empties sys.vctx hinv hlen⟩
  simp only [count_inv, SIZE_MOD] at hinv hlen
  omega

/-- C20 (witness): after the example lifecycle two clients are attached and
counted, and terminating the context detaches both. -/
theorem client_count_matches_witness :
    kbase_vinstr_init ex_init_env = .ok ex_context_fresh ∧
    vinstr_ops_run { ds5_used := 1, mtk_cli := none, vctx := ex_context_fresh } ex_ops
      = some ex_system_final ∧
    ex_system_final.vctx.clients.length < SIZE_MOD ∧
    ex_system_final.vctx.client_count = 2 ∧
    (ex_system_final.vctx.client_count = ex_system_final.vctx.clients.length ∧
      (kbase_vinstr_term ex_system_final.vctx).client_count = 0 ∧
      (kbase_vinstr_term ex_system_final.vctx).clients = []) :=
  ⟨rfl, by decide, by decide, rfl,
    (client_count_matches ex_init_env ex_context_fresh 1 none ex_ops ex_system_final rfl
      (by decide)).2.2.2 (by decide)⟩

/-- Unlinking the client at `addr` removes the first node with that address
and keeps the nodes before and after it in order. -/
theorem list_del_split (clients : List vinstr_node) (addr : Nat) (c : kbase_vinstr_client)
    (h : find_client clients addr = some c) :
    ∃ l1 l2, clients = l1 ++ { addr := addr, cli := c } :: l2 ∧
      (∀ m ∈ l1, m.addr ≠ addr) ∧ list_del clients addr = l1 ++ l2 := by
  induction clients with
  | nil => simp [find_client] at h
  | cons n rest ih =>
    rw [find_client_cons] at h
    by_cases hn : n.addr = addr
    · rw [if_pos hn] at h
      have hc : n.cli = c := Option.some.inj h
      refine ⟨[], rest, ?_, ?_, ?_⟩
      · cases n with
        | mk a c0 =>
          simp only [List.nil_append, List.cons.injEq, and_true]
          simp only at hn hc
          rw [hn, hc]
      · intro m hm
        cases hm
      · cases n with
        | mk a c0 =>
          simp only at hn
          rw [hn]
          exact list_del_cons_self addr c0 rest
    · rw [if_neg hn] at h
      obtain ⟨l1, l2, e1, e2, e3⟩ := ih h
      refine ⟨n :: l1, l2, ?_, ?_, ?_⟩
      · rw [e1]; rfl
      · intro m hm
        rcases List.mem_cons.mp hm with hm | hm
        · rw [hm]; exact hn
        · exact e2 m hm
      · have hp : ¬ (fun m : vinstr_node => m.addr == addr) n = true := by simp [hn]
        have e : List.eraseP (fun m : vinstr_node => m.addr == addr) (n :: rest)
            = n :: List.eraseP (fun m : vinstr_node => m.addr == addr) rest :=
          List.eraseP_cons_of_neg hp
        simp only [list_del] at e3 ⊢
        rw [e, e3]
        rfl

/-- C21 (amended): releasing the file of an attached client while `ds5_used` is
non-zero returns 0, decrements `client_count` by one (as a `size_t`; exactly one
less for a count in 1..2^64-1) and unlinks exactly that client: the clients
before and after it stay as they were and in order, and `suspend_count` and
every other field of the context are unchanged. While `ds5_used` is 0 the
release returns 0 and changes nothing. -/
theorem reader_release_detaches (sys : vinstr_system) (vcli : Nat) (c : kbase_vinstr_client)
    (hattached : find_client sys.vctx.clients vcli = some c) :
    (sys.ds5_used ≠ 0 →
      ∃ l1 l2, sys.vctx.clients = l1 ++ { addr := vcli, cli := c } :: l2 ∧
        (∀ m ∈ l1, m.addr ≠ vcli) ∧
        kbasep_vinstr_hwcnt_reader_release sys vcli
          = some (0, { sys with
                         vctx := { sys.vctx with
                                     client_count := size_dec sys.vctx.client_count
                                     clients := l1 ++ l2 } }) ∧
        (0 < sys.vctx.client_count → sys.vctx.client_count < SIZE_MOD →
          size_dec sys.vctx.client_count + 1 = sys.vctx.client_count)) ∧
    (sys.ds5_used = 0 → kbasep_vinstr_hwcnt_reader_release sys vcli = some (0, sys)) := by
  constructor
  · intro hds
    obtain ⟨l1, l2, e1, e2, e3⟩ := list_del_split sys.vctx.clients vcli c hattached
    refine ⟨l1, l2, e1, e2, ?_, ?_⟩
    · unfold kbasep_vinstr_hwcnt_reader_release
      rw [if_pos hds, hattached]
      simp only [Option.isSome_some, if_true, detach_client]
      rw [e3]
    · intro h0 h1
      simp only [size_dec, SIZE_MOD] at h1 ⊢
      omega
  · intro hds
    unfold kbasep_vinstr_hwcnt_reader_release
    rw [if_neg (by simp [hds])]

/-- C21 (witness): releasing the middle client of the example context leaves
the first and the third, in that order, and a count of 2. -/
theorem reader_release_detaches_witness :
    find_client ex_system.vctx.clients 20 = some (ex_fresh 1) ∧ ex_system.ds5_used ≠ 0 ∧
    (∃ l1 l2, ex_system.vctx.clients = l1 ++ { addr := 20, cli := ex_fresh 1 } :: l2 ∧
        (∀ m ∈ l1, m.addr ≠ 20) ∧
        kbasep_vinstr_hwcnt_reader_release ex_system 20
          = some (0, { ex_system with
                         vctx := { ex_system.vctx with
                                     client_count := size_dec ex_system.vctx.client_count
                                     clients := l1 ++ l2 } }) ∧
        (0 < ex_system.vctx.client_count → ex_system.vctx.client_count < SIZE_MOD →
          size_dec ex_system.vctx.client_count + 1 = ex_system.vctx.client_count)) ∧
    (kbasep_vinstr_hwcnt_reader_release ex_system 20).map (fun r => r.2.vctx.client_count)
      = some 2 :=
  ⟨by decide, by decide,
    (reader_release_detaches ex_system 20 (ex_fresh 1) (by decide)).1 (by decide),
    by decide⟩

/-- C21 (counterexample): after a reader setup and a vendor setup on a fresh
context `ds5_used` is 0, and releasing the reader's file returns 0 with the
client still attached and `client_count` still 2. -/
theorem reader_release_noop_without_ds5 :
    vinstr_ops_run { ds5_used := 1, mtk_cli := none, vctx := ex_context_fresh }
        [.setup (ex_setup 4) ex_setup_env,
         .MTK_setup (ex_setup 1) { create := ex_create_env, vcli := 60, anon_inode_getfd := 0 }]
      = some ex_system_vendor ∧
    find_client ex_system_vendor.vctx.clients 40 = some (ex_fresh 4) ∧
    kbasep_vinstr_hwcnt_reader_release ex_system_vendor 40 = some (0, ex_system_vendor) ∧
    ex_system_vendor.vctx.client_count = 2 := by
  decide

/-- The client loop of `kbase_vinstr_term` changes only the list and the
count. -/
theorem term_loop_frame (l : List vinstr_node) :
    ∀ vctx : kbase_vinstr_context,
      (kbase_vinstr_term_loop l vctx).metadata = vctx.metadata ∧
      (kbase_vinstr_term_loop l vctx).suspend_count = vctx.suspend_count ∧
      (kbase_vinstr_term_loop l vctx).dump_timer = vctx.dump_timer ∧
      (kbase_vinstr_term_loop l vctx).dump_work_pending = vctx.dump_work_pending ∧
      (kbase_vinstr_term_loop l vctx).queue_work_calls = vctx.queue_work_calls := by
  induction l with
  | nil =>
    intro vctx
    rw [term_loop_nil]
    exact ⟨rfl, rfl, rfl, rfl, rfl⟩
  | cons pos rest ih =>
    intro vctx
    rw [term_loop_cons]
    exact ih _

/-- C22: terminating a context whose `client_count` equals the number of
attached clients (fewer than 2^64) unlinks and destroys every client: it ends
with `client_count` 0 and an empty list, no client of the context remains
attached, the pending worker is cancelled and nothing else changes; the leak
warning fires exactly when clients were still attached. -/
theorem term_detaches_all (vctx : kbase_vinstr_context)
    (hcount : vctx.client_count = vctx.clients.length)
    (hlen : vctx.clients.length < SIZE_MOD) :
    (kbase_vinstr_term vctx).client_count = 0 ∧
    (kbase_vinstr_term vctx).clients = [] ∧
    (∀ pos ∈ vctx.clients, find_client (kbase_vinstr_term vctx).clients pos.addr = none) ∧
    (kbase_vinstr_term vctx).dump_work_pending = false ∧
    (kbase_vinstr_term vctx).suspend_count = vctx.suspend_count ∧
    (kbase_vinstr_term vctx).metadata = vctx.metadata ∧
    (kbase_vinstr_term vctx).dump_timer = vctx.dump_timer ∧
    (vctx.client_count ≠ 0 ↔ vctx.clients ≠ []) := by
  have hinv : count_inv vctx := by
    have e : vctx.clients.length % SIZE_MOD = vctx.clients.length := Nat.mod_eq_of_lt hlen
    have h : vctx.client_count = vctx.clients.length % SIZE_MOD := by rw [e]; exact hcount
    exact h
  have h := term_empties vctx hinv hlen
  have hf : (kbase_vinstr_term vctx).dump_work_pending = false ∧
      (kbase_vinstr_term vctx).suspend_count = vctx.suspend_count ∧
      (kbase_vinstr_term vctx).metadata = vctx.metadata ∧
      (kbase_vinstr_term vctx).dump_timer = vctx.dump_timer := by
    unfold kbase_vinstr_term
    dsimp only
    split
    · have f := term_loop_frame vctx.clients { vctx with dump_work_pending := false }
      exact ⟨f.2.2.2.1, f.2.1, f.1, f.2.2.1⟩
    · exact ⟨rfl, rfl, rfl, rfl⟩
  refine ⟨h.1, h.2, ?_, hf.1, hf.2.1, hf.2.2.1, hf.2.2.2, ?_⟩
  · intro pos _
    rw [h.2]
    rfl
  · rw [hcount]
    constructor
    · intro h0 hn
      rw [hn] at h0
      exact h0 rfl
    · intro h0 hn
      exact h0 (List.length_eq_zero.mp hn)

/-- C22 (witness): the example context with two attached clients, never
released, ends with count 0 and no client. -/
theorem term_detaches_all_witness :
    ex_context_idle.client_count = ex_context_idle.clients.length ∧
    ex_context_idle.clients.length = 2 ∧
    (kbase_vinstr_term ex_context_idle).client_count = 0 ∧
    (kbase_vinstr_term ex_context_idle).clients = [] :=
  ⟨by decide, by decide,
    (term_detaches_all ex_context_idle (by decide) (by decide)).1,
    (term_detaches_all ex_context_idle (by decide) (by decide)).2.1⟩

/-- The feature bitmap the version query builds for a clock-counter count. -/
theorem api_version_features (clk_cnt : Nat) :
    (if clk_cnt > 1 then
        (if clk_cnt > 0 then KBASE_HWCNT_READER_API_VERSION_NO_FEATURE |||
            KBASE_HWCNT_READER_API_VERSION_FEATURE_CYCLES_TOP
          else KBASE_HWCNT_READER_API_VERSION_NO_FEATURE) |||
          KBASE_HWCNT_READER_API_VERSION_FEATURE_CYCLES_SHADER_CORES
      else
        (if clk_cnt > 0 then KBASE_HWCNT_READER_API_VERSION_NO_FEATURE |||
            KBASE_HWCNT_READER_API_VERSION_FEATURE_CYCLES_TOP
          else KBASE_HWCNT_READER_API_VERSION_NO_FEATURE))
      = (if clk_cnt > 0 then 1 else 0) + (if clk_cnt > 1 then 2 else 0) := by
  by_cases h1 : clk_cnt > 1
  · have h0 : clk_cnt > 0 := by omega
    rw [if_pos h1, if_pos h0, if_pos h0, if_pos h1]
    decide
  · by_cases h0 : clk_cnt > 0
    · rw [if_neg h1, if_pos h0, if_pos h0, if_neg h1]
      decide
    · rw [if_neg h1, if_neg h0, if_neg h0, if_neg h1]
      decide

/-- C23: the API-version query with the size of a 32-bit word stores version 1
alone; with the size of the version/feature record (8) it stores version 1 and
a feature bitmap in which the top-level-cycles bit is set iff the metadata
clock-counter count is above 0, the shader-core-cycles bit iff it is above 1,
and no other bit is set; both return 0 when the user area is writable over that
size (and -EFAULT, storing nothing, when it is not); for every other size the
query returns -EINVAL and stores nothing. -/
theorem get_api_version_result (metadata : kbase_hwcnt_metadata) (arg : List Byte)
    (size : Nat) :
    (size = 4 → 4 ≤ arg.length →
      kbasep_vinstr_hwcnt_reader_ioctl_get_api_version metadata arg size
        = (0, le_bytes 4 1 ++ arg.drop 4)) ∧
    (size = 8 → 8 ≤ arg.length →
      ∃ features,
        kbasep_vinstr_hwcnt_reader_ioctl_get_api_version metadata arg size
          = (0, le_bytes 4 1 ++ le_bytes 4 features ++ arg.drop 8) ∧
        (features &&& KBASE_HWCNT_READER_API_VERSION_FEATURE_CYCLES_TOP ≠ 0
          ↔ metadata.clk_cnt > 0) ∧
        (features &&& KBASE_HWCNT_READER_API_VERSION_FEATURE_CYCLES_SHADER_CORES ≠ 0
          ↔ metadata.clk_cnt > 1) ∧
        features &&& (KBASE_HWCNT_READER_API_VERSION_FEATURE_CYCLES_TOP |||
          KBASE_HWCNT_READER_API_VERSION_FEATURE_CYCLES_SHADER_CORES) = features) ∧
    ((size = 4 ∨ size = 8) → arg.length < size →
      kbasep_vinstr_hwcnt_reader_ioctl_get_api_version metadata arg size = (-EFAULT, arg)) ∧
    (size ≠ 4 → size ≠ 8 →
      kbasep_vinstr_hwcnt_reader_ioctl_get_api_version metadata arg size = (-EINVAL, arg)) := by
  refine ⟨?_, ?_, ?_, ?_⟩
  · intro hs hl
    unfold kbasep_vinstr_hwcnt_reader_ioctl_get_api_version
    dsimp only
    rw [if_pos hs]
    unfold put_user
    rw [le_bytes_length, if_pos hl]
    rfl
  · intro hs hl
    refine ⟨(if metadata.clk_cnt > 0 then 1 else 0) + (if metadata.clk_cnt > 1 then 2 else 0),
      ?_, ?_, ?_, ?_⟩
    · unfold kbasep_vinstr_hwcnt_reader_ioctl_get_api_version
      dsimp only
      rw [if_neg (by omega), if_pos (by rw [hs]; rfl), api_version_features]
      unfold put_user
      have hlen : ∀ v : kbase_hwcnt_reader_api_version, v.bytes.length = 8 := by
        intro v
        simp only [kbase_hwcnt_reader_api_version.bytes, List.length_append, le_bytes_length]
      rw [hlen, if_pos hl]
      rfl
    · by_cases h0 : metadata.clk_cnt > 0
      · by_cases h1 : metadata.clk_cnt > 1
        · simp only [h0, h1, if_true, iff_true]; decide
        · simp only [h0, h1, if_true, if_false, iff_true]; decide
      · have h1 : ¬ metadata.clk_cnt > 1 := by omega
        simp only [h0, h1, if_false, iff_false]; decide
    · by_cases h1 : metadata.clk_cnt > 1
      · have h0 : metadata.clk_cnt > 0 := by omega
        simp only [h0, h1, if_true, iff_true]; decide
      · by_cases h0 : metadata.clk_cnt > 0
        · simp only [h0, h1, if_true, if_false, iff_false]; decide
        · simp only [h0, h1, if_false, iff_false]; decide
    · by_cases h0 : metadata.clk_cnt > 0
      · by_cases h1 : metadata.clk_cnt > 1
        · simp only [h0, h1, if_true]; decide
        · simp only [h0, h1, if_true, if_false]; decide
      · have h1 : ¬ metadata.clk_cnt > 1 := by omega
        simp only [h0, h1, if_false]; decide
  · intro hs hl
    unfold kbasep_vinstr_hwcnt_reader_ioctl_get_api_version
    dsimp only
    rcases hs with hs | hs
    · rw [if_pos hs]
      unfold put_user
      rw [le_bytes_length, if_neg (by omega)]
    · rw [if_neg (by omega), if_pos (by rw [hs]; rfl)]
      unfold put_user
      have hlen : ∀ v : kbase_hwcnt_reader_api_version, v.bytes.length = 8 := by
        intro v
        simp only [kbase_hwcnt_reader_api_version.bytes, List.length_append, le_bytes_length]
      rw [hlen, if_neg (by omega)]
  · intro h4 h8
    unfold kbasep_vinstr_hwcnt_reader_ioctl_get_api_version
    dsimp only
    rw [if_neg h4, if_neg (by intro h; exact h8 h)]

/-- C23 (witness): with two clock counters the 8-byte query stores version 1
and the bitmap 3; the 4-byte query stores version 1; a 6-byte query fails. -/
theorem get_api_version_result_witness :
    (4 : Nat) = 4 ∧ 4 ≤ (List.replicate 8 (9 : Byte)).length ∧
    kbasep_vinstr_hwcnt_reader_ioctl_get_api_version ex_metadata (List.replicate 8 9) 4
      = (0, [1, 0, 0, 0, 9, 9, 9, 9]) ∧
    kbasep_vinstr_hwcnt_reader_ioctl_get_api_version ex_metadata (List.replicate 8 9) 8
      = (0, [1, 0, 0, 0, 3, 0, 0, 0]) ∧
    kbasep_vinstr_hwcnt_reader_ioctl_get_api_version ex_metadata (List.replicate 8 9) 6
      = (-EINVAL, List.replicate 8 9) :=
  ⟨rfl, by decide,
    (get_api_version_result ex_metadata (List.replicate 8 9) 4).1 rfl (by decide),
    by decide,
    (get_api_version_result ex_metadata (List.replicate 8 9) 6).2.2.2 (by decide) (by decide)⟩

/-- A produce never touches the scheduling fields or the buffer count of its
client. -/
theorem client_dump_frame (ds5_used : Int) (metadata : kbase_hwcnt_metadata)
    (vd : virt_dump) (vcli : kbase_vinstr_client) (event_id : base_hwcnt_reader_event) :
    (kbasep_vinstr_client_dump ds5_used metadata vd vcli event_id).2.dump_interval_ns
      = vcli.dump_interval_ns ∧
    (kbasep_vinstr_client_dump ds5_used metadata vd vcli event_id).2.next_dump_time_ns
      = vcli.next_dump_time_ns ∧
    (kbasep_vinstr_client_dump ds5_used metadata vd vcli event_id).2.buf_cnt = vcli.buf_cnt := by
  unfold kbasep_vinstr_client_dump
  dsimp only
  split
  · exact ⟨rfl, rfl, rfl⟩
  · split
    · exact ⟨rfl, rfl, rfl⟩
    · exact ⟨rfl, rfl, rfl⟩

/-- A produce that fails, for whatever reason, leaves the three ring indices,
the metadata records and the wake-up count of its client unchanged. -/
theorem client_dump_failed (ds5_used : Int) (metadata : kbase_hwcnt_metadata)
    (vd : virt_dump) (vcli : kbase_vinstr_client) (event_id : base_hwcnt_reader_event)
    (h : (kbasep_vinstr_client_dump ds5_used metadata vd vcli event_id).1 ≠ 0) :
    (kbasep_vinstr_client_dump ds5_used metadata vd vcli event_id).2.write_idx
      = vcli.write_idx ∧
    (kbasep_vinstr_client_dump ds5_used metadata vd vcli event_id).2.meta_idx
      = vcli.meta_idx ∧
    (kbasep_vinstr_client_dump ds5_used metadata vd vcli event_id).2.read_idx
      = vcli.read_idx ∧
    (kbasep_vinstr_client_dump ds5_used metadata vd vcli event_id).2.dump_bufs_meta
      = vcli.dump_bufs_meta ∧
    (kbasep_vinstr_client_dump ds5_used metadata vd vcli event_id).2.waitq_wakeups
      = vcli.waitq_wakeups := by
  unfold kbasep_vinstr_client_dump at h ⊢
  dsimp only at h ⊢
  split
  · exact ⟨rfl, rfl, rfl, rfl, rfl⟩
  · rename_i hb
    rw [if_neg hb] at h
    split
    · exact ⟨rfl, rfl, rfl, rfl, rfl⟩
    · rename_i he
      rw [if_neg he] at h
      exact absurd rfl h

/-- The dump worker loop, unrolled: the dumps made are those of the due clients
in list order, and every client is left as one round leaves it. -/
theorem dump_worker_loop_eq (ds5_used : Int) (metadata : kbase_hwcnt_metadata)
    (cur_time_ns : Nat) (vd : Nat → virt_dump) (clients : List vinstr_node) :
    ∀ acc : List (Nat × Int) × List vinstr_node,
      kbasep_vinstr_dump_worker_loop ds5_used metadata cur_time_ns vd clients acc
        = (acc.1 ++ (clients.filter (fun pos => decide (dump_due cur_time_ns pos))).map
              (fun pos => (pos.addr,
                (kbasep_vinstr_client_dump ds5_used metadata (vd pos.addr) pos.cli
                  .BASE_HWCNT_READER_EVENT_PERIODIC).1)),
           acc.2 ++ clients.map (dump_worker_client ds5_used metadata cur_time_ns vd)) := by
  induction clients with
  | nil =>
    intro acc
    unfold kbasep_vinstr_dump_worker_loop
    simp
  | cons pos rest ih =>
    intro acc
    have hstep : kbasep_vinstr_dump_worker_loop ds5_used metadata cur_time_ns vd (pos :: rest) acc
        = kbasep_vinstr_dump_worker_loop ds5_used metadata cur_time_ns vd rest
            (if dump_due cur_time_ns pos then
              (acc.1 ++ [(pos.addr, (kbasep_vinstr_client_dump ds5_used metadata (vd pos.addr)
                  pos.cli .BASE_HWCNT_READER_EVENT_PERIODIC).1)],
               acc.2 ++ [{ pos with cli := (kbasep_vinstr_client_dump ds5_used metadata
                  (vd pos.addr) pos.cli .BASE_HWCNT_READER_EVENT_PERIODIC).2 }])
             else (acc.1, acc.2 ++ [pos])) := by
      unfold kbasep_vinstr_dump_worker_loop
      rw [List.foldl_cons]
    rw [hstep, ih]
    by_cases hd : dump_due cur_time_ns pos
    · have hf : List.filter (fun pos => decide (dump_due cur_time_ns pos)) (pos :: rest)
          = pos :: List.filter (fun pos => decide (dump_due cur_time_ns pos)) rest :=
        List.filter_cons_of_pos (by simp [hd])
      rw [if_pos hd, hf]
      simp only [List.map_cons, List.append_assoc, List.singleton_append,
        dump_worker_client, if_pos hd]
    · have hf : List.filter (fun pos => decide (dump_due cur_time_ns pos)) (pos :: rest)
          = List.filter (fun pos => decide (dump_due cur_time_ns pos)) rest :=
        List.filter_cons_of_neg (by simp [hd])
      rw [if_neg hd, hf]
      simp only [List.map_cons, List.append_assoc, List.singleton_append,
        dump_worker_client, if_neg hd]

/-- C25: one run of the dump worker at time `cur_time_ns` calls the periodic
produce on exactly the attached clients whose `next_dump_time_ns` is non-zero
and strictly below `cur_time_ns`, in list order (a client whose next dump time
is 0 or equal to `cur_time_ns` is left alone); a produce that fails leaves the
three indices of its client unchanged; and whatever the produces return, every
client is kept, in order, and gets the next dump time computed by the
reschedule step from its own interval. -/
theorem dump_worker_run (ds5_used : Int) (vctx : kbase_vinstr_context)
    (cur_time_ns : Nat) (vd : Nat → virt_dump) (cur_ts_ns : Nat) :
    (kbasep_vinstr_dump_worker ds5_used vctx cur_time_ns vd cur_ts_ns).1
      = (vctx.clients.filter (fun pos =>
            decide (pos.cli.next_dump_time_ns ≠ 0 ∧ pos.cli.next_dump_time_ns < cur_time_ns))).map
          (fun pos => (pos.addr,
            (kbasep_vinstr_client_dump ds5_used vctx.metadata (vd pos.addr) pos.cli
              .BASE_HWCNT_READER_EVENT_PERIODIC).1)) ∧
    (kbasep_vinstr_dump_worker ds5_used vctx cur_time_ns vd cur_ts_ns).2.clients
      = vctx.clients.map (fun pos =>
          { addr := pos.addr
            cli :=
              { (if pos.cli.next_dump_time_ns ≠ 0 ∧ pos.cli.next_dump_time_ns < cur_time_ns then
                  (kbasep_vinstr_client_dump ds5_used vctx.metadata (vd pos.addr) pos.cli
                    .BASE_HWCNT_READER_EVENT_PERIODIC).2
                 else pos.cli) with
                next_dump_time_ns :=
                  kbasep_vinstr_next_dump_time_ns cur_ts_ns pos.cli.dump_interval_ns } }) ∧
    (∀ pos : vinstr_node,
      (pos.cli.next_dump_time_ns = 0 ∨ pos.cli.next_dump_time_ns = cur_time_ns) →
      ¬ (pos.cli.next_dump_time_ns ≠ 0 ∧ pos.cli.next_dump_time_ns < cur_time_ns)) ∧
    (∀ pos : vinstr_node,
      (kbasep_vinstr_client_dump ds5_used vctx.metadata (vd pos.addr) pos.cli
        .BASE_HWCNT_READER_EVENT_PERIODIC).1 ≠ 0 →
      (kbasep_vinstr_client_dump ds5_used vctx.metadata (vd pos.addr) pos.cli
        .BASE_HWCNT_READER_EVENT_PERIODIC).2.write_idx = pos.cli.write_idx ∧
      (kbasep_vinstr_client_dump ds5_used vctx.metadata (vd pos.addr) pos.cli
        .BASE_HWCNT_READER_EVENT_PERIODIC).2.meta_idx = pos.cli.meta_idx ∧
      (kbasep_vinstr_client_dump ds5_used vctx.metadata (vd pos.addr) pos.cli
        .BASE_HWCNT_READER_EVENT_PERIODIC).2.read_idx = pos.cli.read_idx) := by
  refine ⟨?_, ?_, ?_, ?_⟩
  · unfold kbasep_vinstr_dump_worker
    dsimp only
    rw [dump_worker_loop_eq]
    simp only [List.nil_append]
    rfl
  · unfold kbasep_vinstr_dump_worker
    dsimp only
    rw [reschedule_clients, dump_worker_loop_eq]
    simp only [List.nil_append, List.map_map]
    apply List.map_congr_left
    intro pos _
    simp only [Function.comp, dump_worker_client, dump_due]
    split
    · simp only [(client_dump_frame ds5_used vctx.metadata (vd pos.addr) pos.cli
        .BASE_HWCNT_READER_EVENT_PERIODIC).1]
    · rfl
  · intro pos h hd
    rcases h with h | h
    · exact hd.1 h
    · have := hd.2
      omega
  · intro pos h
    have := client_dump_failed ds5_used vctx.metadata (vd pos.addr) pos.cli
      .BASE_HWCNT_READER_EVENT_PERIODIC h
    exact ⟨this.1, this.2.1, this.2.2.1⟩

/-- C25 (witness): at time 1000 the worker dumps the clients at 10 and 30 (next
dump times 600 and 900) and not those at 20 (not periodic) and 50 (next dump
time 1000); the first produce fails with -EBUSY on its full ring and keeps its
indices, the second succeeds, and all four clients are rescheduled at 1010. -/
theorem dump_worker_run_witness :
    (kbasep_vinstr_dump_worker 1 ex_context_due 1000 (fun _ => ex_virt_dump) 1010).1
      = [(10, -EBUSY), (30, 0)] ∧
    (kbasep_vinstr_dump_worker 1 ex_context_due 1000 (fun _ => ex_virt_dump) 1010).2.clients.map
        (fun pos => (pos.addr, pos.cli.write_idx, pos.cli.next_dump_time_ns))
      = [(10, 2, 1200), (20, 0, 0), (30, 2, 1200), (50, 0, 1500)] ∧
    (kbasep_vinstr_dump_worker 1 ex_context_due 1000 (fun _ => ex_virt_dump) 1010).1
      = (ex_context_due.clients.filter (fun pos =>
            decide (pos.cli.next_dump_time_ns ≠ 0 ∧ pos.cli.next_dump_time_ns < 1000))).map
          (fun pos => (pos.addr,
            (kbasep_vinstr_client_dump 1 ex_context_due.metadata ex_virt_dump pos.cli
              .BASE_HWCNT_READER_EVENT_PERIODIC).1)) :=
  ⟨by decide, by decide,
    (dump_worker_run 1 ex_context_due 1000 (fun _ => ex_virt_dump) 1010).1⟩

/-- The earliest-time loop of the scheduler pass from any starting value: the
result is at most the start and at most every non-zero next dump time, and it
is the start or one of those times. -/
theorem reschedule_earliest_fold (cur_ts_ns : Nat) (clients : List vinstr_node) :
    ∀ e : Nat,
      clients.foldl (fun earliest_next_ns pos =>
          if kbasep_vinstr_next_dump_time_ns cur_ts_ns pos.cli.dump_interval_ns ≠ 0 ∧
              kbasep_vinstr_next_dump_time_ns cur_ts_ns pos.cli.dump_interval_ns
                < earliest_next_ns
          then kbasep_vinstr_next_dump_time_ns cur_ts_ns pos.cli.dump_interval_ns
          else earliest_next_ns) e ≤ e ∧
      (∀ pos ∈ clients,
        kbasep_vinstr_next_dump_time_ns cur_ts_ns pos.cli.dump_interval_ns ≠ 0 →
        clients.foldl (fun earliest_next_ns pos =>
          if kbasep_vinstr_next_dump_time_ns cur_ts_ns pos.cli.dump_interval_ns ≠ 0 ∧
              kbasep_vinstr_next_dump_time_ns cur_ts_ns pos.cli.dump_interval_ns
                < earliest_next_ns
          then kbasep_vinstr_next_dump_time_ns cur_ts_ns pos.cli.dump_interval_ns
          else earliest_next_ns) e
          ≤ kbasep_vinstr_next_dump_time_ns cur_ts_ns pos.cli.dump_interval_ns) ∧
      (clients.foldl (fun earliest_next_ns pos =>
          if kbasep_vinstr_next_dump_time_ns cur_ts_ns pos.cli.dump_interval_ns ≠ 0 ∧
              kbasep_vinstr_next_dump_time_ns cur_ts_ns pos.cli.dump_interval_ns
                < earliest_next_ns
          then kbasep_vinstr_next_dump_time_ns cur_ts_ns pos.cli.dump_interval_ns
          else earliest_next_ns) e = e ∨
        ∃ pos ∈ clients,
          kbasep_vinstr_next_dump_time_ns cur_ts_ns pos.cli.dump_interval_ns ≠ 0 ∧
          clients.foldl (fun earliest_next_ns pos =>
            if kbasep_vinstr_next_dump_time_ns cur_ts_ns pos.cli.dump_interval_ns ≠ 0 ∧
                kbasep_vinstr_next_dump_time_ns cur_ts_ns pos.cli.dump_interval_ns
                  < earliest_next_ns
            then kbasep_vinstr_next_dump_time_ns cur_ts_ns pos.cli.dump_interval_ns
            else earliest_next_ns) e
            = kbasep_vinstr_next_dump_time_ns cur_ts_ns pos.cli.dump_interval_ns) := by
  induction clients with
  | nil =>
    intro e
    refine ⟨Nat.le_refl _, ?_, Or.inl rfl⟩
    intro pos hpos
    cases hpos
  | cons p rest ih =>
    intro e
    rw [List.foldl_cons]
    generalize hx : kbasep_vinstr_next_dump_time_ns cur_ts_ns p.cli.dump_interval_ns = x
    by_cases hc : x ≠ 0 ∧ x < e
    · rw [if_pos hc]
      obtain ⟨h1, h2, h3⟩ := ih x
      refine ⟨by omega, ?_, ?_⟩
      · intro pos hpos hne
        rcases List.mem_cons.mp hpos with hp | hp
        · rw [hp, hx]; exact h1
        · exact h2 pos hp hne
      · right
        rcases h3 with h3 | ⟨pos, hp, hne, he⟩
        · exact ⟨p, List.mem_cons_self _ _, by rw [hx]; exact hc.1, by rw [hx]; exact h3⟩
        · exact ⟨pos, List.mem_cons_of_mem _ hp, hne, he⟩
    · rw [if_neg hc]
      obtain ⟨h1, h2, h3⟩ := ih e
      refine ⟨h1, ?_, ?_⟩
      · intro pos hpos hne
        rcases List.mem_cons.mp hpos with hp | hp
        · rw [hp, hx]
          rw [hp, hx] at hne
          have : ¬ x < e := fun hlt => hc ⟨hne, hlt⟩
          omega
        · exact h2 pos hp hne
      · rcases h3 with h3 | ⟨pos, hp, hne, he⟩
        · exact Or.inl h3
        · exact Or.inr ⟨pos, List.mem_cons_of_mem _ hp, hne, he⟩

/-- The earliest next dump time of a scheduler pass is at most `U64_MAX` and at
most every non-zero next dump time, and it is `U64_MAX` or the non-zero next
dump time of some client. -/
theorem reschedule_earliest_spec (cur_ts_ns : Nat) (clients : List vinstr_node) :
    kbasep_vinstr_reschedule_earliest cur_ts_ns clients ≤ U64_MAX ∧
    (∀ pos ∈ clients,
      kbasep_vinstr_next_dump_time_ns cur_ts_ns pos.cli.dump_interval_ns ≠ 0 →
      kbasep_vinstr_reschedule_earliest cur_ts_ns clients
        ≤ kbasep_vinstr_next_dump_time_ns cur_ts_ns pos.cli.dump_interval_ns) ∧
    (kbasep_vinstr_reschedule_earliest cur_ts_ns clients = U64_MAX ∨
      ∃ pos ∈ clients,
        kbasep_vinstr_next_dump_time_ns cur_ts_ns pos.cli.dump_interval_ns ≠ 0 ∧
        kbasep_vinstr_reschedule_earliest cur_ts_ns clients
          = kbasep_vinstr_next_dump_time_ns cur_ts_ns pos.cli.dump_interval_ns) :=
  reschedule_earliest_fold cur_ts_ns clients U64_MAX

/-- The timer after a scheduler pass. -/
theorem reschedule_timer (vctx : kbase_vinstr_context) (cur_ts_ns : Nat) :
    (kbasep_vinstr_reschedule_worker vctx cur_ts_ns).dump_timer
      = if kbasep_vinstr_reschedule_earliest cur_ts_ns vctx.clients ≠ U64_MAX ∧
            vctx.suspend_count = 0 ∧
            ¬ kbasep_vinstr_reschedule_earliest cur_ts_ns vctx.clients < cur_ts_ns
        then some (kbasep_vinstr_reschedule_earliest cur_ts_ns vctx.clients - cur_ts_ns)
        else none := by
  unfold kbasep_vinstr_reschedule_worker
  dsimp only
  split <;> rfl

/-- While `cur + interval` fits in 64 bits the next dump time of a periodic
client lies after `cur` and at most one interval later. -/
theorem next_dump_time_bounds (cur_ts_ns interval : Nat) (hi : interval ≠ 0)
    (hfit : cur_ts_ns + interval < U64_MOD) :
    cur_ts_ns < kbasep_vinstr_next_dump_time_ns cur_ts_ns interval ∧
    kbasep_vinstr_next_dump_time_ns cur_ts_ns interval ≤ cur_ts_ns + interval := by
  have hdm : interval * (cur_ts_ns / interval) + cur_ts_ns % interval = cur_ts_ns :=
    Nat.div_add_mod _ _
  have hlt : cur_ts_ns % interval < interval := Nat.mod_lt _ (Nat.pos_of_ne_zero hi)
  have h2 : (cur_ts_ns / interval + 1) * interval
      = interval * (cur_ts_ns / interval) + interval := by ring
  have hle : (cur_ts_ns / interval + 1) * interval ≤ cur_ts_ns + interval := by omega
  rw [next_dump_time_no_overflow cur_ts_ns interval hi (Nat.lt_of_le_of_lt hle hfit)]
  constructor
  · omega
  · exact hle

/-- A client that is not periodic has next dump time 0. -/
theorem next_dump_time_zero_interval (cur_ts_ns : Nat) :
    kbasep_vinstr_next_dump_time_ns cur_ts_ns 0 = 0 := by
  simp [kbasep_vinstr_next_dump_time_ns]

/-- The timer after a scheduler pass at time `cur_ts_ns`, for any 64-bit time:
if it is armed then `suspend_count` is 0, some attached client has a non-zero
interval, and the delay is exactly the minimum non-zero `next_dump_time_ns`
across the clients minus `cur_ts_ns`; it is never armed while `suspend_count`
is non-zero or while no client is periodic; and with `suspend_count` 0 and a
periodic client it is armed whenever `cur_ts_ns + interval` stays below
2^64 - 1 for every periodic client. -/
theorem reschedule_timer_spec (vctx : kbase_vinstr_context) (cur_ts_ns : Nat) :
    (∀ d, (kbasep_vinstr_reschedule_worker vctx cur_ts_ns).dump_timer = some d →
      vctx.suspend_count = 0 ∧
      (∃ pos ∈ vctx.clients, pos.cli.dump_interval_ns ≠ 0) ∧
      (∃ pos ∈ (kbasep_vinstr_reschedule_worker vctx cur_ts_ns).clients,
        pos.cli.next_dump_time_ns ≠ 0 ∧ pos.cli.next_dump_time_ns = cur_ts_ns + d) ∧
      (∀ pos ∈ (kbasep_vinstr_reschedule_worker vctx cur_ts_ns).clients,
        pos.cli.next_dump_time_ns ≠ 0 → cur_ts_ns + d ≤ pos.cli.next_dump_time_ns)) ∧
    (vctx.suspend_count ≠ 0 →
      (kbasep_vinstr_reschedule_worker vctx cur_ts_ns).dump_timer = none) ∧
    ((∀ pos ∈ vctx.clients, pos.cli.dump_interval_ns = 0) →
      (kbasep_vinstr_reschedule_worker vctx cur_ts_ns).dump_timer = none) ∧
    (vctx.suspend_count = 0 → (∃ pos ∈ vctx.clients, pos.cli.dump_interval_ns ≠ 0) →
      (∀ pos ∈ vctx.clients, pos.cli.dump_interval_ns ≠ 0 →
        cur_ts_ns + pos.cli.dump_interval_ns < U64_MAX) →
      ∃ d, (kbasep_vinstr_reschedule_worker vctx cur_ts_ns).dump_timer = some d) := by
  obtain ⟨hmax, hle, hex⟩ := reschedule_earliest_spec cur_ts_ns vctx.clients
  refine ⟨?_, ?_, ?_, ?_⟩
  · intro d hd
    rw [reschedule_timer] at hd
    split at hd
    · rename_i hc
      obtain ⟨hne, hs, hge⟩ := hc
      have hd2 : kbasep_vinstr_reschedule_earliest cur_ts_ns vctx.clients - cur_ts_ns = d :=
        Option.some.inj hd
      have hsum : cur_ts_ns + d = kbasep_vinstr_reschedule_earliest cur_ts_ns vctx.clients := by
        omega
      rcases hex with hex | ⟨pos, hp, hn0, he⟩
      · exact absurd hex hne
      · have hint : pos.cli.dump_interval_ns ≠ 0 := by
          intro h0
          rw [h0, next_dump_time_zero_interval] at hn0
          exact hn0 rfl
        refine ⟨hs, ⟨pos, hp, hint⟩, ?_, ?_⟩
        · refine ⟨{ pos with cli := { pos.cli with
              next_dump_time_ns :=
                kbasep_vinstr_next_dump_time_ns cur_ts_ns pos.cli.dump_interval_ns } }, ?_, ?_, ?_⟩
          · rw [reschedule_clients]
            exact List.mem_map.mpr ⟨pos, hp, rfl⟩
          · exact hn0
          · rw [hsum, he]
        · intro q hq hq0
          rw [reschedule_clients] at hq
          obtain ⟨p, hp2, hpq⟩ := List.mem_map.mp hq
          rw [← hpq] at hq0 ⊢
          rw [hsum]
          exact hle p hp2 hq0
    · cases hd
  · intro hs
    rw [reschedule_timer, if_neg (fun hc => hs hc.2.1)]
  · intro hall
    rw [reschedule_timer]
    rcases hex with hex | ⟨pos, hp, hn0, _⟩
    · rw [if_neg (fun hc => hc.1 hex)]
    · rw [hall pos hp, next_dump_time_zero_interval] at hn0
      exact absurd rfl hn0
  · intro hs hper hfit
    obtain ⟨p, hp, hpi⟩ := hper
    have hb := next_dump_time_bounds cur_ts_ns p.cli.dump_interval_ns hpi
      (Nat.lt_trans (hfit p hp hpi) (by decide))
    have hp0 : kbasep_vinstr_next_dump_time_ns cur_ts_ns p.cli.dump_interval_ns ≠ 0 := by
      omega
    have hlt := hfit p hp hpi
    have hne : kbasep_vinstr_reschedule_earliest cur_ts_ns vctx.clients ≠ U64_MAX := by
      have := hle p hp hp0
      omega
    have hge : ¬ kbasep_vinstr_reschedule_earliest cur_ts_ns vctx.clients < cur_ts_ns := by
      rcases hex with hex | ⟨q, hq, hq0, he⟩
      · exact absurd hex hne
      · have hqi : q.cli.dump_interval_ns ≠ 0 := by
          intro h0
          rw [h0, next_dump_time_zero_interval] at hq0
          exact hq0 rfl
        have hbq := next_dump_time_bounds cur_ts_ns q.cli.dump_interval_ns hqi
          (Nat.lt_trans (hfit q hq hqi) (by decide))
        omega
    rw [reschedule_timer, if_pos ⟨hne, hs, hge⟩]
    exact ⟨_, rfl⟩

/-- C26: after a scheduler pass at time `cur_ts_ns` (a clock reading, at most
`KTIME_MAX`, the intervals being 32-bit), the timer is armed if and only if at
least one attached client has a non-zero interval and `suspend_count` is 0;
when it is armed its delay is exactly the minimum non-zero `next_dump_time_ns`
across all clients minus `cur_ts_ns`; so the pass never leaves the timer armed
while `suspend_count` is non-zero. -/
theorem reschedule_timer_armed (vctx : kbase_vinstr_context) (cur_ts_ns : Nat)
    (hclock : cur_ts_ns ≤ KTIME_MAX)
    (hu32 : ∀ pos ∈ vctx.clients, pos.cli.dump_interval_ns < U32_MOD) :
    ((∃ d, (kbasep_vinstr_reschedule_worker vctx cur_ts_ns).dump_timer = some d) ↔
      ((∃ pos ∈ vctx.clients, pos.cli.dump_interval_ns ≠ 0) ∧ vctx.suspend_count = 0)) ∧
    (∀ d, (kbasep_vinstr_reschedule_worker vctx cur_ts_ns).dump_timer = some d →
      (∃ pos ∈ (kbasep_vinstr_reschedule_worker vctx cur_ts_ns).clients,
        pos.cli.next_dump_time_ns ≠ 0 ∧ pos.cli.next_dump_time_ns = cur_ts_ns + d) ∧
      (∀ pos ∈ (kbasep_vinstr_reschedule_worker vctx cur_ts_ns).clients,
        pos.cli.next_dump_time_ns ≠ 0 → cur_ts_ns + d ≤ pos.cli.next_dump_time_ns)) ∧
    (vctx.suspend_count ≠ 0 →
      (kbasep_vinstr_reschedule_worker vctx cur_ts_ns).dump_timer = none) := by
  obtain ⟨h1, h2, _, h4⟩ := reschedule_timer_spec vctx cur_ts_ns
  have hfit : ∀ pos ∈ vctx.clients, pos.cli.dump_interval_ns ≠ 0 →
      cur_ts_ns + pos.cli.dump_interval_ns < U64_MAX := by
    intro pos hp _
    have := hu32 pos hp
    simp only [KTIME_MAX, U32_MOD, U64_MAX] at *
    omega
  refine ⟨⟨?_, ?_⟩, ?_, h2⟩
  · rintro ⟨d, hd⟩
    obtain ⟨hs, hper, _, _⟩ := h1 d hd
    exact ⟨hper, hs⟩
  · rintro ⟨hper, hs⟩
    exact h4 hs hper hfit
  · intro d hd
    obtain ⟨_, _, hmin, hle⟩ := h1 d hd
    exact ⟨hmin, hle⟩

/-- C26 (witness): at time 1000 the example context, with two 300 ns clients
and `suspend_count` 0, gets its timer armed for 200 ns; suspended, it does
not. -/
theorem reschedule_timer_armed_witness :
    (1000 : Nat) ≤ KTIME_MAX ∧
    (∀ pos ∈ ex_context.clients, pos.cli.dump_interval_ns < U32_MOD) ∧
    (∀ pos ∈ ex_context_suspended.clients, pos.cli.dump_interval_ns < U32_MOD) ∧
    (kbasep_vinstr_reschedule_worker ex_context 1000).dump_timer = some 200 ∧
    ((∃ pos ∈ ex_context.clients, pos.cli.dump_interval_ns ≠ 0) ∧
      ex_context.suspend_count = 0) ∧
    (∀ pos ∈ (kbasep_vinstr_reschedule_worker ex_context 1000).clients,
      pos.cli.next_dump_time_ns ≠ 0 → 1000 + 200 ≤ pos.cli.next_dump_time_ns) ∧
    ex_context_suspended.suspend_count ≠ 0 ∧
    (kbasep_vinstr_reschedule_worker ex_context_suspended 1000).dump_timer = none :=
  ⟨by decide, by decide, by decide, by decide,
    (reschedule_timer_armed ex_context 1000 (by decide) (by decide)).1.mp ⟨200, by decide⟩,
    ((reschedule_timer_armed ex_context 1000 (by decide) (by decide)).2.1 200 (by decide)).2,
    by decide,
    (reschedule_timer_armed ex_context_suspended 1000 (by decide) (by decide)).2.2 (by decide)⟩

/-- The 32-bit difference of two counters whose true values are close. -/
theorem u32_sub_ghost (W R : Nat) (h1 : R ≤ W) (h2 : W - R < U32_MOD) :
    u32_sub (W % U32_MOD) (R % U32_MOD) = W - R := by
  simp only [u32_sub, U32_MOD] at *
  omega

/-- Incrementing the 32-bit value of a counter. -/
theorem atomic_inc_ghost (W : Nat) : atomic_inc (W % U32_MOD) = (W + 1) % U32_MOD := by
  simp only [atomic_inc, U32_MOD]
  omega

/-- The slot of the 32-bit value of a counter is the slot of the counter as
long as the counter has not wrapped or the slot count divides 2^32. -/
theorem slot_of_ghost (N W : Nat) (h : W < U32_MOD ∨ N ∣ U32_MOD) :
    (W % U32_MOD) % N = W % N := by
  rcases h with h | h
  · rw [Nat.mod_eq_of_lt h]
  · exact Nat.mod_mod_of_dvd W h

/-- Two counters less than `N` apart use different slots. -/
theorem mod_ne_of_close (N a b : Nat) (hab : a < b) (hclose : b - a < N) :
    a % N ≠ b % N := by
  intro h
  have h0 : (b - a) % N = 0 := Nat.sub_mod_eq_zero_of_mod_eq h.symm
  have hd : N ∣ b - a := Nat.dvd_of_mod_eq_zero h0
  have := Nat.le_of_dvd (by omega) hd
  omega

/-- The two outcomes of a produce with `ds5_used` set: it fails and leaves the
indices and the metadata records as they were, or it returns 0, having found a
free slot, written one record at slot `write_idx % buf_cnt` and advanced
`write_idx`. -/
theorem client_dump_outcome (ds5_used : Int) (metadata : kbase_hwcnt_metadata)
    (vd : virt_dump) (vcli : kbase_vinstr_client) (event_id : base_hwcnt_reader_event)
    (hds : ds5_used ≠ 0) :
    ((kbasep_vinstr_client_dump ds5_used metadata vd vcli event_id).1 ≠ 0 ∧
      (kbasep_vinstr_client_dump ds5_used metadata vd vcli event_id).2.dump_bufs_meta
        = vcli.dump_bufs_meta ∧
      (kbasep_vinstr_client_dump ds5_used metadata vd vcli event_id).2.write_idx
        = vcli.write_idx) ∨
    ((kbasep_vinstr_client_dump ds5_used metadata vd vcli event_id).1 = 0 ∧
      u32_sub vcli.write_idx vcli.read_idx ≠ vcli.buf_cnt ∧
      (∃ m, (kbasep_vinstr_client_dump ds5_used metadata vd vcli event_id).2.dump_bufs_meta
        = vcli.dump_bufs_meta.set (vcli.write_idx % vcli.buf_cnt) m) ∧
      (kbasep_vinstr_client_dump ds5_used metadata vd vcli event_id).2.write_idx
        = atomic_inc vcli.write_idx) := by
  by_cases h0 : (kbasep_vinstr_client_dump ds5_used metadata vd vcli event_id).1 = 0
  · right
    by_cases hfull : u32_sub vcli.write_idx vcli.read_idx = vcli.buf_cnt
    · simp [kbasep_vinstr_client_dump, hds, hfull, EBUSY] at h0
    · by_cases herr : vd.errcode = 0
      · refine ⟨h0, hfull, ?_, ?_⟩
        · refine ⟨{ timestamp := vd.ts_end_ns
                    event_id := event_id.code
                    buffer_idx := vcli.write_idx % vcli.buf_cnt
                    cycles_top :=
                      if metadata.clk_cnt > 0 then vd.dump_buf.clk_cnt_buf.getD 0 0 else 0
                    cycles_shader_cores :=
                      if metadata.clk_cnt > 1 then vd.dump_buf.clk_cnt_buf.getD 1 0 else 0 }, ?_⟩
          simp [kbasep_vinstr_client_dump, hds, hfull, herr]
        · simp [kbasep_vinstr_client_dump, hds, hfull, herr]
      · simp [kbasep_vinstr_client_dump, hds, hfull, herr] at h0
  · left
    have hf := client_dump_failed ds5_used metadata vd vcli event_id h0
    exact ⟨h0, hf.2.2.2.1, hf.1⟩

/-- A failed or foreign call that leaves the client's indices and records alone
keeps the history invariant. -/
theorem fifo_inv_same (N : Nat) (h : vinstr_history) (cli : kbase_vinstr_client)
    (hinv : fifo_inv N h) (hb : cli.buf_cnt = h.cli.buf_cnt)
    (hmeta : cli.dump_bufs_meta = h.cli.dump_bufs_meta) (hw : cli.write_idx = h.cli.write_idx)
    (hm : cli.meta_idx = h.cli.meta_idx) (hr : cli.read_idx = h.cli.read_idx) :
    fifo_inv N { h with cli := cli } := by
  unfold fifo_inv at hinv ⊢
  dsimp only
  rw [hb, hmeta, hw, hm, hr]
  exact hinv

/-- A successful produce keeps the history invariant: the new record goes to a
slot that holds no record still to be returned. -/
theorem fifo_inv_produce (N : Nat) (h : vinstr_history) (cli : kbase_vinstr_client)
    (m : kbase_hwcnt_reader_metadata) (hN : 1 ≤ N ∧ N ≤ MAX_BUFFER_COUNT)
    (hwrap : h.produced.length < U32_MOD ∨ N ∣ U32_MOD)
    (hinv : fifo_inv N h) (hb : cli.buf_cnt = h.cli.buf_cnt)
    (hfree : u32_sub h.cli.write_idx h.cli.read_idx ≠ h.cli.buf_cnt)
    (hmeta : cli.dump_bufs_meta = h.cli.dump_bufs_meta.set (h.cli.write_idx % h.cli.buf_cnt) m)
    (hw : cli.write_idx = atomic_inc h.cli.write_idx)
    (hm : cli.meta_idx = h.cli.meta_idx) (hr : cli.read_idx = h.cli.read_idx) :
    fifo_inv N { h with cli := cli, produced := h.produced ++ [m] } := by
  obtain ⟨ib, il, iw, im, ir, i1, i2, i3, i4, islots, idel⟩ := hinv
  have hN32 : N < U32_MOD := by
    have := hN.2
    simp only [MAX_BUFFER_COUNT, U32_MOD] at *
    omega
  have hsub : u32_sub h.cli.write_idx h.cli.read_idx = h.produced.length - h.returned := by
    rw [iw, ir]
    exact u32_sub_ghost _ _ (by omega) (by omega)
  have hroom : h.produced.length < h.returned + N := by
    rw [hsub, ib] at hfree
    omega
  have hslot : h.cli.write_idx % h.cli.buf_cnt = h.produced.length % N := by
    rw [iw, ib]
    exact slot_of_ghost N _ hwrap
  have hslotlt : h.produced.length % N < h.cli.dump_bufs_meta.length := by
    rw [il]
    exact Nat.mod_lt _ (by omega)
  unfold fifo_inv
  dsimp only
  rw [hb, hmeta, hw, hm, hr, hslot, List.length_set, List.length_append, List.length_singleton,
    iw, atomic_inc_ghost]
  refine ⟨ib, il, rfl, im, ir, i1, i2, by omega, by omega, ?_, ?_⟩
  · intro j hj hrj
    rw [getD_set_meta _ _ _ _ hslotlt]
    by_cases hjw : j = h.produced.length
    · rw [hjw, if_pos rfl, List.getD_append_right _ _ _ _ (Nat.le_refl _), Nat.sub_self]
      rfl
    · have hlt : j < h.produced.length := by omega
      have hne : h.produced.length % N ≠ j % N := by
        intro e
        exact mod_ne_of_close N j h.produced.length hlt (by omega) e.symm
      rw [if_neg hne, List.getD_append _ _ _ _ hlt]
      exact islots j hlt hrj
  · intro k hk
    rw [List.getD_append _ _ _ _ (by omega)]
    exact idel k hk

/-- A successful get_buffer keeps the history invariant: what it delivers is
the record produced at the same position. -/
theorem fifo_inv_deliver (N : Nat) (h : vinstr_history) (size : Nat) (area rest : List Byte)
    (hwrap : h.produced.length < U32_MOD ∨ N ∣ U32_MOD)
    (hinv : fifo_inv N h)
    (hwm : h.cli.write_idx ≠ h.cli.meta_idx) (hrm : h.cli.read_idx = h.cli.meta_idx)
    (harea : area = (h.cli.dump_bufs_meta.getD (h.cli.meta_idx % h.cli.buf_cnt) default).bytes.take
      (min size meta_size) ++ rest) :
    fifo_inv N { h with cli := { h.cli with meta_idx := atomic_inc h.cli.meta_idx }
                        delivered := h.delivered ++ [(size, area)] } := by
  obtain ⟨ib, il, iw, im, ir, i1, i2, i3, i4, islots, idel⟩ := hinv
  have hMR : h.delivered.length = h.returned := by
    rw [ir, im] at hrm
    simp only [U32_MOD] at hrm
    omega
  have hMW : h.delivered.length < h.produced.length := by
    rw [iw, im] at hwm
    have : h.produced.length ≠ h.delivered.length := by
      intro e
      rw [e] at hwm
      exact hwm rfl
    omega
  have hwrapM : h.delivered.length < U32_MOD ∨ N ∣ U32_MOD := by
    rcases hwrap with hw | hw
    · exact Or.inl (by omega)
    · exact Or.inr hw
  have hslot : h.cli.meta_idx % h.cli.buf_cnt = h.delivered.length % N := by
    rw [im, ib]
    exact slot_of_ghost N _ hwrapM
  unfold fifo_inv
  dsimp only
  rw [List.length_append, List.length_singleton, im, atomic_inc_ghost]
  refine ⟨ib, il, iw, rfl, ir, by omega, by omega, by omega, i4, islots, ?_⟩
  intro k hk
  by_cases hkM : k = h.delivered.length
  · rw [hkM, List.getD_append_right _ _ _ _ (Nat.le_refl _), Nat.sub_self]
    have e : ([(size, area)] : List (Nat × List Byte)).getD 0 default = (size, area) := rfl
    rw [e]
    dsimp only
    rw [harea, hslot, islots _ hMW (by omega)]
    apply take_append_length
    rw [List.length_take, metadata_bytes_length]
    omega
  · have hlt : k < h.delivered.length := by omega
    rw [List.getD_append _ _ _ _ hlt]
    exact idel k hlt

/-- A successful put_buffer keeps the history invariant. -/
theorem fifo_inv_return (N : Nat) (h : vinstr_history) (hinv : fifo_inv N h)
    (hmr : h.cli.meta_idx ≠ h.cli.read_idx) :
    fifo_inv N { h with cli := { h.cli with read_idx := atomic_inc h.cli.read_idx }
                        returned := h.returned + 1 } := by
  obtain ⟨ib, il, iw, im, ir, i1, i2, i3, i4, islots, idel⟩ := hinv
  have hMR : h.delivered.length = h.returned + 1 := by
    rw [ir, im] at hmr
    have : h.delivered.length ≠ h.returned := by
      intro e
      rw [e] at hmr
      exact hmr rfl
    omega
  unfold fifo_inv
  dsimp only
  rw [ir, atomic_inc_ghost]
  refine ⟨ib, il, iw, im, rfl, by omega, by omega, i3, by omega, ?_, idel⟩
  intro j hj hrj
  exact islots j hj (by omega)

/-- Every call with `ds5_used` set keeps the history invariant, adds at most one
produced record, and acts on the client as `vinstr_step` does. -/
theorem fifo_inv_step (ds5_used : Int) (metadata : kbase_hwcnt_metadata) (N : Nat)
    (h : vinstr_history) (c : vinstr_call) (hds : ds5_used ≠ 0)
    (hN : 1 ≤ N ∧ N ≤ MAX_BUFFER_COUNT)
    (hwrap : h.produced.length < U32_MOD ∨ N ∣ U32_MOD) (hinv : fifo_inv N h) :
    fifo_inv N (vinstr_history_step ds5_used metadata h c) ∧
    (vinstr_history_step ds5_used metadata h c).produced.length ≤ h.produced.length + 1 ∧
    (vinstr_history_step ds5_used metadata h c).cli = vinstr_step ds5_used metadata h.cli c := by
  cases c with
  | dump event_id vd =>
    have hfr := client_dump_frame ds5_used metadata vd h.cli event_id
    have hci := client_dump_consumer_indices ds5_used metadata vd h.cli event_id
    rcases client_dump_outcome ds5_used metadata vd h.cli event_id hds with
      ⟨hne, hmeta, hwi⟩ | ⟨h0, hfree, ⟨m, hmeta⟩, hwi⟩
    · have e : vinstr_history_step ds5_used metadata h (.dump event_id vd)
          = { h with cli := (kbasep_vinstr_client_dump ds5_used metadata vd h.cli event_id).2 } := by
        simp only [vinstr_history_step, if_neg hne]
      rw [e]
      exact ⟨fifo_inv_same N h _ hinv hfr.2.2 hmeta hwi hci.1 hci.2, Nat.le_succ _, rfl⟩
    · have hlt : h.cli.write_idx % h.cli.buf_cnt < h.cli.dump_bufs_meta.length := by
        rw [hinv.2.1, hinv.1]
        exact Nat.mod_lt _ (by omega)
      have hrec : (kbasep_vinstr_client_dump ds5_used metadata vd h.cli event_id).2.dump_bufs_meta.getD
          (client_dump_slot ds5_used h.cli) default = m := by
        rw [hmeta]
        simp only [client_dump_slot, if_pos hds]
        rw [getD_set_meta _ _ _ _ hlt, if_pos rfl]
      have e : vinstr_history_step ds5_used metadata h (.dump event_id vd)
          = { h with cli := (kbasep_vinstr_client_dump ds5_used metadata vd h.cli event_id).2
                     produced := h.produced ++ [m] } := by
        simp only [vinstr_history_step, if_pos h0, hrec]
      rw [e]
      refine ⟨fifo_inv_produce N h _ m hN hwrap hinv hfr.2.2 hfree hmeta hwi hci.1 hci.2, ?_, rfl⟩
      simp
  | clear vd =>
    exact ⟨hinv, Nat.le_succ _, rfl⟩
  | get_buffer buffer size =>
    rcases get_buffer_cases h.cli buffer size with ⟨hne, hsame⟩ | ⟨h0, hwm, hrm, heq⟩
    · have e : vinstr_history_step ds5_used metadata h (.get_buffer buffer size)
          = { h with cli := (kbasep_vinstr_hwcnt_reader_ioctl_get_buffer h.cli buffer size).2.1 } := by
        simp only [vinstr_history_step, if_neg hne]
      rw [e]
      refine ⟨?_, Nat.le_succ _, rfl⟩
      rw [hsame]
      exact hinv
    · obtain ⟨rest, harea⟩ := get_buffer_user_area h.cli buffer size h0
      have e : vinstr_history_step ds5_used metadata h (.get_buffer buffer size)
          = { h with cli := { h.cli with meta_idx := atomic_inc h.cli.meta_idx }
                     delivered := h.delivered ++
                       [(size, (kbasep_vinstr_hwcnt_reader_ioctl_get_buffer h.cli buffer size).2.2)] } := by
        simp only [vinstr_history_step, if_pos h0, heq]
      refine ⟨?_, ?_, rfl⟩
      · rw [e]
        exact fifo_inv_deliver N h size _ rest hwrap hinv hwm hrm harea
      · rw [e]
        exact Nat.le_succ _
  | put_buffer buffer size env =>
    rcases put_buffer_cases h.cli buffer size env with ⟨hne, hsame⟩ | ⟨h0, hmr, heq⟩
    · have e : vinstr_history_step ds5_used metadata h (.put_buffer buffer size env)
          = { h with
                cli := (kbasep_vinstr_hwcnt_reader_ioctl_put_buffer h.cli buffer size env).2 } := by
        simp only [vinstr_history_step, if_neg hne]
      rw [e]
      refine ⟨?_, Nat.le_succ _, rfl⟩
      rw [hsame]
      exact hinv
    · have e : vinstr_history_step ds5_used metadata h (.put_buffer buffer size env)
          = { h with cli := { h.cli with read_idx := atomic_inc h.cli.read_idx }
                     returned := h.returned + 1 } := by
        simp only [vinstr_history_step, if_pos h0, heq]
      refine ⟨?_, ?_, rfl⟩
      · rw [e]
        exact fifo_inv_return N h hinv hmr
      · rw [e]
        exact Nat.le_succ _

/-- Every call sequence with `ds5_used` set keeps the history invariant, as
long as no more than 2^32 records are produced or the slot count divides
2^32. -/
theorem fifo_inv_run (ds5_used : Int) (metadata : kbase_hwcnt_metadata) (N : Nat)
    (hds : ds5_used ≠ 0) (hN : 1 ≤ N ∧ N ≤ MAX_BUFFER_COUNT) (calls : List vinstr_call) :
    ∀ h : vinstr_history, fifo_inv N h →
      (h.produced.length + calls.length ≤ U32_MOD ∨ N ∣ U32_MOD) →
      fifo_inv N (calls.foldl (vinstr_history_step ds5_used metadata) h) ∧
      (calls.foldl (vinstr_history_step ds5_used metadata) h).produced.length
        ≤ h.produced.length + calls.length ∧
      (calls.foldl (vinstr_history_step ds5_used metadata) h).cli
        = vinstr_run ds5_used metadata h.cli calls := by
  induction calls with
  | nil =>
    intro h hinv _
    exact ⟨hinv, Nat.le_refl _, rfl⟩
  | cons c rest ih =>
    intro h hinv hwrap
    have hw1 : h.produced.length < U32_MOD ∨ N ∣ U32_MOD := by
      rcases hwrap with hw | hw
      · left
        rw [List.length_cons] at hw
        omega
      · exact Or.inr hw
    obtain ⟨s1, s2, s3⟩ := fifo_inv_step ds5_used metadata N h c hds hN hw1 hinv
    have hw2 : (vinstr_history_step ds5_used metadata h c).produced.length + rest.length
        ≤ U32_MOD ∨ N ∣ U32_MOD := by
      rcases hwrap with hw | hw
      · left
        rw [List.length_cons] at hw
        omega
      · exact Or.inr hw
    obtain ⟨r1, r2, r3⟩ := ih (vinstr_history_step ds5_used metadata h c) s1 hw2
    rw [List.foldl_cons, vinstr_run_cons, List.length_cons]
    refine ⟨r1, by omega, ?_⟩
    rw [r3, s3]

/-- C28 (amended): for a client created with N buffers (1 <= N <= 32) and every
sequence of produce, clear, get_buffer and put_buffer calls made from its fresh
state while `ds5_used` is non-zero, as long as fewer than 2^32 calls have been
made or N divides 2^32: a produce in the state reached writes nothing when the
ring is full, and otherwise writes only slot `write_idx % N`, which is not the
slot of any index in `[read_idx, write_idx)`; every record produced and not yet
returned is still in its slot; and the k-th successful get_buffer leaves in the
caller's area the (first `min size meta_size` bytes of the) record written by
the k-th successful produce. -/
theorem fifo_delivery (metadata : kbase_hwcnt_metadata)
    (setup : kbase_ioctl_hwcnt_reader_setup) (env : create_env) (cli : kbase_vinstr_client)
    (ds5_used : Int) (calls : List vinstr_call)
    (hcreate : kbasep_vinstr_client_create metadata setup env = .ok cli)
    (hN : 1 ≤ setup.buffer_count ∧ setup.buffer_count ≤ MAX_BUFFER_COUNT)
    (hds : ds5_used ≠ 0)
    (hwrap : calls.length < U32_MOD ∨ setup.buffer_count ∣ U32_MOD) :
    (vinstr_history_run ds5_used metadata cli calls).cli
      = vinstr_run ds5_used metadata cli calls ∧
    (∀ i, i < u32_sub (vinstr_run ds5_used metadata cli calls).write_idx
          (vinstr_run ds5_used metadata cli calls).read_idx →
      u32_sub (vinstr_run ds5_used metadata cli calls).write_idx
          (vinstr_run ds5_used metadata cli calls).read_idx
        ≠ (vinstr_run ds5_used metadata cli calls).buf_cnt →
      client_dump_slot ds5_used (vinstr_run ds5_used metadata cli calls)
        ≠ (((vinstr_run ds5_used metadata cli calls).read_idx + i) % U32_MOD)
            % (vinstr_run ds5_used metadata cli calls).buf_cnt) ∧
    (∀ (vd : virt_dump) (event_id : base_hwcnt_reader_event),
      (u32_sub (vinstr_run ds5_used metadata cli calls).write_idx
          (vinstr_run ds5_used metadata cli calls).read_idx
        = (vinstr_run ds5_used metadata cli calls).buf_cnt →
        (kbasep_vinstr_client_dump ds5_used metadata vd
          (vinstr_run ds5_used metadata cli calls) event_id).2
          = vinstr_run ds5_used metadata cli calls) ∧
      ∀ j, j ≠ client_dump_slot ds5_used (vinstr_run ds5_used metadata cli calls) →
        (kbasep_vinstr_client_dump ds5_used metadata vd
          (vinstr_run ds5_used metadata cli calls) event_id).2.dump_bufs_meta[j]?
          = (vinstr_run ds5_used metadata cli calls).dump_bufs_meta[j]? ∧
        (kbasep_vinstr_client_dump ds5_used metadata vd
          (vinstr_run ds5_used metadata cli calls) event_id).2.dump_bufs[j]?
          = (vinstr_run ds5_used metadata cli calls).dump_bufs[j]?) ∧
    (∀ j, j < (vinstr_history_run ds5_used metadata cli calls).produced.length →
      (vinstr_history_run ds5_used metadata cli calls).returned ≤ j →
      (vinstr_run ds5_used metadata cli calls).dump_bufs_meta.getD
          (j % setup.buffer_count) default
        = (vinstr_history_run ds5_used metadata cli calls).produced.getD j default) ∧
    (∀ (k size : Nat) (area : List Byte),
      (vinstr_history_run ds5_used metadata cli calls).delivered[k]? = some (size, area) →
      ∃ m, (vinstr_history_run ds5_used metadata cli calls).produced[k]? = some m ∧
        area.take (min size meta_size) = m.bytes.take (min size meta_size)) := by
  obtain ⟨cb, cl, cw, cm, cr⟩ := client_create_ok metadata setup env cli hcreate
  have hinv0 : fifo_inv setup.buffer_count
      { cli := cli, produced := [], delivered := [], returned := 0 } := by
    unfold fifo_inv
    dsimp only
    rw [cb, cl, cw, cm, cr]
    refine ⟨rfl, rfl, rfl, rfl, rfl, Nat.le_refl _, Nat.zero_le _, Nat.le_refl _,
      Nat.zero_le _, ?_, ?_⟩
    · intro j hj
      cases hj
    · intro k hk
      cases hk
  have hwrap0 : ([] : List kbase_hwcnt_reader_metadata).length + calls.length ≤ U32_MOD ∨
      setup.buffer_count ∣ U32_MOD := by
    rcases hwrap with hw | hw
    · left
      rw [List.length_nil]
      omega
    · exact Or.inr hw
  obtain ⟨hinv, hlen, hcli⟩ := fifo_inv_run ds5_used metadata setup.buffer_count hds hN calls
    { cli := cli, produced := [], delivered := [], returned := 0 } hinv0 hwrap0
  have hrun : vinstr_history_run ds5_used metadata cli calls
      = calls.foldl (vinstr_history_step ds5_used metadata)
          { cli := cli, produced := [], delivered := [], returned := 0 } := rfl
  rw [← hrun] at hinv hlen hcli
  have hcli2 : (vinstr_history_run ds5_used metadata cli calls).cli
      = vinstr_run ds5_used metadata cli calls := hcli
  obtain ⟨ib, il, iw, im, ir, i1, i2, i3, i4, islots, idel⟩ := hinv
  rw [hcli2] at ib il iw im ir islots
  have hlen2 : (vinstr_history_run ds5_used metadata cli calls).produced.length
      ≤ calls.length := by
    have := hlen
    rw [List.length_nil] at this
    omega
  have hN32 : setup.buffer_count < U32_MOD := by
    have := hN.2
    simp only [MAX_BUFFER_COUNT, U32_MOD] at *
    omega
  have hsub : u32_sub (vinstr_run ds5_used metadata cli calls).write_idx
      (vinstr_run ds5_used metadata cli calls).read_idx
      = (vinstr_history_run ds5_used metadata cli calls).produced.length
        - (vinstr_history_run ds5_used metadata cli calls).returned := by
    rw [iw, ir]
    exact u32_sub_ghost _ _ (by omega) (by omega)
  refine ⟨hcli2, ?_, ?_, islots, ?_⟩
  · intro i hi hfree
    rw [hsub] at hi hfree
    rw [ib] at hfree
    have hwrapW : (vinstr_history_run ds5_used metadata cli calls).produced.length < U32_MOD ∨
        setup.buffer_count ∣ U32_MOD := by
      rcases hwrap with hw | hw
      · exact Or.inl (by omega)
      · exact Or.inr hw
    have hwrapR : (vinstr_history_run ds5_used metadata cli calls).returned + i < U32_MOD ∨
        setup.buffer_count ∣ U32_MOD := by
      rcases hwrap with hw | hw
      · exact Or.inl (by omega)
      · exact Or.inr hw
    have e1 : client_dump_slot ds5_used (vinstr_run ds5_used metadata cli calls)
        = (vinstr_history_run ds5_used metadata cli calls).produced.length
            % setup.buffer_count := by
      simp only [client_dump_slot, if_pos hds]
      rw [iw, ib]
      exact slot_of_ghost _ _ hwrapW
    have e2 : (((vinstr_run ds5_used metadata cli calls).read_idx + i) % U32_MOD)
        = ((vinstr_history_run ds5_used metadata cli calls).returned + i) % U32_MOD := by
      rw [ir]
      simp only [U32_MOD]
      omega
    rw [e1, e2, ib, slot_of_ghost _ _ hwrapR]
    intro e
    exact mod_ne_of_close setup.buffer_count _ _ (by omega) (by omega) e.symm
  · intro vd event_id
    rcases client_dump_ds5_cases ds5_used metadata vd (vinstr_run ds5_used metadata cli calls)
      event_id hds with e | e | ⟨hfree, e⟩
    · refine ⟨fun _ => e, ?_⟩
      intro j _
      rw [e]
      exact ⟨rfl, rfl⟩
    · refine ⟨?_, ?_⟩
      · intro hfull
        simp [kbasep_vinstr_client_dump, hds, hfull]
      · intro j hj
        rw [e]
        simp only [client_dump_slot, if_pos hds] at hj
        refine ⟨rfl, ?_⟩
        dsimp only
        rw [List.getElem?_set_ne (Ne.symm hj)]
    · refine ⟨fun hfull => absurd hfull hfree, ?_⟩
      intro j hj
      rw [e]
      simp only [client_dump_slot, if_pos hds] at hj
      dsimp only
      rw [List.getElem?_set_ne (Ne.symm hj), List.getElem?_set_ne (Ne.symm hj)]
      exact ⟨rfl, rfl⟩
  · intro k size area hk
    have hkl : k < (vinstr_history_run ds5_used metadata cli calls).delivered.length := by
      by_contra hge
      rw [List.getElem?_eq_none (by omega)] at hk
      cases hk
    have hd : (vinstr_history_run ds5_used metadata cli calls).delivered.getD k default
        = (size, area) := by
      rw [List.getD_eq_getElem?_getD, hk]
      rfl
    have hp := idel k hkl
    rw [hd] at hp
    refine ⟨(vinstr_history_run ds5_used metadata cli calls).produced.getD k default, ?_, hp⟩
    rw [List.getD_eq_getElem?_getD, List.getElem?_eq_getElem (by omega)]
    rfl

/-- C28 (witness): on a fresh two-slot client, after two produces and a
get_buffer, the first delivery carries the record of the first produce (end
timestamp 10), and the record of the second produce is still in slot 1. -/
theorem fifo_delivery_witness :
    kbasep_vinstr_client_create ex_metadata (ex_setup 2) ex_create_env = .ok (ex_fresh 2) ∧
    (1 ≤ (ex_setup 2).buffer_count ∧ (ex_setup 2).buffer_count ≤ MAX_BUFFER_COUNT) ∧
    (1 : Int) ≠ 0 ∧ ex_two_produces.length < U32_MOD ∧
    (vinstr_history_run 1 ex_metadata (ex_fresh 2) ex_two_produces).produced.map
        (fun m => m.timestamp) = [10, 20] ∧
    (vinstr_history_run 1 ex_metadata (ex_fresh 2) ex_two_produces).delivered.map
        (fun d => d.2.take 8) = [le_bytes 8 10] ∧
    (∀ (k size : Nat) (area : List Byte),
      (vinstr_history_run 1 ex_metadata (ex_fresh 2) ex_two_produces).delivered[k]?
        = some (size, area) →
      ∃ m, (vinstr_history_run 1 ex_metadata (ex_fresh 2) ex_two_produces).produced[k]?
          = some m ∧
        area.take (min size meta_size) = m.bytes.take (min size meta_size)) :=
  ⟨ex_fresh_created 2, by decide, by decide, by decide, by decide, by decide,
    (fifo_delivery ex_metadata (ex_setup 2) ex_create_env (ex_fresh 2) 1 ex_two_produces
      (ex_fresh_created 2) (by decide) (by decide) (Or.inl (by decide))).2.2.2.2⟩

/-- Where the metadata sanity check does hold: in every state reached from a
freshly created client (1 <= N <= 32) by calls made while `ds5_used` is
non-zero, a get_buffer call that does not return -EAGAIN finds
`write_idx != meta_idx` and passes the check: slot `meta_idx % N` holds a
record whose `buffer_idx` is `meta_idx % N`. -/
theorem sanity_check_holds_when_not_empty (metadata : kbase_hwcnt_metadata)
    (setup : kbase_ioctl_hwcnt_reader_setup) (env : create_env) (cli : kbase_vinstr_client)
    (ds5_used : Int) (calls : List vinstr_call) (buffer : List Byte) (size : Nat)
    (hcreate : kbasep_vinstr_client_create metadata setup env = .ok cli)
    (hN : 1 ≤ setup.buffer_count ∧ setup.buffer_count ≤ MAX_BUFFER_COUNT)
    (hds : ds5_used ≠ 0)
    (hret : (kbasep_vinstr_hwcnt_reader_ioctl_get_buffer
      (vinstr_run ds5_used metadata cli calls) buffer size).1 ≠ -EAGAIN) :
    (vinstr_run ds5_used metadata cli calls).write_idx
      ≠ (vinstr_run ds5_used metadata cli calls).meta_idx ∧
    get_buffer_sanity_warning (vinstr_run ds5_used metadata cli calls) = false ∧
    ((vinstr_run ds5_used metadata cli calls).dump_bufs_meta.getD
        ((vinstr_run ds5_used metadata cli calls).meta_idx % setup.buffer_count)
        default).buffer_idx
      = (vinstr_run ds5_used metadata cli calls).meta_idx % setup.buffer_count := by
  obtain ⟨hb0, hl0, hw0, hm0, hr0⟩ := client_create_ok metadata setup env cli hcreate
  have h0 : slots_inv setup.buffer_count cli := by
    refine ⟨hb0, hl0, by rw [hm0]; decide, by rw [hw0]; decide, Or.inl ⟨by omega, ?_⟩⟩
    intro j _ hj; omega
  have hinv := slots_inv_run ds5_used metadata setup.buffer_count hds hN calls cli h0
  generalize vinstr_run ds5_used metadata cli calls = s at hret hinv ⊢
  obtain ⟨hb, hl, hm, hw, h1⟩ := hinv
  simp only [MAX_BUFFER_COUNT] at hN
  have hwm : s.write_idx ≠ s.meta_idx := by
    intro e
    apply hret
    unfold kbasep_vinstr_hwcnt_reader_ioctl_get_buffer
    dsimp only
    rw [if_pos e]
  have hslot : s.meta_idx % setup.buffer_count < setup.buffer_count :=
    Nat.mod_lt _ (by omega)
  have hidx : (s.dump_bufs_meta.getD (s.meta_idx % setup.buffer_count) default).buffer_idx
      = s.meta_idx % setup.buffer_count := by
    rcases h1 with ⟨hmw, hA⟩ | hB
    · apply hA _ hslot
      have : s.meta_idx % setup.buffer_count ≤ s.meta_idx := Nat.mod_le _ _
      omega
    · exact hB _ hslot
  refine ⟨hwm, ?_, hidx⟩
  unfold get_buffer_sanity_warning
  dsimp only
  rw [hb, decide_eq_false_iff_not, hidx]
  exact fun h => h rfl

/-- Example: after one produce on a fresh two-slot client a get_buffer
does not return -EAGAIN and passes the sanity check. -/
theorem sanity_check_holds_after_produce :
    kbasep_vinstr_client_create ex_metadata (ex_setup 2) ex_create_env = .ok (ex_fresh 2) ∧
    (1 ≤ (ex_setup 2).buffer_count ∧ (ex_setup 2).buffer_count ≤ MAX_BUFFER_COUNT) ∧
    (1 : Int) ≠ 0 ∧
    (kbasep_vinstr_hwcnt_reader_ioctl_get_buffer
      (vinstr_run 1 ex_metadata (ex_fresh 2) (ex_cycle.take 1)) (List.replicate 32 0) 32).1
      ≠ -EAGAIN ∧
    get_buffer_sanity_warning (vinstr_run 1 ex_metadata (ex_fresh 2) (ex_cycle.take 1))
      = false :=
  ⟨ex_fresh_created 2, by decide, by decide, by decide,
    (sanity_check_holds_when_not_empty ex_metadata (ex_setup 2) ex_create_env (ex_fresh 2) 1
      (ex_cycle.take 1) (List.replicate 32 0) 32 (ex_fresh_created 2) (by decide) (by decide)
      (by decide)).2.1⟩

/-- The zero-filled environment creates the zero-filled example client. -/
theorem ex_fresh_zeroed_created (n : Nat) :
    kbasep_vinstr_client_create ex_metadata (ex_setup n) ex_create_env_zeroed
      = .ok (ex_fresh_zeroed n) := by
  simp [kbasep_vinstr_client_create, ex_create_env_zeroed, ex_create_env, ex_metadata, ex_setup,
    ex_fresh_zeroed, ex_fresh, U64_MOD]

/-- C29: the code's own metadata sanity check fires in the default mode
(`ds5_used` set). (a) On a freshly created four-slot client whose metadata array
holds what the memory held, the first get_buffer finds `buffer_idx` 77 in slot
0: the check fires and the call returns -EAGAIN. (b) On a two-slot client whose
metadata array was zero-filled, after one produce / get_buffer / put_buffer
round the next get_buffer looks at slot 1, which no produce has written and
holds `buffer_idx` 0: the check fires and the call returns -EAGAIN. -/
theorem get_buffer_sanity_check_fails :
    (kbasep_vinstr_client_create ex_metadata (ex_setup 4) ex_create_env = .ok (ex_fresh 4) ∧
      (ex_fresh 4).meta_idx % (ex_fresh 4).buf_cnt = 0 ∧
      ((ex_fresh 4).dump_bufs_meta.getD 0 default).buffer_idx = 77 ∧
      get_buffer_sanity_warning (ex_fresh 4) = true ∧
      kbasep_vinstr_hwcnt_reader_ioctl_get_buffer (ex_fresh 4) (List.replicate 32 0) 32
        = (-EAGAIN, ex_fresh 4, List.replicate 32 0)) ∧
    (kbasep_vinstr_client_create ex_metadata (ex_setup 2) ex_create_env_zeroed
        = .ok (ex_fresh_zeroed 2) ∧
      (vinstr_results 1 ex_metadata (ex_fresh_zeroed 2) ex_cycle).map (fun r => r.1)
        = [0, 0, 0] ∧
      (vinstr_run 1 ex_metadata (ex_fresh_zeroed 2) ex_cycle).meta_idx
          % (vinstr_run 1 ex_metadata (ex_fresh_zeroed 2) ex_cycle).buf_cnt = 1 ∧
      ((vinstr_run 1 ex_metadata (ex_fresh_zeroed 2) ex_cycle).dump_bufs_meta.getD 1
        default).buffer_idx = 0 ∧
      get_buffer_sanity_warning (vinstr_run 1 ex_metadata (ex_fresh_zeroed 2) ex_cycle)
        = true ∧
      (kbasep_vinstr_hwcnt_reader_ioctl_get_buffer
        (vinstr_run 1 ex_metadata (ex_fresh_zeroed 2) ex_cycle)
        (List.replicate 32 0) 32).1 = -EAGAIN) := by
  exact ⟨⟨ex_fresh_created 4, by decide, by decide, by decide, by decide⟩,
    ⟨ex_fresh_zeroed_created 2, by decide, by decide, by decide, by decide, by decide⟩⟩

/-- One round on a drained ring of `N` slots advances all three indices by one
(as 32-bit counters). -/
theorem ex_round_step (s : kbase_vinstr_client) (N k idx : Nat) (hN : 1 ≤ N)
    (hidx : idx < 4) (hslot : k % N = idx)
    (hb : s.buf_cnt = N) (hw : s.write_idx = k) (hm : s.meta_idx = k) (hr : s.read_idx = k) :
    (vinstr_run 1 ex_metadata s (ex_round idx)).buf_cnt = N ∧
    (vinstr_run 1 ex_metadata s (ex_round idx)).write_idx = (k + 1) % U32_MOD ∧
    (vinstr_run 1 ex_metadata s (ex_round idx)).meta_idx = (k + 1) % U32_MOD ∧
    (vinstr_run 1 ex_metadata s (ex_round idx)).read_idx = (k + 1) % U32_MOD := by
  have h1 : ¬ u32_sub k k = N := by simp only [u32_sub, U32_MOD]; omega
  have h2 : ¬ (k + 1) % U32_MOD = k := by simp only [U32_MOD]; omega
  have h3 : ¬ k = (k + 1) % U32_MOD := fun h => h2 h.symm
  have h4 : put_buffer_kbuf 32 ex_put_env
      = some ((List.range 64).map ex_put_env.stack_kbuf) := by decide
  obtain ⟨h5, h6⟩ := ex_user_record_put idx hidx
  simp [vinstr_run, ex_round, vinstr_step, kbasep_vinstr_client_dump, hb, hw, hm, hr, h1,
    ex_virt_dump, kbasep_vinstr_hwcnt_reader_ioctl_get_buffer, atomic_inc, h2, h3, meta_size,
    copy_to_user, user_write, kbasep_vinstr_hwcnt_reader_ioctl_put_buffer, h4, h5, h6, hslot]

/-- Three rounds on a drained three-slot ring whose indices are a multiple of 3
advance all three indices by 3. -/
theorem ex_cycle3_step (s : kbase_vinstr_client) (k : Nat) (hk3 : k % 3 = 0)
    (hk : k + 3 < U32_MOD)
    (hb : s.buf_cnt = 3) (hw : s.write_idx = k) (hm : s.meta_idx = k) (hr : s.read_idx = k) :
    (vinstr_run 1 ex_metadata s ex_cycle3).buf_cnt = 3 ∧
    (vinstr_run 1 ex_metadata s ex_cycle3).write_idx = k + 3 ∧
    (vinstr_run 1 ex_metadata s ex_cycle3).meta_idx = k + 3 ∧
    (vinstr_run 1 ex_metadata s ex_cycle3).read_idx = k + 3 := by
  have e1 : (k + 1) % U32_MOD = k + 1 := by simp only [U32_MOD] at *; omega
  have e2 : (k + 1 + 1) % U32_MOD = k + 2 := by simp only [U32_MOD] at *; omega
  have e3 : (k + 2 + 1) % U32_MOD = k + 3 := by simp only [U32_MOD] at *; omega
  obtain ⟨b1, w1, m1, r1⟩ := ex_round_step s 3 k 0 (by decide) (by decide) hk3 hb hw hm hr
  rw [e1] at w1 m1 r1
  obtain ⟨b2, w2, m2, r2⟩ := ex_round_step _ 3 (k + 1) 1 (by decide) (by decide) (by omega)
    b1 w1 m1 r1
  rw [e2] at w2 m2 r2
  obtain ⟨b3, w3, m3, r3⟩ := ex_round_step _ 3 (k + 2) 2 (by decide) (by decide) (by omega)
    b2 w2 m2 r2
  rw [e3] at w3 m3 r3
  unfold ex_cycle3
  rw [vinstr_run_append, vinstr_run_append]
  exact ⟨b3, w3, m3, r3⟩

/-- After `n` times three rounds on a drained three-slot ring all three indices
have advanced by `3 * n`, as long as that stays below 2^32. -/
theorem ex_cycles3 (n : Nat) : ∀ (s : kbase_vinstr_client) (k : Nat), k % 3 = 0 →
    k + 3 * n < U32_MOD →
    s.buf_cnt = 3 → s.write_idx = k → s.meta_idx = k → s.read_idx = k →
    (vinstr_run 1 ex_metadata s (repeat_calls n ex_cycle3)).buf_cnt = 3 ∧
    (vinstr_run 1 ex_metadata s (repeat_calls n ex_cycle3)).write_idx = k + 3 * n ∧
    (vinstr_run 1 ex_metadata s (repeat_calls n ex_cycle3)).meta_idx = k + 3 * n ∧
    (vinstr_run 1 ex_metadata s (repeat_calls n ex_cycle3)).read_idx = k + 3 * n := by
  induction n with
  | zero =>
    intro s k _ _ hb hw hm hr
    simp only [repeat_calls, vinstr_run, List.foldl_nil, Nat.mul_zero, Nat.add_zero]
    exact ⟨hb, hw, hm, hr⟩
  | succ n ih =>
    intro s k hk3 hk hb hw hm hr
    obtain ⟨hb1, hw1, hm1, hr1⟩ := ex_cycle3_step s k hk3 (by omega) hb hw hm hr
    obtain ⟨hb2, hw2, hm2, hr2⟩ := ih _ (k + 3) (by omega) (by omega) hb1 hw1 hm1 hr1
    simp only [repeat_calls, vinstr_run_append]
    refine ⟨hb2, ?_, ?_, ?_⟩
    · rw [hw2]; omega
    · rw [hm2]; omega
    · rw [hr2]; omega

/-- On a drained three-slot ring whose `write_idx` is 2^32 - 1, after one
produce the ring holds one record, of index 2^32 - 1 and slot 0, is not full,
and the next produce uses slot 0 as well. -/
theorem ex_wrap_overwrite (s : kbase_vinstr_client) (hb : s.buf_cnt = 3)
    (hw : s.write_idx + 1 = U32_MOD) (hr : s.read_idx = s.write_idx) :
    (kbasep_vinstr_client_dump 1 ex_metadata ex_virt_dump s
      .BASE_HWCNT_READER_EVENT_MANUAL).1 = 0 ∧
    u32_sub (kbasep_vinstr_client_dump 1 ex_metadata ex_virt_dump s
        .BASE_HWCNT_READER_EVENT_MANUAL).2.write_idx
      (kbasep_vinstr_client_dump 1 ex_metadata ex_virt_dump s
        .BASE_HWCNT_READER_EVENT_MANUAL).2.read_idx = 1 ∧
    (kbasep_vinstr_client_dump 1 ex_metadata ex_virt_dump s
      .BASE_HWCNT_READER_EVENT_MANUAL).2.buf_cnt = 3 ∧
    client_dump_slot 1 (kbasep_vinstr_client_dump 1 ex_metadata ex_virt_dump s
      .BASE_HWCNT_READER_EVENT_MANUAL).2 = 0 ∧
    client_dump_slot 1 (kbasep_vinstr_client_dump 1 ex_metadata ex_virt_dump s
        .BASE_HWCNT_READER_EVENT_MANUAL).2
      = (((kbasep_vinstr_client_dump 1 ex_metadata ex_virt_dump s
            .BASE_HWCNT_READER_EVENT_MANUAL).2.read_idx + 0) % U32_MOD)
          % (kbasep_vinstr_client_dump 1 ex_metadata ex_virt_dump s
            .BASE_HWCNT_READER_EVENT_MANUAL).2.buf_cnt := by
  have hfree : u32_sub s.write_idx s.read_idx ≠ s.buf_cnt := by
    rw [hr, hb]
    simp only [u32_sub, U32_MOD] at *
    omega
  obtain ⟨e1, e2, _, e4⟩ := client_dump_ok_idx 1 ex_metadata ex_virt_dump s
    .BASE_HWCNT_READER_EVENT_MANUAL (by decide) hfree rfl
  have hb1 := (client_dump_frame 1 ex_metadata ex_virt_dump s
    .BASE_HWCNT_READER_EVENT_MANUAL).2.2
  have hw1 : (kbasep_vinstr_client_dump 1 ex_metadata ex_virt_dump s
      .BASE_HWCNT_READER_EVENT_MANUAL).2.write_idx = 0 := by
    rw [e2]
    simp only [atomic_inc, U32_MOD] at *
    omega
  have hslot : client_dump_slot 1 (kbasep_vinstr_client_dump 1 ex_metadata ex_virt_dump s
      .BASE_HWCNT_READER_EVENT_MANUAL).2 = 0 := by
    simp only [client_dump_slot, ne_eq, one_ne_zero, not_false_eq_true, if_true]
    rw [hw1, hb1, hb]
  refine ⟨e1, ?_, by rw [hb1, hb], hslot, ?_⟩
  · rw [hw1, e4, hr]
    simp only [u32_sub, U32_MOD] at *
    omega
  · rw [hslot, e4, hr, hb1, hb]
    simp only [U32_MOD] at *
    omega

/-- C28 (counterexample): (a) with `ds5_used` clear, on a fresh two-slot client
the second of two produces writes slot 0 again although the first record (index
0, in `[read_idx, write_idx)` = [0, 1)) has not been returned, and the first
successful get_buffer delivers the record of the second produce (end timestamp
20), not that of the first; (b) with `ds5_used` set, on a three-slot client that
has made 2^32 - 1 rounds and one more produce, `[read_idx, write_idx)` holds
the one index 2^32 - 1, whose slot is 0, and the next produce, which finds the
ring not full, writes slot 0. -/
theorem fifo_delivery_fails :
    (kbasep_vinstr_client_create ex_metadata (ex_setup 2) ex_create_env = .ok (ex_fresh 2) ∧
      (vinstr_run 0 ex_metadata (ex_fresh 2) (ex_two_produces.take 1)).read_idx = 0 ∧
      (vinstr_run 0 ex_metadata (ex_fresh 2) (ex_two_produces.take 1)).write_idx = 1 ∧
      client_dump_slot 0 (vinstr_run 0 ex_metadata (ex_fresh 2) (ex_two_produces.take 1))
        = 0 % 2 ∧
      (vinstr_history_run 0 ex_metadata (ex_fresh 2) ex_two_produces).produced.map
          (fun m => m.timestamp) = [10, 20] ∧
      (vinstr_history_run 0 ex_metadata (ex_fresh 2) ex_two_produces).delivered.map
          (fun d => (d.1, d.2.take 8)) = [(32, le_bytes 8 20)] ∧
      ¬ (∀ (k size : Nat) (area : List Byte),
        (vinstr_history_run 0 ex_metadata (ex_fresh 2) ex_two_produces).delivered[k]?
          = some (size, area) →
        ∃ m, (vinstr_history_run 0 ex_metadata (ex_fresh 2) ex_two_produces).produced[k]?
            = some m ∧
          area.take (min size meta_size) = m.bytes.take (min size meta_size))) ∧
    (kbasep_vinstr_client_create ex_metadata (ex_setup 3) ex_create_env = .ok (ex_fresh 3) ∧
      ex_wrap3_state
        = vinstr_run 1 ex_metadata (ex_fresh 3) (repeat_calls 1431655765 ex_cycle3) ∧
      (kbasep_vinstr_client_dump 1 ex_metadata ex_virt_dump ex_wrap3_state
        .BASE_HWCNT_READER_EVENT_MANUAL).1 = 0 ∧
      u32_sub (kbasep_vinstr_client_dump 1 ex_metadata ex_virt_dump ex_wrap3_state
          .BASE_HWCNT_READER_EVENT_MANUAL).2.write_idx
        (kbasep_vinstr_client_dump 1 ex_metadata ex_virt_dump ex_wrap3_state
          .BASE_HWCNT_READER_EVENT_MANUAL).2.read_idx = 1 ∧
      (kbasep_vinstr_client_dump 1 ex_metadata ex_virt_dump ex_wrap3_state
        .BASE_HWCNT_READER_EVENT_MANUAL).2.buf_cnt = 3 ∧
      client_dump_slot 1 (kbasep_vinstr_client_dump 1 ex_metadata ex_virt_dump ex_wrap3_state
          .BASE_HWCNT_READER_EVENT_MANUAL).2
        = (((kbasep_vinstr_client_dump 1 ex_metadata ex_virt_dump ex_wrap3_state
              .BASE_HWCNT_READER_EVENT_MANUAL).2.read_idx + 0) % U32_MOD)
            % (kbasep_vinstr_client_dump 1 ex_metadata ex_virt_dump ex_wrap3_state
              .BASE_HWCNT_READER_EVENT_MANUAL).2.buf_cnt) := by
  refine ⟨⟨ex_fresh_created 2, by decide, by decide, by decide, by decide, by decide, ?_⟩, ?_⟩
  · intro h
    obtain ⟨m, hm, harea⟩ := h 0 32
      ((vinstr_history_run 0 ex_metadata (ex_fresh 2) ex_two_produces).delivered.getD 0
        default).2
      (by decide)
    have hm2 : (vinstr_history_run 0 ex_metadata (ex_fresh 2) ex_two_produces).produced[0]?
        = some ((vinstr_history_run 0 ex_metadata (ex_fresh 2) ex_two_produces).produced.getD 0
            default) := by decide
    rw [hm2] at hm
    have hm3 := Option.some.inj hm
    rw [← hm3] at harea
    revert harea
    decide
  · obtain ⟨hb, hw, _, hr⟩ := ex_cycles3 1431655765 (ex_fresh 3) 0 (by decide) (by decide)
      rfl rfl rfl rfl
    have e : 0 + 3 * 1431655765 = 4294967295 := by decide
    rw [e] at hw hr
    have hb2 : ex_wrap3_state.buf_cnt = 3 := hb
    have hw2 : ex_wrap3_state.write_idx = 4294967295 := hw
    have hr2 : ex_wrap3_state.read_idx = 4294967295 := hr
    have hw3 : ex_wrap3_state.write_idx + 1 = U32_MOD := by
      rw [hw2]
    have hr3 : ex_wrap3_state.read_idx = ex_wrap3_state.write_idx := by
      rw [hw2, hr2]
    obtain ⟨p1, q1, q2, q3, q4⟩ := ex_wrap_overwrite ex_wrap3_state hb2 hw3 hr3
    exact ⟨ex_fresh_created 3, rfl, p1, q1, q2, q4⟩

/-- The slot of an incremented 32-bit counter is the next slot as long as the
counter does not wrap or the slot count divides 2^32. -/
theorem atomic_inc_slot (N w : Nat) (h : w + 1 < U32_MOD ∨ N ∣ U32_MOD) :
    atomic_inc w % N = (w % N + 1) % N := by
  rw [Nat.mod_add_mod]
  unfold atomic_inc
  rcases h with h | h
  · rw [Nat.mod_eq_of_lt h]
  · exact Nat.mod_mod_of_dvd _ h

/-- Two produces on a drained three-slot ring whose `write_idx` is 2^32 - 1
both succeed and both use slot 0. -/
theorem ex_wrap_produces (s : kbase_vinstr_client) (hb : s.buf_cnt = 3)
    (hw : s.write_idx + 1 = U32_MOD) (hr : s.read_idx = s.write_idx) :
    (kbasep_vinstr_client_dump 1 ex_metadata ex_virt_dump s
      .BASE_HWCNT_READER_EVENT_MANUAL).1 = 0 ∧
    client_dump_slot 1 s = 0 ∧
    (kbasep_vinstr_client_dump 1 ex_metadata ex_virt_dump
      (kbasep_vinstr_client_dump 1 ex_metadata ex_virt_dump s
        .BASE_HWCNT_READER_EVENT_MANUAL).2 .BASE_HWCNT_READER_EVENT_MANUAL).1 = 0 ∧
    client_dump_slot 1 (kbasep_vinstr_client_dump 1 ex_metadata ex_virt_dump s
      .BASE_HWCNT_READER_EVENT_MANUAL).2 = 0 := by
  have hfree : u32_sub s.write_idx s.read_idx ≠ s.buf_cnt := by
    rw [hr, hb]
    simp only [u32_sub, U32_MOD] at *
    omega
  obtain ⟨e1, e2, _, e4⟩ := client_dump_ok_idx 1 ex_metadata ex_virt_dump s
    .BASE_HWCNT_READER_EVENT_MANUAL (by decide) hfree rfl
  have hb1 := (client_dump_frame 1 ex_metadata ex_virt_dump s
    .BASE_HWCNT_READER_EVENT_MANUAL).2.2
  have hw1 : (kbasep_vinstr_client_dump 1 ex_metadata ex_virt_dump s
      .BASE_HWCNT_READER_EVENT_MANUAL).2.write_idx = 0 := by
    rw [e2]
    simp only [atomic_inc, U32_MOD] at *
    omega
  have hfree1 : u32_sub (kbasep_vinstr_client_dump 1 ex_metadata ex_virt_dump s
        .BASE_HWCNT_READER_EVENT_MANUAL).2.write_idx
      (kbasep_vinstr_client_dump 1 ex_metadata ex_virt_dump s
        .BASE_HWCNT_READER_EVENT_MANUAL).2.read_idx
      ≠ (kbasep_vinstr_client_dump 1 ex_metadata ex_virt_dump s
        .BASE_HWCNT_READER_EVENT_MANUAL).2.buf_cnt := by
    rw [hw1, e4, hr, hb1, hb]
    simp only [u32_sub, U32_MOD] at *
    omega
  refine ⟨e1, ?_, ?_, ?_⟩
  · simp only [client_dump_slot, ne_eq, one_ne_zero, not_false_eq_true, if_true]
    rw [hb]
    simp only [U32_MOD] at hw
    omega
  · exact (client_dump_ok_idx 1 ex_metadata ex_virt_dump _
      .BASE_HWCNT_READER_EVENT_MANUAL (by decide) hfree1 rfl).1
  · simp only [client_dump_slot, ne_eq, one_ne_zero, not_false_eq_true, if_true]
    rw [hw1, hb1, hb]

/-- Every call keeps the buffer count, and only a produce that returns 0
changes `write_idx`. -/
theorem vinstr_step_write_idx (ds5_used : Int) (metadata : kbase_hwcnt_metadata)
    (vcli : kbase_vinstr_client) (c : vinstr_call) :
    (vinstr_step ds5_used metadata vcli c).buf_cnt = vcli.buf_cnt ∧
    ((vinstr_step ds5_used metadata vcli c).write_idx = vcli.write_idx ∨
      ∃ event_id vd, c = .dump event_id vd ∧
        (kbasep_vinstr_client_dump ds5_used metadata vd vcli event_id).1 = 0) := by
  cases c with
  | dump event_id vd =>
    refine ⟨(client_dump_frame ds5_used metadata vd vcli event_id).2.2, ?_⟩
    by_cases h0 : (kbasep_vinstr_client_dump ds5_used metadata vd vcli event_id).1 = 0
    · exact Or.inr ⟨event_id, vd, rfl, h0⟩
    · exact Or.inl (client_dump_failed ds5_used metadata vd vcli event_id h0).1
  | clear vd => exact ⟨rfl, Or.inl rfl⟩
  | get_buffer buffer size =>
    rcases get_buffer_cases vcli buffer size with ⟨_, h⟩ | ⟨_, _, _, h⟩
    · simp only [vinstr_step, h]
      exact ⟨trivial, Or.inl trivial⟩
    · simp only [vinstr_step, h]
      exact ⟨trivial, Or.inl trivial⟩
  | put_buffer buffer size env =>
    rcases put_buffer_cases vcli buffer size env with ⟨_, h⟩ | ⟨_, _, h⟩
    · simp only [vinstr_step, h]
      exact ⟨trivial, Or.inl trivial⟩
    · simp only [vinstr_step, h]
      exact ⟨trivial, Or.inl trivial⟩

/-- Where slot continuity does hold: with `ds5_used` non-zero, on a client of N
slots (N >= 1) whose indices are 32-bit counters, a successful produce advances
`write_idx` so
that the next produce (no other call changes `write_idx` or the buffer count)
uses slot `(s + 1) % N`, `s` being the slot it used itself, as long as
`write_idx` does not wrap from 2^32 - 1 to 0 between the two or N divides 2^32;
likewise for the slots a successful get_buffer and put_buffer select next from
`meta_idx` and `read_idx`. -/
theorem slot_continuity_without_wrap (ds5_used : Int) (metadata : kbase_hwcnt_metadata) (N : Nat)
    (vcli : kbase_vinstr_client) (hds : ds5_used ≠ 0) (hb : vcli.buf_cnt = N) :
    (∀ (vd : virt_dump) (event_id : base_hwcnt_reader_event),
      (kbasep_vinstr_client_dump ds5_used metadata vd vcli event_id).1 = 0 →
      (vcli.write_idx + 1 < U32_MOD ∨ N ∣ U32_MOD) →
      ∀ next : kbase_vinstr_client,
        next.write_idx
          = (kbasep_vinstr_client_dump ds5_used metadata vd vcli event_id).2.write_idx →
        next.buf_cnt = N →
        client_dump_slot ds5_used next = (client_dump_slot ds5_used vcli + 1) % N) ∧
    (∀ c : vinstr_call,
      (vinstr_step ds5_used metadata vcli c).buf_cnt = N ∧
      ((vinstr_step ds5_used metadata vcli c).write_idx = vcli.write_idx ∨
        ∃ event_id vd, c = .dump event_id vd ∧
          (kbasep_vinstr_client_dump ds5_used metadata vd vcli event_id).1 = 0)) ∧
    (∀ (buffer : List Byte) (size : Nat),
      (kbasep_vinstr_hwcnt_reader_ioctl_get_buffer vcli buffer size).1 = 0 →
      (vcli.meta_idx + 1 < U32_MOD ∨ N ∣ U32_MOD) →
      (kbasep_vinstr_hwcnt_reader_ioctl_get_buffer vcli buffer size).2.1.meta_idx
          % (kbasep_vinstr_hwcnt_reader_ioctl_get_buffer vcli buffer size).2.1.buf_cnt
        = (vcli.meta_idx % N + 1) % N) ∧
    (∀ (buffer : List Byte) (size : Nat) (env : put_env),
      (kbasep_vinstr_hwcnt_reader_ioctl_put_buffer vcli buffer size env).1 = 0 →
      (vcli.read_idx + 1 < U32_MOD ∨ N ∣ U32_MOD) →
      (kbasep_vinstr_hwcnt_reader_ioctl_put_buffer vcli buffer size env).2.read_idx
          % (kbasep_vinstr_hwcnt_reader_ioctl_put_buffer vcli buffer size env).2.buf_cnt
        = (vcli.read_idx % N + 1) % N) := by
  refine ⟨?_, ?_, ?_, ?_⟩
  · intro vd event_id h0 hwrap next hnw hnb
    rcases client_dump_outcome ds5_used metadata vd vcli event_id hds with
      ⟨hne, _, _⟩ | ⟨_, _, _, hwi⟩
    · exact absurd h0 hne
    · simp only [client_dump_slot, if_pos hds]
      rw [hnw, hwi, hnb, hb]
      exact atomic_inc_slot N _ hwrap
  · intro c
    have h := vinstr_step_write_idx ds5_used metadata vcli c
    rw [hb] at h
    exact h
  · intro buffer size h0 hwrap
    rcases get_buffer_cases vcli buffer size with ⟨hne, _⟩ | ⟨_, _, _, h⟩
    · exact absurd h0 hne
    · rw [h]
      dsimp only
      rw [hb]
      exact atomic_inc_slot N _ hwrap
  · intro buffer size env h0 hwrap
    rcases put_buffer_cases vcli buffer size env with ⟨hne, _⟩ | ⟨_, _, h⟩
    · exact absurd h0 hne
    · rw [h]
      dsimp only
      rw [hb]
      exact atomic_inc_slot N _ hwrap

/-- Example: on a four-slot ring with `write_idx` 2^32 - 1 a produce uses
slot 3 and the next one slot 0, 4 dividing 2^32. -/
theorem slot_continuity_power_of_two :
    (1 : Int) ≠ 0 ∧ (ex_client 4 4294967295 4294967295 4294967295).buf_cnt = 4 ∧
    (kbasep_vinstr_client_dump 1 ex_metadata ex_virt_dump
      (ex_client 4 4294967295 4294967295 4294967295) .BASE_HWCNT_READER_EVENT_MANUAL).1 = 0 ∧
    4 ∣ U32_MOD ∧
    client_dump_slot 1 (ex_client 4 4294967295 4294967295 4294967295) = 3 ∧
    client_dump_slot 1 (kbasep_vinstr_client_dump 1 ex_metadata ex_virt_dump
        (ex_client 4 4294967295 4294967295 4294967295) .BASE_HWCNT_READER_EVENT_MANUAL).2
      = (client_dump_slot 1 (ex_client 4 4294967295 4294967295 4294967295) + 1) % 4 :=
  ⟨by decide, rfl, by decide, by decide, by decide,
    (slot_continuity_without_wrap 1 ex_metadata 4 (ex_client 4 4294967295 4294967295 4294967295)
      (by decide) rfl).1 ex_virt_dump .BASE_HWCNT_READER_EVENT_MANUAL (by decide)
      (Or.inr (by decide)) _ rfl
      (client_dump_frame 1 ex_metadata ex_virt_dump
        (ex_client 4 4294967295 4294967295 4294967295) .BASE_HWCNT_READER_EVENT_MANUAL).2.2⟩

/-- C30: slot continuity breaks at the 32-bit wrap in the default mode
(`ds5_used` set) for a buffer count that does not divide 2^32. A client created
with 3 buffers reaches `write_idx = 2^32 - 1` after 2^32 - 1 produce /
get_buffer / put_buffer rounds; there two consecutive produces both return 0,
`write_idx` going from 2^32 - 1 to 0 to 1, and both use slot 0, the second
while the record of the first is still unreturned, where continuity asks for
slots 0 and `(0 + 1) % 3 = 1`. -/
theorem slot_continuity_fails :
    kbasep_vinstr_client_create ex_metadata (ex_setup 3) ex_create_env = .ok (ex_fresh 3) ∧
    (1 ≤ (ex_setup 3).buffer_count ∧ (ex_setup 3).buffer_count ≤ MAX_BUFFER_COUNT) ∧
    ex_wrap3_state
      = vinstr_run 1 ex_metadata (ex_fresh 3) (repeat_calls 1431655765 ex_cycle3) ∧
    ex_wrap3_state.write_idx = 4294967295 ∧
    (kbasep_vinstr_client_dump 1 ex_metadata ex_virt_dump ex_wrap3_state
      .BASE_HWCNT_READER_EVENT_MANUAL).1 = 0 ∧
    client_dump_slot 1 ex_wrap3_state = 0 ∧
    (kbasep_vinstr_client_dump 1 ex_metadata ex_virt_dump ex_wrap3_state
      .BASE_HWCNT_READER_EVENT_MANUAL).2.write_idx = 0 ∧
    u32_sub (kbasep_vinstr_client_dump 1 ex_metadata ex_virt_dump ex_wrap3_state
        .BASE_HWCNT_READER_EVENT_MANUAL).2.write_idx
      (kbasep_vinstr_client_dump 1 ex_metadata ex_virt_dump ex_wrap3_state
        .BASE_HWCNT_READER_EVENT_MANUAL).2.read_idx = 1 ∧
    (kbasep_vinstr_client_dump 1 ex_metadata ex_virt_dump
      (kbasep_vinstr_client_dump 1 ex_metadata ex_virt_dump ex_wrap3_state
        .BASE_HWCNT_READER_EVENT_MANUAL).2 .BASE_HWCNT_READER_EVENT_MANUAL).1 = 0 ∧
    client_dump_slot 1 (kbasep_vinstr_client_dump 1 ex_metadata ex_virt_dump ex_wrap3_state
      .BASE_HWCNT_READER_EVENT_MANUAL).2 = 0 ∧
    (0 + 1) % 3 = 1 := by
  obtain ⟨hb, hw, _, hr⟩ := ex_cycles3 1431655765 (ex_fresh 3) 0 (by decide) (by decide)
    rfl rfl rfl rfl
  have e : 0 + 3 * 1431655765 = 4294967295 := by decide
  rw [e] at hw hr
  have hb2 : ex_wrap3_state.buf_cnt = 3 := hb
  have hw2 : ex_wrap3_state.write_idx = 4294967295 := hw
  have hr2 : ex_wrap3_state.read_idx = 4294967295 := hr
  have hw3 : ex_wrap3_state.write_idx + 1 = U32_MOD := by
    rw [hw2]
  have hr3 : ex_wrap3_state.read_idx = ex_wrap3_state.write_idx := by
    rw [hw2, hr2]
  obtain ⟨p1, p2, p3, p4⟩ := ex_wrap_produces ex_wrap3_state hb2 hw3 hr3
  obtain ⟨_, q1, _, _, _⟩ := ex_wrap_overwrite ex_wrap3_state hb2 hw3 hr3
  have hfree : u32_sub ex_wrap3_state.write_idx ex_wrap3_state.read_idx
      ≠ ex_wrap3_state.buf_cnt := by
    rw [hw2, hr2, hb2]
    decide
  have hw1 : (kbasep_vinstr_client_dump 1 ex_metadata ex_virt_dump ex_wrap3_state
      .BASE_HWCNT_READER_EVENT_MANUAL).2.write_idx = 0 := by
    rw [(client_dump_ok_idx 1 ex_metadata ex_virt_dump ex_wrap3_state
      .BASE_HWCNT_READER_EVENT_MANUAL (by decide) hfree rfl).2.1, hw2]
    decide
  exact ⟨ex_fresh_created 3, by decide, rfl, hw2, p1, p2, hw1, q1, p3, p4, by decide⟩

/-- The reader's mmap, by cases: it calls `remap_pfn_range` exactly when the
byte offset `vm_pgoff * 2^PAGE_SHIFT` plus the length `vm_end - vm_start` is
within `size`, the 64-bit product of buffer count and buffer size, and rejects
the request with -EINVAL otherwise. -/
theorem mmap_cases (PAGE_SHIFT : Nat) (metadata : kbase_hwcnt_metadata)
    (cli : kbase_vinstr_client) (vma : vm_area_struct) (remap_pfn_range : Int)
    (hse : vma.vm_start ≤ vma.vm_end) (hend : vma.vm_end < ULONG_MOD) :
    kbasep_vinstr_hwcnt_reader_mmap PAGE_SHIFT metadata cli vma remap_pfn_range
      = if vma.vm_pgoff * 2 ^ PAGE_SHIFT + (vma.vm_end - vma.vm_start)
            ≤ (cli.buf_cnt * metadata.dump_buf_bytes) % ULONG_MOD
        then (remap_pfn_range,
              some (vma.vm_pgoff * 2 ^ PAGE_SHIFT, vma.vm_end - vma.vm_start))
        else (-EINVAL, none) := by
  have hS : (cli.buf_cnt * metadata.dump_buf_bytes) % ULONG_MOD < ULONG_MOD :=
    Nat.mod_lt _ (by decide)
  have hvm : (vma.vm_end + ULONG_MOD - vma.vm_start) % ULONG_MOD
      = vma.vm_end - vma.vm_start := by
    simp only [ULONG_MOD] at *
    omega
  have hpos : 0 < 2 ^ PAGE_SHIFT := Nat.pos_of_ne_zero (by simp)
  unfold kbasep_vinstr_hwcnt_reader_mmap
  dsimp only
  rw [hvm, Nat.shiftRight_eq_div_pow, Nat.shiftLeft_eq]
  generalize (cli.buf_cnt * metadata.dump_buf_bytes) % ULONG_MOD = S at hS ⊢
  by_cases h1 : vma.vm_pgoff > S / 2 ^ PAGE_SHIFT
  · have hgt : S < vma.vm_pgoff * 2 ^ PAGE_SHIFT := (Nat.div_lt_iff_lt_mul hpos).mp h1
    rw [if_pos h1, if_neg (by omega)]
  · have hle : vma.vm_pgoff * 2 ^ PAGE_SHIFT ≤ S :=
      (Nat.le_div_iff_mul_le hpos).mp (Nat.le_of_not_gt h1)
    have hoff : (vma.vm_pgoff * 2 ^ PAGE_SHIFT) % ULONG_MOD = vma.vm_pgoff * 2 ^ PAGE_SHIFT :=
      Nat.mod_eq_of_lt (Nat.lt_of_le_of_lt hle hS)
    rw [if_neg h1, hoff]
    generalize vma.vm_pgoff * 2 ^ PAGE_SHIFT = O at hle ⊢
    have hsub : (S + ULONG_MOD - O) % ULONG_MOD = S - O := by
      simp only [ULONG_MOD] at *
      omega
    rw [hsub]
    by_cases h2 : vma.vm_end - vma.vm_start > S - O
    · rw [if_pos h2, if_neg (by omega)]
    · rw [if_neg h2, if_pos (by omega)]

/-- C31: for every client and every mapping request with `vm_start <= vm_end`,
when the reader's mmap passes both range checks and calls `remap_pfn_range`,
the byte offset is `vm_pgoff * 2^PAGE_SHIFT`, the length is
`vm_end - vm_start`, and offset plus length is at most
`buf_cnt * dump_buf_bytes`; whenever the first check passes, so that
`size - offset` is computed, the shift has not overflowed and the subtraction
does not underflow; and every request whose offset plus length exceeds
`buf_cnt * dump_buf_bytes` returns -EINVAL without `remap_pfn_range` being
called (while a request within it is passed on when the product fits 64
bits). -/
theorem mmap_bounds (PAGE_SHIFT : Nat) (metadata : kbase_hwcnt_metadata)
    (cli : kbase_vinstr_client) (vma : vm_area_struct) (remap_pfn_range : Int)
    (hse : vma.vm_start ≤ vma.vm_end) (hend : vma.vm_end < ULONG_MOD) :
    (∀ offset len : Nat,
      (kbasep_vinstr_hwcnt_reader_mmap PAGE_SHIFT metadata cli vma remap_pfn_range).2
        = some (offset, len) →
      offset = vma.vm_pgoff * 2 ^ PAGE_SHIFT ∧ len = vma.vm_end - vma.vm_start ∧
      offset + len ≤ cli.buf_cnt * metadata.dump_buf_bytes ∧
      (kbasep_vinstr_hwcnt_reader_mmap PAGE_SHIFT metadata cli vma remap_pfn_range).1
        = remap_pfn_range) ∧
    (¬ vma.vm_pgoff > ((cli.buf_cnt * metadata.dump_buf_bytes) % ULONG_MOD) >>> PAGE_SHIFT →
      (vma.vm_pgoff <<< PAGE_SHIFT) % ULONG_MOD = vma.vm_pgoff * 2 ^ PAGE_SHIFT ∧
      mmap_size_underflow PAGE_SHIFT metadata cli vma = false) ∧
    (cli.buf_cnt * metadata.dump_buf_bytes
        < vma.vm_pgoff * 2 ^ PAGE_SHIFT + (vma.vm_end - vma.vm_start) →
      kbasep_vinstr_hwcnt_reader_mmap PAGE_SHIFT metadata cli vma remap_pfn_range
        = (-EINVAL, none)) ∧
    (cli.buf_cnt * metadata.dump_buf_bytes < ULONG_MOD →
      vma.vm_pgoff * 2 ^ PAGE_SHIFT + (vma.vm_end - vma.vm_start)
        ≤ cli.buf_cnt * metadata.dump_buf_bytes →
      kbasep_vinstr_hwcnt_reader_mmap PAGE_SHIFT metadata cli vma remap_pfn_range
        = (remap_pfn_range,
           some (vma.vm_pgoff * 2 ^ PAGE_SHIFT, vma.vm_end - vma.vm_start))) := by
  have hc := mmap_cases PAGE_SHIFT metadata cli vma remap_pfn_range hse hend
  have hmod : (cli.buf_cnt * metadata.dump_buf_bytes) % ULONG_MOD
      ≤ cli.buf_cnt * metadata.dump_buf_bytes := Nat.mod_le _ _
  have hS : (cli.buf_cnt * metadata.dump_buf_bytes) % ULONG_MOD < ULONG_MOD :=
    Nat.mod_lt _ (by decide)
  have hpos : 0 < 2 ^ PAGE_SHIFT := Nat.pos_of_ne_zero (by simp)
  refine ⟨?_, ?_, ?_, ?_⟩
  · intro offset len h
    rw [hc] at h ⊢
    by_cases hb : vma.vm_pgoff * 2 ^ PAGE_SHIFT + (vma.vm_end - vma.vm_start)
        ≤ (cli.buf_cnt * metadata.dump_buf_bytes) % ULONG_MOD
    · rw [if_pos hb] at h ⊢
      have h2 : (vma.vm_pgoff * 2 ^ PAGE_SHIFT, vma.vm_end - vma.vm_start) = (offset, len) :=
        Option.some.inj h
      have h3 : vma.vm_pgoff * 2 ^ PAGE_SHIFT = offset := congrArg Prod.fst h2
      have h4 : vma.vm_end - vma.vm_start = len := congrArg Prod.snd h2
      refine ⟨h3.symm, h4.symm, ?_, rfl⟩
      rw [← h3, ← h4]
      exact Nat.le_trans hb hmod
    · rw [if_neg hb] at h
      cases h
  · intro h1
    have hle : vma.vm_pgoff * 2 ^ PAGE_SHIFT
        ≤ (cli.buf_cnt * metadata.dump_buf_bytes) % ULONG_MOD := by
      rw [Nat.shiftRight_eq_div_pow] at h1
      exact (Nat.le_div_iff_mul_le hpos).mp (Nat.le_of_not_gt h1)
    have hoff : (vma.vm_pgoff <<< PAGE_SHIFT) % ULONG_MOD = vma.vm_pgoff * 2 ^ PAGE_SHIFT := by
      rw [Nat.shiftLeft_eq]
      exact Nat.mod_eq_of_lt (Nat.lt_of_le_of_lt hle hS)
    refine ⟨hoff, ?_⟩
    unfold mmap_size_underflow
    rw [decide_eq_false_iff_not, hoff]
    omega
  · intro hgt
    rw [hc, if_neg (by omega)]
  · intro hfit hle
    rw [hc, Nat.mod_eq_of_lt hfit, if_pos hle]

/-- C31 (witness): four one-page buffers (16384 bytes); a two-page mapping at
page offset 2 is passed to `remap_pfn_range` with byte offset 8192 and length
8192, and the same mapping at page offset 3 is rejected. -/
theorem mmap_bounds_witness :
    (65536 : Nat) ≤ 73728 ∧ (73728 : Nat) < ULONG_MOD ∧
    kbasep_vinstr_hwcnt_reader_mmap 12 ex_metadata_page (ex_client 4 0 0 0)
        { vm_start := 65536, vm_end := 73728, vm_pgoff := 2 } 0
      = (0, some (8192, 8192)) ∧
    (4 * 4096 : Nat) < 3 * 2 ^ 12 + (73728 - 65536) ∧
    kbasep_vinstr_hwcnt_reader_mmap 12 ex_metadata_page (ex_client 4 0 0 0)
        { vm_start := 65536, vm_end := 73728, vm_pgoff := 3 } 0
      = (-EINVAL, none) :=
  ⟨by decide, by decide, by decide, by decide,
    (mmap_bounds 12 ex_metadata_page (ex_client 4 0 0 0)
      { vm_start := 65536, vm_end := 73728, vm_pgoff := 3 } 0 (by decide) (by decide)).2.2.1
      (by decide)⟩

/-- C32: a put_buffer call with size 0 on a client with a buffer outstanding
reads the slot index from a zeroed scratch record, whatever the caller's buffer
and the environment: it returns 0 and increments `read_idx` (as a 32-bit
counter) when `read_idx % buf_cnt` is 0, and returns -EINVAL leaving the client
unchanged otherwise. -/
theorem put_buffer_size_zero (cli : kbase_vinstr_client) (buffer : List Byte)
    (env : put_env) (hout : cli.meta_idx ≠ cli.read_idx) :
    put_buffer_kbuf 0 env = some (List.replicate 64 0) ∧
    buffer_idx_of_bytes ((copy_from_user buffer 0).1 ++ (List.replicate 64 (0 : Byte)).drop 0)
      = 0 ∧
    kbasep_vinstr_hwcnt_reader_ioctl_put_buffer cli buffer 0 env
      = (if cli.read_idx % cli.buf_cnt = 0
         then (0, { cli with read_idx := (cli.read_idx + 1) % U32_MOD })
         else (-EINVAL, cli)) ∧
    ((kbasep_vinstr_hwcnt_reader_ioctl_put_buffer cli buffer 0 env).1 = 0
      ↔ cli.read_idx % cli.buf_cnt = 0) := by
  have hk : put_buffer_kbuf 0 env = some (List.replicate 64 0) := by
    simp [put_buffer_kbuf, meta_size]
  have hidx : buffer_idx_of_bytes
      ((copy_from_user buffer 0).1 ++ (List.replicate 64 (0 : Byte)).drop 0) = 0 := by
    simp only [copy_from_user, List.take_zero, List.nil_append, List.drop_zero]
    decide
  have hcopy : ¬ (copy_from_user buffer 0).2 ≠ 0 := by
    simp [copy_from_user]
  have hloop : (List.range' meta_size (0 - meta_size)).any
      (fun i => ((copy_from_user buffer 0).1
        ++ (List.replicate 64 (0 : Byte)).drop 0).getD i 0 ≠ 0) = false := by
    simp [meta_size]
  have heq : kbasep_vinstr_hwcnt_reader_ioctl_put_buffer cli buffer 0 env
      = (if cli.read_idx % cli.buf_cnt = 0
         then (0, { cli with read_idx := (cli.read_idx + 1) % U32_MOD })
         else (-EINVAL, cli)) := by
    unfold kbasep_vinstr_hwcnt_reader_ioctl_put_buffer
    dsimp only
    rw [if_neg hout, hk]
    dsimp only
    rw [if_neg hcopy, hloop, hidx]
    by_cases h0 : cli.read_idx % cli.buf_cnt = 0
    · rw [if_pos h0]
      simp only [Bool.false_eq_true, if_false, h0, ne_eq, not_true_eq_false, atomic_inc]
    · rw [if_neg h0]
      simp only [Bool.false_eq_true, if_false, ne_eq, h0, not_false_eq_true, if_true]
  refine ⟨hk, hidx, heq, ?_⟩
  rw [heq]
  by_cases h0 : cli.read_idx % cli.buf_cnt = 0
  · rw [if_pos h0]
    exact ⟨fun _ => h0, fun _ => rfl⟩
  · rw [if_neg h0]
    constructor
    · intro h
      have hne : (-EINVAL : Int) ≠ 0 := by decide
      exact absurd h hne
    · intro h
      exact absurd h h0

/-- C32 (witness): with size 0 and a caller buffer of 0xff bytes, the put
succeeds on a four-slot client whose `read_idx` is 4 and fails with -EINVAL on
one whose `read_idx` is 2. -/
theorem put_buffer_size_zero_witness :
    (ex_client 4 5 5 4).meta_idx ≠ (ex_client 4 5 5 4).read_idx ∧
    kbasep_vinstr_hwcnt_reader_ioctl_put_buffer (ex_client 4 5 5 4)
        (List.replicate 32 255) 0 ex_put_env_nomem = (0, ex_client 4 5 5 5) ∧
    (ex_client 4 3 3 2).meta_idx ≠ (ex_client 4 3 3 2).read_idx ∧
    kbasep_vinstr_hwcnt_reader_ioctl_put_buffer (ex_client 4 3 3 2)
        (List.replicate 32 255) 0 ex_put_env = (-EINVAL, ex_client 4 3 3 2) :=
  ⟨by decide,
    ((put_buffer_size_zero (ex_client 4 5 5 4) (List.replicate 32 255) ex_put_env_nomem
      (by decide)).2.2.1).trans (by decide),
    by decide,
    ((put_buffer_size_zero (ex_client 4 3 3 2) (List.replicate 32 255) ex_put_env
      (by decide)).2.2.1).trans (by decide)⟩

end Vinstr
